import Mathlib

/-!
# snider: the per-connection session protocol

A shallow embedding of `server.go`, `smtpconn.go` and `errors.go`, and the properties of the
session protocol proved about it.

## Data

* Go strings and byte slices are lists of bytes (`Bytes`); a byte is a natural number below
  256.  Nothing below depends on the bound.
* A Go `error` interface value is a `GoError`; `GoError.nil` is the nil error.
* A network connection is a `Conn`: the segments still to arrive on it, the error that ends
  its inbound stream, the outcomes of the coming `Write` calls, a log of every `Write` call
  and of the bytes transmitted, and whether it is closed.  Every function passes the
  connection state explicitly.

## Library routines

The standard-library routines the code calls are embedded from their Go definitions, for the
verbs and formats the code uses: `fmt.Fprintf` (one `Write` of the formatted text),
`fmt.Sscanf` (the scanner of `fmt/scan.go` reading runes, with its limit of `2^30` runes),
`bufio.Reader.ReadBytes` (with the 4096-byte buffer of `bufio.NewReader`),
`bytes.TrimSuffix`, `bytes.HasPrefix`, `io.TeeReader`, `errors.As`, `errors.Is`,
`utf8.DecodeRune`, `utf8.AppendRune` and `strconv.Quote`.

## Environment

* The TLS library is a parameter: any program of reads, writes, closes and calls of the
  `GetConfigForClient` hook (`TLSProg`).  The theorems hold for every such program.
* `net.Dial` is a parameter: it fails, or reaches a peer given by what it will send and by
  the outcomes of the writes to it.
* An inbound stream is finite and ends with `io.EOF` or a `*net.OpError`; a peer that stalls
  forever is outside the model.
* The readiness task on the backend runs next to the two writes to the backend.  Reads and
  writes touch different parts of a connection, so their order does not matter; the model
  writes first and then waits.
* The relay is its result (nil or a `*net.OpError`) and the closing of both connections; the
  bytes it copies are not followed.
* Logging has no effect on any connection and is left out.
-/

namespace Snider

/-- A Go string or byte slice. -/
abbrev Bytes := List Nat

/-! ## unicode/utf8 -/

/-- The rune `utf8.RuneError` (U+FFFD). -/
def RuneError : Nat := 0xFFFD

/-- The encoder `utf8.AppendRune`: the UTF-8 encoding of a rune; a surrogate or
out-of-range rune is encoded as `RuneError`. -/
def encodeRune (r : Nat) : Bytes :=
  if r ≤ 0x7F then [r]
  else if r ≤ 0x7FF then [0xC0 + r / 64, 0x80 + r % 64]
  else if 0x10FFFF < r ∨ (0xD800 ≤ r ∧ r ≤ 0xDFFF) then [0xEF, 0xBF, 0xBD]
  else if r ≤ 0xFFFF then [0xE0 + r / 4096, 0x80 + r / 64 % 64, 0x80 + r % 64]
  else [0xF0 + r / 262144, 0x80 + r / 4096 % 64, 0x80 + r / 64 % 64, 0x80 + r % 64]

/-- The tables `first` and `acceptRanges` of unicode/utf8 for a leading byte of
a multi-byte sequence: the sequence length and the range accepted for the
second byte; `none` for an ASCII or an invalid leading byte. -/
def leadInfo (b : Nat) : Option (Nat × Nat × Nat) :=
  if 0xC2 ≤ b ∧ b ≤ 0xDF then some (2, 0x80, 0xBF)
  else if b = 0xE0 then some (3, 0xA0, 0xBF)
  else if b = 0xED then some (3, 0x80, 0x9F)
  else if 0xE1 ≤ b ∧ b ≤ 0xEF then some (3, 0x80, 0xBF)
  else if b = 0xF0 then some (4, 0x90, 0xBF)
  else if 0xF1 ≤ b ∧ b ≤ 0xF3 then some (4, 0x80, 0xBF)
  else if b = 0xF4 then some (4, 0x80, 0x8F)
  else none

/-- The decoder `utf8.DecodeRune`: the first rune of `p` and its width in
bytes; `(RuneError, 1)` for an invalid or truncated encoding, `(RuneError, 0)`
for empty input. -/
def decodeRune (p : Bytes) : Nat × Nat :=
  match p with
  | [] => (RuneError, 0)
  | p0 :: _ =>
    if p0 < 0x80 then (p0, 1) else
    match leadInfo p0 with
    | none => (RuneError, 1)
    | some (sz, lo, hi) =>
      if p.length < sz then (RuneError, 1) else
      let b1 := p.getD 1 0
      if b1 < lo ∨ hi < b1 then (RuneError, 1) else
      if sz ≤ 2 then (p0 % 32 * 64 + b1 % 64, 2) else
      let b2 := p.getD 2 0
      if b2 < 0x80 ∨ 0xBF < b2 then (RuneError, 1) else
      if sz ≤ 3 then (p0 % 16 * 4096 + b1 % 64 * 64 + b2 % 64, 3) else
      let b3 := p.getD 3 0
      if b3 < 0x80 ∨ 0xBF < b3 then (RuneError, 1) else
      (p0 % 8 * 262144 + b1 % 64 * 4096 + b2 % 64 * 64 + b3 % 64, 4)

/-- The runes of a string, decoded left to right as a rune reader over the
string yields them.  The first argument counts the bytes of the current
encoding that are still to be skipped. -/
def decodeRunesFrom : Nat → Bytes → List Nat
  | _, [] => []
  | k + 1, _ :: t => decodeRunesFrom k t
  | 0, b :: t => (decodeRune (b :: t)).1 :: decodeRunesFrom ((decodeRune (b :: t)).2 - 1) t

/-- The runes of a string. -/
def decodeRunes (s : Bytes) : List Nat := decodeRunesFrom 0 s

/-- The bytes of a list of runes (`string(runes)`). -/
def encodeRunes (rs : List Nat) : Bytes := rs.flatMap encodeRune

/-- The bytes of a source-code string literal. -/
def str (s : String) : Bytes := s.toList.flatMap fun c => encodeRune c.toNat

/-! ## fmt verbs and strconv.Quote -/

/-- The verb `%d` on a Go `int`. -/
def fmtInt (i : Int) : Bytes :=
  (if i < 0 then str "-" else []) ++ (Nat.toDigits 10 i.natAbs).map Char.toNat

/-- The digit table `lowerhex` of strconv. -/
def lowerhex (n : Nat) : Nat := (str "0123456789abcdef").getD n 0

/-- The predicate `strconv.IsPrint`.  Runes up to U+00FF are decided inline as in
strconv; `tbl` stands for the printable tables consulted above U+00FF. -/
def IsPrint (tbl : Nat → Bool) (r : Nat) : Bool :=
  if r ≤ 0xFF then
    if 0x20 ≤ r ∧ r ≤ 0x7E then true
    else if 0xA1 ≤ r ∧ r ≤ 0xFF then r != 0xAD
    else false
  else tbl r

/-- The routine `appendEscapedRune` of strconv with the double quote as quote
character, neither ASCII-only nor graphic-only. -/
def appendEscapedRune (tbl : Nat → Bool) (r : Nat) : Bytes :=
  if r = 0x22 ∨ r = 0x5C then [0x5C, r]
  else if IsPrint tbl r then encodeRune r
  else if r = 7 then str "\\a"
  else if r = 8 then str "\\b"
  else if r = 12 then str "\\f"
  else if r = 10 then str "\\n"
  else if r = 13 then str "\\r"
  else if r = 9 then str "\\t"
  else if r = 11 then str "\\v"
  else if r < 0x20 ∨ r = 0x7F then
    str "\\x" ++ [lowerhex (r % 256 / 16), lowerhex (r % 16)]
  else if 0x10FFFF < r ∨ (0xD800 ≤ r ∧ r ≤ 0xDFFF) then
    str "\\ufffd"
  else if r < 0x10000 then
    str "\\u" ++ [lowerhex (r / 4096 % 16), lowerhex (r / 256 % 16),
      lowerhex (r / 16 % 16), lowerhex (r % 16)]
  else
    str "\\U" ++ [lowerhex (r / 268435456 % 16), lowerhex (r / 16777216 % 16),
      lowerhex (r / 1048576 % 16), lowerhex (r / 65536 % 16),
      lowerhex (r / 4096 % 16), lowerhex (r / 256 % 16),
      lowerhex (r / 16 % 16), lowerhex (r % 16)]

/-- The loop of `appendQuotedWith`: one escaped item per rune of the string; a
byte that is not the start of a valid encoding becomes a two-digit hex escape.
The first argument counts the bytes of the current encoding still to be
skipped. -/
def quoteFrom (tbl : Nat → Bool) : Nat → Bytes → Bytes
  | _, [] => []
  | k + 1, _ :: t => quoteFrom tbl k t
  | 0, b :: t =>
    let rw := if 0x80 ≤ b then decodeRune (b :: t) else (b, 1)
    (if rw.2 = 1 ∧ rw.1 = RuneError then
        str "\\x" ++ [lowerhex (b / 16), lowerhex (b % 16)]
      else appendEscapedRune tbl rw.1) ++ quoteFrom tbl (rw.2 - 1) t

/-- The verb `%q` on a string (`strconv.Quote`). -/
def Quote (tbl : Nat → Bool) (s : Bytes) : Bytes :=
  [0x22] ++ quoteFrom tbl 0 s ++ [0x22]

/-! ## Errors -/

/-- A Go `error` value.  `nil` is the nil interface value, `eof` is `io.EOF`,
`plain` an error without a cause (`errors.New`, `fmt.Errorf` without a wrapping
verb, the scan errors of fmt), `opError` a `*net.OpError` with its `Err`,
`wrapped` any other error type with an `Unwrap` method, and `smtp` a
`*SMTPError` with its four fields. -/
inductive GoError where
  | nil
  | eof
  | plain (msg : Bytes)
  | opError (op : String) (err : GoError)
  | wrapped (msg : String) (cause : GoError)
  | smtp (BasicStatus : Int) (EnhancedStatus : Bytes) (Message : Bytes) (Underlying : GoError)
deriving DecidableEq, Repr

/-- One step of the cause chain: what `Unwrap` returns (`SMTPError.Unwrap`
returns `Underlying`); nil for an error without a cause. -/
def GoError.Unwrap : GoError → GoError
  | .opError _ err => err
  | .wrapped _ cause => cause
  | .smtp _ _ _ u => u
  | _ => .nil

/-- The call `errors.As(err, &smtpError)` for a target of type `*SMTPError`:
the first `*SMTPError` on the cause chain, with its status, enhanced status
and message, if there is one. -/
def errorsAsSMTP : GoError → Option (Int × Bytes × Bytes)
  | .smtp b e m _ => some (b, e, m)
  | .opError _ err => errorsAsSMTP err
  | .wrapped _ cause => errorsAsSMTP cause
  | _ => none

/-- The call `errors.As(err, &opError)` for a target of type `*net.OpError`:
whether some error on the cause chain is a `*net.OpError`. -/
def errorsAsOpError : GoError → Bool
  | .opError _ _ => true
  | .wrapped _ cause => errorsAsOpError cause
  | .smtp _ _ _ u => errorsAsOpError u
  | _ => false

/-- The call `errors.Is(err, io.EOF)`: whether some error on the cause chain is
`io.EOF`. -/
def errorsIsEOF : GoError → Bool
  | .eof => true
  | .opError _ err => errorsIsEOF err
  | .wrapped _ cause => errorsIsEOF cause
  | .smtp _ _ _ u => errorsIsEOF u
  | _ => false

/-- The text `SMTPError.Write` formats with `"%d %s %s\r\n"`: the status line of an
SMTP error. -/
def smtpLine (basic : Int) (enhanced message : Bytes) : Bytes :=
  fmtInt basic ++ str " " ++ enhanced ++ str " " ++ message ++ str "\r\n"

/-! ## Connections (net.Conn) -/

/-- What ends the inbound stream of a connection: `io.EOF` (the peer closed) or
a `*net.OpError`. -/
inductive ConnErr where
  | eof
  | op (desc : Bytes)
deriving DecidableEq, Repr

/-- The error value a `Read` returns at the end of the inbound stream. -/
def ConnErr.toError : ConnErr → GoError
  | .eof => .eof
  | .op desc => .opError "read" (.plain desc)

/-- The outcome of one `Write` call: all bytes are transmitted, or the call
fails with a `*net.OpError` after transmitting the first `n` bytes. -/
inductive WriteOutcome where
  | ok
  | fail (n : Nat) (desc : Bytes)
deriving DecidableEq, Repr

/-- A network connection as the session sees it.  `chunks` are the inbound
segments still to arrive, in order: each is what one `Read` with a large enough
buffer returns.  `rerr` ends the inbound stream.  `wscript` gives the outcomes
of the coming `Write` calls (a call beyond the script succeeds).  `calls` logs
the argument of every `Write` call and `wire` the bytes transmitted. -/
structure Conn where
  chunks : List Bytes
  rerr : ConnErr
  wscript : List WriteOutcome
  calls : List Bytes
  wire : Bytes
  closed : Bool
deriving DecidableEq, Repr

/-- The error of an operation on a closed connection. -/
def errClosed (op : String) : GoError :=
  .opError op (.plain (str "use of closed network connection"))

/-- The method `net.Conn.Write`. -/
def Conn.Write (c : Conn) (p : Bytes) : (Nat × GoError) × Conn :=
  if c.closed then ((0, errClosed "write"), { c with calls := c.calls ++ [p] })
  else
    match c.wscript with
    | [] => ((p.length, .nil), { c with calls := c.calls ++ [p], wire := c.wire ++ p })
    | .ok :: rest =>
      ((p.length, .nil), { c with wscript := rest, calls := c.calls ++ [p], wire := c.wire ++ p })
    | .fail n desc :: rest =>
      (((p.take n).length, .opError "write" (.plain desc)),
        { c with wscript := rest, calls := c.calls ++ [p], wire := c.wire ++ p.take n })

/-- The method `net.Conn.Read` with a buffer of length `n`: up to `n` bytes of the
next non-empty segment, or the error that ends the stream. -/
def Conn.Read (c : Conn) (n : Nat) : (Bytes × GoError) × Conn :=
  if c.closed then (([], errClosed "read"), c)
  else if n = 0 then (([], .nil), c)
  else
    match c.chunks.dropWhile (fun ch => ch.isEmpty) with
    | [] => (([], c.rerr.toError), { c with chunks := [] })
    | ch :: rest =>
      if ch.length ≤ n then ((ch, .nil), { c with chunks := rest })
      else ((ch.take n, .nil), { c with chunks := ch.drop n :: rest })

/-- The method `net.Conn.Close`. -/
def Conn.Close (c : Conn) : GoError × Conn :=
  if c.closed then (errClosed "close", c) else (.nil, { c with closed := true })

/-- Whether every scripted `Write` on the connection succeeds. -/
def Conn.reliable (c : Conn) : Prop := ∀ o ∈ c.wscript, o = WriteOutcome.ok

instance (c : Conn) : Decidable c.reliable := by
  unfold Conn.reliable
  infer_instance

/-! ## smtpconn.go: CaptureConn -/

/-- The type `CaptureConn`: the wrapped connection and the tee buffer.  The field
`rd` is `io.TeeReader(conn, buf)` and is folded into `Read`. -/
structure CaptureConn where
  Conn : Conn
  teeBuffer : Bytes
deriving DecidableEq, Repr

/-- The constructor `NewCaptureConn`. -/
def NewCaptureConn (conn : Conn) : CaptureConn :=
  { Conn := conn, teeBuffer := [] }

/-- The method `CaptureConn.Read`: a read of the tee reader, which reads the
wrapped connection and appends what was read to the buffer. -/
def CaptureConn.Read (c : CaptureConn) (n : Nat) : (Bytes × GoError) × CaptureConn :=
  let r := c.Conn.Read n
  (r.1, { Conn := r.2, teeBuffer := if 0 < r.1.1.length then c.teeBuffer ++ r.1.1 else c.teeBuffer })

/-- The method `CaptureConn.Write`. -/
def CaptureConn.Write (c : CaptureConn) (p : Bytes) : (Nat × GoError) × CaptureConn :=
  ((p.length, .nil), c)

/-- The method `CaptureConn.Close`. -/
def CaptureConn.Close (c : CaptureConn) : GoError × CaptureConn :=
  (.nil, c)

/-! ## bufio.Reader.ReadBytes -/

/-- The first line of `s`, up to and including the first `\n`, and what follows
it; `none` if `s` has no `\n`. -/
def cutLine : Bytes → Option (Bytes × Bytes)
  | [] => none
  | b :: t =>
    if b = 10 then some ([10], t)
    else
      match cutLine t with
      | some (l, r) => some (b :: l, r)
      | none => none

/-- The size of the buffer of a `bufio.Reader` made by `bufio.NewReader`. -/
def defaultBufSize : Nat := 4096

/-- The loop of `ReadBytes` (`collectFragments` over `ReadSlice` and `fill`): `acc` holds the
full buffers collected so far and `buf` the unread bytes in the buffer.  The line is found in
the buffer; or the buffer is full and is collected; or the buffer is filled by one `Read` into
its free space, whose error ends the loop with the bytes read so far.  The first argument
bounds the number of rounds; `ReadBytes` supplies a bound that is never reached. -/
def readBytesLoop : Nat → Bytes → Bytes → Conn → (Bytes × GoError) × Bytes × Conn
  | 0, acc, buf, c => ((acc ++ buf, .plain (str "unreachable")), [], c)
  | fuel + 1, acc, buf, c =>
    match cutLine buf with
    | some (l, r) => ((acc ++ l, .nil), r, c)
    | none =>
      if defaultBufSize ≤ buf.length then readBytesLoop fuel (acc ++ buf) [] c
      else if (c.Read (defaultBufSize - buf.length)).1.2 ≠ .nil then
        ((acc ++ buf, (c.Read (defaultBufSize - buf.length)).1.2), [],
          (c.Read (defaultBufSize - buf.length)).2)
      else
        readBytesLoop fuel acc (buf ++ (c.Read (defaultBufSize - buf.length)).1.1)
          (c.Read (defaultBufSize - buf.length)).2

/-- The call `rd.ReadBytes(10)` on a buffered reader holding `buf` over the
connection `c`: the bytes up to and including the first `\n`; at the end of the
stream, the bytes read so far and the error.  Returns the new reader buffer and
connection as well. -/
def ReadBytes (buf : Bytes) (c : Conn) : (Bytes × GoError) × Bytes × Conn :=
  readBytesLoop (2 * c.chunks.flatten.length + 2) [] buf c

/-- The function `bytes.TrimSuffix`. -/
def TrimSuffix (s suffix : Bytes) : Bytes :=
  if suffix.isSuffixOf s then s.take (s.length - suffix.length) else s

/-- The function `bytes.HasPrefix`. -/
def HasPrefix (s pre : Bytes) : Bool := pre.isPrefixOf s

/-! ## fmt.Sscanf, for formats made of `%s` verbs and spaces -/

/-- The scanner limit `hugeWid` of fmt: a scan reads at most this many runes. -/
def hugeWid : Nat := 2 ^ 30

/-- The predicate `isSpace` of fmt/scan.go, with its table `space`. -/
def isSpace (r : Nat) : Bool :=
  (0x09 ≤ r && r ≤ 0x0D) || r == 0x20 || r == 0x85 || r == 0xA0 || r == 0x1680 ||
  (0x2000 ≤ r && r ≤ 0x200A) || r == 0x2028 || r == 0x2029 || r == 0x202F ||
  r == 0x205F || r == 0x3000

/-- The method `ss.SkipSpace` when newlines do not count as space (as in
`Sscanf`): skips spaces; a newline is an error. -/
def SkipSpace : List Nat → Except GoError (List Nat)
  | [] => .ok []
  | r :: rs =>
    if r = 13 ∧ rs.head? = some 10 then SkipSpace rs
    else if r = 10 then .error (.plain (str "unexpected newline"))
    else if isSpace r then SkipSpace rs
    else .ok (r :: rs)

/-- The method `ss.token(true, notSpace)`: skips spaces, then reads the run of
runes that are not spaces.  Returns the run and the input left. -/
def token (rs : List Nat) : Except GoError (List Nat × List Nat) :=
  match SkipSpace rs with
  | .error e => .error e
  | .ok rs1 => .ok (rs1.takeWhile (fun r => !isSpace r), rs1.dropWhile (fun r => !isSpace r))

/-- The method `ss.convertString` for the verb `%s`: skips spaces, fails with
`io.EOF` at the end of input (`notEOF`), and returns the next word. -/
def convertString (rs : List Nat) : Except GoError (Bytes × List Nat) :=
  match SkipSpace rs with
  | .error e => .error e
  | .ok rs1 =>
    if rs1 = [] then .error .eof
    else
      match token rs1 with
      | .error e => .error e
      | .ok (tok, rest) => .ok (encodeRunes tok, rest)

/-- The method `ss.advance` on a run of spaces in the format that holds no
newline: the input must be at its end or continue with a space that is not a
newline; the spaces up to the next newline are skipped. -/
def advanceSpace (rs : List Nat) : Except GoError (List Nat) :=
  match rs with
  | [] => .ok []
  | r :: _ =>
    if !isSpace r then .error (.plain (str "expected space in input to match format"))
    else if r = 10 then .error (.plain (str "newline in input does not match format"))
    else .ok (rs.dropWhile (fun x => isSpace x && x != 10))

/-- An item of a scan format: the verb `%s`, or a run of spaces. -/
inductive FmtItem where
  | verbS
  | space
deriving DecidableEq, Repr

/-- The format `"%s %s"`. -/
def patternEHLO : List FmtItem := [.verbS, .space, .verbS]

/-- The format `"%s"`. -/
def patternSTARTTLS : List FmtItem := [.verbS]

/-- The number of operands a format takes. -/
def verbCount (pattern : List FmtItem) : Nat := pattern.count .verbS

/-- The method `ss.doScanf` with one string operand per verb: the operands
stored so far and the error. -/
def doScanf : List FmtItem → List Nat → List Bytes → List Bytes × GoError
  | [], _, args => (args, .nil)
  | .space :: rest, rs, args =>
    match advanceSpace rs with
    | .error e => (args, e)
    | .ok rs1 => doScanf rest rs1 args
  | .verbS :: rest, rs, args =>
    match SkipSpace rs with
    | .error e => (args, e)
    | .ok rs1 =>
      match convertString rs1 with
      | .error e => (args, e)
      | .ok (s, rs2) => doScanf rest rs2 (args ++ [s])

/-- The function `fmt.Sscanf` with string operands: the operands stored and the
error.  The count `n` that `Sscanf` returns is the number of operands stored. -/
def Sscanf (s : Bytes) (pattern : List FmtItem) : List Bytes × GoError :=
  doScanf pattern ((decodeRunes s).take hugeWid) []

/-! ## smtpconn.go: SMTPConn -/

/-- The type `SMTPConn`: the connection, the bytes held by the buffered reader
`rd`, and the EHLO domain. -/
structure SMTPConn where
  Conn : Conn
  rd : Bytes
  EHLODomain : Bytes
deriving DecidableEq, Repr

/-- The variable `capabilities`. -/
def capabilities : List Bytes :=
  [str "250-PIPELINING", str "250-8BITMIME", str "250-ENHANCEDSTATUSCODES",
   str "250-CHUNKING", str "250-STARTTLS", str "250-SMTPUTF8", str "250 SIZE 33554432"]

/-- The method `Write` of an `SMTPConn`, promoted from the embedded connection.
Every `fmt.Fprintf(c, ...)` is one such call on the formatted text. -/
def SMTPConn.Write (c : SMTPConn) (p : Bytes) : (Nat × GoError) × SMTPConn :=
  ((c.Conn.Write p).1, { c with Conn := (c.Conn.Write p).2 })

/-- The method `SMTPConn.Ready`. -/
def SMTPConn.Ready (c : SMTPConn) (domain : Bytes) : GoError × SMTPConn :=
  let w := c.Write (str "220 " ++ domain ++ str " ESMTP server is submissive (and breedable)\r\n")
  (w.1.2, w.2)

/-- The method `SMTPConn.Readlinef`: the operands scanned from the next line and
the error. -/
def SMTPConn.Readlinef (c : SMTPConn) (pattern : List FmtItem) :
    (List Bytes × GoError) × SMTPConn :=
  let r := ReadBytes c.rd c.Conn
  let c1 : SMTPConn := { c with rd := r.2.1, Conn := r.2.2 }
  if r.1.2 ≠ .nil then (([], r.1.2), c1)
  else
    let line := r.1.1
    let trimmedLine := TrimSuffix line.dropLast [13]
    let sc := Sscanf trimmedLine pattern
    if sc.2 ≠ .nil then
      if errorsIsEOF sc.2 then ((sc.1, .plain (str "unexpected EOF during scanf")), c1)
      else ((sc.1, sc.2), c1)
    else if sc.1.length ≠ verbCount pattern then
      ((sc.1, .plain (str "expected " ++ fmtInt (verbCount pattern) ++ str " args, got " ++
        fmtInt sc.1.length)), c1)
    else ((sc.1, .nil), c1)

/-- The method `SMTPConn.WaitEHLO`. -/
def SMTPConn.WaitEHLO (c : SMTPConn) : GoError × SMTPConn :=
  let r := c.Readlinef patternEHLO
  if r.1.2 ≠ .nil then (r.1.2, r.2)
  else
    let command := r.1.1.getD 0 []
    let domain := r.1.1.getD 1 []
    if command ≠ str "EHLO" then
      (.smtp 503 (str "5.5.1") (str "Bad sequence of commands")
        (.plain (str "expected EHLO, got " ++ command)), r.2)
    else (.nil, { r.2 with EHLODomain := domain })

/-- The method `SMTPConn.WaitSTARTTLS`. -/
def SMTPConn.WaitSTARTTLS (c : SMTPConn) : GoError × SMTPConn :=
  let r := c.Readlinef patternSTARTTLS
  if r.1.2 ≠ .nil then (r.1.2, r.2)
  else
    let command := r.1.1.getD 0 []
    if command ≠ str "STARTTLS" then
      (.smtp 503 (str "5.5.1") (str "STARTTLS is required")
        (.plain (str "expected STARTTLS, got " ++ command)), r.2)
    else (.nil, r.2)

/-- The method `SMTPError.Write` on an `SMTPConn`. -/
def SMTPError.Write (basic : Int) (enhanced message : Bytes) (w : SMTPConn) :
    GoError × SMTPConn :=
  (((w.Write (smtpLine basic enhanced message)).1).2, (w.Write (smtpLine basic enhanced message)).2)

/-! ## main.go: configuration -/

/-- The type `Backend`. -/
structure Backend where
  Hostname : Bytes
  Protocol : Bytes
  Address : Bytes
deriving DecidableEq, Repr

/-- The type `Config`. -/
structure Config where
  ListenAddr : Bytes
  ListenProto : Bytes
  AdvertiseName : Bytes
  Backends : List Backend
deriving DecidableEq, Repr

/-- The type `Server` (without its logger). -/
structure Server where
  cfg : Config
deriving DecidableEq, Repr

/-! ## The environment of a session -/

/-- What the TLS library does in `tls.Server(conn, cfg).Handshake()`: it reads from,
writes to and may close the connection it was given, may call the
`GetConfigForClient` hook with the server name of a parsed ClientHello, and ends
with the error `Handshake` returns.  Each continuation receives what the
operation returned. -/
inductive TLSProg where
  | read (n : Nat) (k : Bytes × GoError → TLSProg)
  | write (p : Bytes) (k : Nat × GoError → TLSProg)
  | close (k : GoError → TLSProg)
  | getConfigForClient (serverName : Bytes) (k : GoError → TLSProg)
  | done (err : GoError)

/-- The peer of a freshly dialed connection: the segments it will send, what
ends its stream, and the outcomes of the writes to it. -/
structure Peer where
  chunks : List Bytes
  rerr : ConnErr
  wscript : List WriteOutcome
deriving DecidableEq, Repr

/-- A connection to `p` on which nothing has been written yet. -/
def Conn.fresh (p : Peer) : Conn :=
  { chunks := p.chunks, rerr := p.rerr, wscript := p.wscript, calls := [], wire := [],
    closed := false }

/-- Everything outside the session that its behaviour depends on: the TLS
library, `net.Dial` (an error description, or the peer reached, for a network
and an address), the first non-nil result of the two copy tasks of the relay
(a `*net.OpError`, given by its description), and the printable tables of
strconv. -/
structure Env where
  handshake : TLSProg
  dial : Bytes → Bytes → Except Bytes Peer
  relay : Option Bytes
  isPrint : Nat → Bool

/-- The handshake run over a `CaptureConn`, with the variable `serverName` that
the hook of `handleSession` assigns; the hook returns
`errors.New("not implemented")`.  Returns the handshake error, the capture
connection and `serverName`. -/
def runTLS : TLSProg → CaptureConn → Bytes → GoError × CaptureConn × Bytes
  | .read n k, cc, sn => runTLS (k (cc.Read n).1) (cc.Read n).2 sn
  | .write p k, cc, sn => runTLS (k (cc.Write p).1) (cc.Write p).2 sn
  | .close k, cc, sn => runTLS (k cc.Close.1) cc.Close.2 sn
  | .getConfigForClient name k, cc, _ => runTLS (k (.plain (str "not implemented"))) cc name
  | .done err, cc, sn => (err, cc, sn)

/-! ## server.go: handleSession -/

/-- What a session did: the error `handleSession` returns, the client
connection, whether the sniffing step was reached, the captured bytes, the
sniffed server name and the handshake error, the backends passed to
`net.Dial`, the backend connection if the dial succeeded, the result of the
readiness wait, and whether the replay was written and the relay started.
The `calls` and `wire` of the connections do not include what the relay
copies. -/
structure Outcome where
  err : GoError
  conn : SMTPConn
  sniffed : Bool
  captured : Bytes
  serverName : Bytes
  handshakeErr : GoError
  dials : List Backend
  backend : Option Conn
  readiness : GoError
  replayed : Bool
  relayed : Bool
deriving DecidableEq, Repr

/-- The loop over `capabilities` in `handleSession`. -/
def writeCapabilities : List Bytes → SMTPConn → GoError × SMTPConn
  | [], c => (.nil, c)
  | cap :: rest, c =>
    if (c.Write (cap ++ str "\r\n")).1.2 ≠ .nil then
      ((c.Write (cap ++ str "\r\n")).1.2, (c.Write (cap ++ str "\r\n")).2)
    else writeCapabilities rest (c.Write (cap ++ str "\r\n")).2

/-- The first part of `handleSession`, up to and including the acknowledgement of
STARTTLS. -/
def handleSession_frontend (s : Server) (conn : SMTPConn) : GoError × SMTPConn :=
  let r1 := conn.Ready s.cfg.AdvertiseName
  if r1.1 ≠ .nil then r1 else
  let r2 := r1.2.WaitEHLO
  if r2.1 ≠ .nil then r2 else
  let w3 := r2.2.Write (str "250-Hello " ++ r2.2.EHLODomain ++ str "\r\n")
  if w3.1.2 ≠ .nil then (w3.1.2, w3.2) else
  let r4 := writeCapabilities capabilities w3.2
  if r4.1 ≠ .nil then r4 else
  let r5 := r4.2.WaitSTARTTLS
  if r5.1 ≠ .nil then r5 else
  let w6 := r5.2.Write (str "220 2.0.0 Ready to start TLS\r\n")
  (.nil, w6.2)

/-- The task started with `eg1.Go`: a buffered reader over the backend reads
lines until one begins with `220 2.0.0`.  Returns what `eg1.Wait()` returns, the
reader buffer and the connection.  The first argument bounds the number of
lines read; `waitReady` supplies a bound that is never reached. -/
def waitReadyLoop : Nat → Bytes → Conn → GoError × Bytes × Conn
  | 0, buf, c => (.plain (str "unreachable"), buf, c)
  | fuel + 1, buf, c =>
    let r := ReadBytes buf c
    if r.1.2 ≠ .nil then (r.1.2, r.2.1, r.2.2)
    else if HasPrefix r.1.1 (str "220 2.0.0") then (.nil, r.2.1, r.2.2)
    else waitReadyLoop fuel r.2.1 r.2.2

/-- The readiness wait on a freshly dialed backend connection. -/
def waitReady (c : Conn) : GoError × Bytes × Conn :=
  waitReadyLoop (c.chunks.flatten.length + 1) [] c

/-- The error `Backend unavailable`. -/
def backendUnavailable (underlying : GoError) : GoError :=
  .smtp 451 (str "4.3.0") (str "Backend unavailable") underlying

/-- The body of the backend loop of `handleSession` for a backend whose hostname
matched: dial, backend negotiation, replay and relay.  `o` is the session so
far. -/
def serveBackend (env : Env) (o : Outcome) (backend : Backend) : Outcome :=
  match env.dial backend.Protocol backend.Address with
  | .error desc =>
    { o with err := backendUnavailable (.opError "dial" (.plain desc)),
             dials := o.dials ++ [backend] }
  | .ok peer =>
    let backendConn := Conn.fresh peer
    let w1 := backendConn.Write (str "EHLO " ++ o.conn.EHLODomain ++ str "\r\n")
    let w2 := w1.2.Write (str "STARTTLS\r\n")
    let j := waitReady w2.2
    let w3 := j.2.2.Write o.captured
    if w3.1.2 ≠ .nil then
      { o with err := backendUnavailable w3.1.2, dials := o.dials ++ [backend],
               backend := some w3.2, readiness := j.1 }
    else
      { o with err := (match env.relay with
                       | some desc => .opError "read" (.plain desc)
                       | none => .nil),
               conn := { o.conn with Conn := { o.conn.Conn with closed := true } },
               dials := o.dials ++ [backend],
               backend := some { w3.2 with closed := true },
               readiness := j.1, replayed := true, relayed := true }

/-- The backend loop of `handleSession` and the error that follows it. -/
def selectBackend (env : Env) (o : Outcome) : List Backend → Outcome
  | [] =>
    { o with err := (GoError.smtp 501 (str "5.5.4")
        (str "No backend found for server name " ++ Quote env.isPrint o.serverName)
        (.plain (str "no backend found for server name " ++ Quote env.isPrint o.serverName))) }
  | backend :: rest =>
    if backend.Hostname = o.serverName then serveBackend env o backend
    else selectBackend env o rest

/-- The method `Server.handleSession`. -/
def handleSession (s : Server) (env : Env) (conn : SMTPConn) : Outcome :=
  let f := handleSession_frontend s conn
  if f.1 ≠ .nil then
    { err := f.1, conn := f.2, sniffed := false, captured := [], serverName := [],
      handshakeErr := .nil, dials := [], backend := none, readiness := .nil,
      replayed := false, relayed := false }
  else
    let h := runTLS env.handshake (NewCaptureConn f.2.Conn) []
    let o : Outcome :=
      { err := .nil, conn := { f.2 with Conn := h.2.1.Conn }, sniffed := true,
        captured := h.2.1.teeBuffer, serverName := h.2.2, handshakeErr := h.1,
        dials := [], backend := none, readiness := .nil, replayed := false,
        relayed := false }
    if h.2.2 = [] then
      { o with err := (GoError.smtp 501 (str "5.5.4") (str "No server name provided") h.1) }
    else selectBackend env o s.cfg.Backends

/-- The method `Server.handleConnection`: the session on a new `SMTPConn`, the
status line written for its error, and the deferred `Close`. -/
def handleConnection (s : Server) (env : Env) (conn : Conn) : Outcome :=
  let o := handleSession s env { Conn := conn, rd := [], EHLODomain := [] }
  let c1 : SMTPConn :=
    match errorsAsSMTP o.err with
    | some (basic, enhanced, message) => (SMTPError.Write basic enhanced message o.conn).2
    | none =>
      if o.err ≠ .nil then
        if !errorsAsOpError o.err && !errorsIsEOF o.err then
          (SMTPError.Write 451 (str "4.3.0") (str "Service Unavailable") o.conn).2
        else o.conn
      else o.conn
  { o with conn := { c1 with Conn := c1.Conn.Close.2 } }

/-! ## Vocabulary of the statements -/

/-- A Unicode scalar value: what a rune decoded from a string can be. -/
def validRune (r : Nat) : Prop := r ≤ 0x10FFFF ∧ ¬ (0xD800 ≤ r ∧ r ≤ 0xDFFF)

instance (r : Nat) : Decidable (validRune r) := by
  unfold validRune
  infer_instance

/-- A word as the verb `%s` scans it: the encoding of a non-empty run of scalar values
none of which is a space. -/
def IsWord (s : Bytes) : Prop :=
  ∃ tok : List Nat, s = encodeRunes tok ∧ tok ≠ [] ∧ ∀ r ∈ tok, isSpace r = false ∧ validRune r

/-- The error shapes a session can return without an `SMTPError`: nil, `io.EOF`, a
`*net.OpError` over a plain error, or a plain error. -/
def BaseShape (e : GoError) : Prop :=
  e = .nil ∨ e = .eof ∨ (∃ op d, e = .opError op (.plain d)) ∨ ∃ m, e = .plain m

/-- The unread inbound stream of a session: the bytes held by the buffered reader
followed by the segments still to arrive. -/
def SMTPConn.pending (c : SMTPConn) : Bytes := c.rd ++ c.Conn.chunks.flatten

/-- The state `c1` of a session that started in `c`, wrote `ps` to the client with every
write succeeding, has `rest` as unread inbound stream and `dom` as EHLO domain. -/
def After (c c1 : SMTPConn) (ps : List Bytes) (rest dom : Bytes) : Prop :=
  c1.Conn.closed = false ∧ c1.Conn.reliable ∧ c1.Conn.calls = c.Conn.calls ++ ps ∧
  c1.Conn.wire = c.Conn.wire ++ ps.flatten ∧ c1.pending = rest ∧ c1.EHLODomain = dom

/-- The client connection `c1` comes from `c` by reads and by `Write` calls: it is
closed if `c` was, its call log extends that of `c`, and if `c` was open and reliable then so
is `c1` and everything written was transmitted. -/
def Frame (c c1 : Conn) : Prop :=
  c1.closed = c.closed ∧ ∃ ps : List Bytes, c1.calls = c.calls ++ ps ∧
    (c.closed = false → c.reliable → c1.reliable ∧ c1.wire = c.wire ++ ps.flatten)

/-- The session before the backend loop: the frontend succeeded and the sniffing step ran. -/
def sniffedOutcome (s : Server) (env : Env) (c : SMTPConn) : Outcome :=
  { err := .nil,
    conn := { (handleSession_frontend s c).2 with
      Conn := (runTLS env.handshake (NewCaptureConn (handleSession_frontend s c).2.Conn) []).2.1.Conn },
    sniffed := true,
    captured := (runTLS env.handshake (NewCaptureConn (handleSession_frontend s c).2.Conn) []).2.1.teeBuffer,
    serverName := (runTLS env.handshake (NewCaptureConn (handleSession_frontend s c).2.Conn) []).2.2,
    handshakeErr := (runTLS env.handshake (NewCaptureConn (handleSession_frontend s c).2.Conn) []).1,
    dials := [], backend := none, readiness := .nil, replayed := false, relayed := false }

/-- A sequence of reads on a connection with buffers of the given lengths: what each read
returned, and the connection afterwards. -/
def readsDirect : List Nat → Conn → List (Bytes × GoError) × Conn
  | [], c => ([], c)
  | n :: ns, c => ((c.Read n).1 :: (readsDirect ns (c.Read n).2).1, (readsDirect ns (c.Read n).2).2)

/-- The same sequence of reads performed through a `CaptureConn`. -/
def readsThrough : List Nat → CaptureConn → List (Bytes × GoError) × CaptureConn
  | [], c => ([], c)
  | n :: ns, c => ((c.Read n).1 :: (readsThrough ns (c.Read n).2).1, (readsThrough ns (c.Read n).2).2)

/-- The error `e` is `x` or wraps it: `x` is reached from `e` by unwrapping some number of
times. -/
def OnChain (e x : GoError) : Prop := ∃ k : Nat, GoError.Unwrap^[k] e = x

/-- An error value of type `*SMTPError`. -/
def IsSMTPError (x : GoError) : Prop := ∃ b en m u, x = GoError.smtp b en m u

/-- An error value of type `*net.OpError`. -/
def IsOpError (x : GoError) : Prop := ∃ op err, x = GoError.opError op err

/-- The status lines `handleConnection` writes for the error `e` of a session. -/
def reportLines (e : GoError) : List Bytes :=
  match errorsAsSMTP e with
  | some (basic, enhanced, message) => [smtpLine basic enhanced message]
  | none =>
    if e ≠ .nil ∧ errorsAsOpError e = false ∧ errorsIsEOF e = false then
      [smtpLine 451 (str "4.3.0") (str "Service Unavailable")]
    else []

/-! ## Sample inputs -/

/-- A sample server: it advertises `mx.test` and has one backend, for `a.test`. -/
def sampleServer : Server :=
  { cfg := { ListenAddr := str ":25", ListenProto := str "tcp", AdvertiseName := str "mx.test",
             Backends := [{ Hostname := str "a.test", Protocol := str "tcp",
                            Address := str "127.0.0.1:2525" }] } }

/-- A sample TLS library run: one read, the hook called with `name`, an alert written, and
the hook's error returned. -/
def sampleHandshake (name : Bytes) : TLSProg :=
  .read 1024 fun _ => .getConfigForClient name fun e => .write [21, 3, 3, 0, 2, 2, 80] fun _ =>
    .done e

/-- A sample environment: the ClientHello names `name`, and nothing listens on any backend
address. -/
def sampleEnv (name : Bytes) : Env :=
  { handshake := sampleHandshake name, dial := fun _ _ => .error (str "connection refused"),
    relay := none, isPrint := fun _ => false }

/-- A client that sends the given segments and then closes; every write to it succeeds. -/
def sampleClient (segments : List Bytes) : Conn :=
  { chunks := segments, rerr := .eof, wscript := [], calls := [], wire := [], closed := false }

/-- A session on a client that sends a valid EHLO line, then STARTTLS, then three bytes of a
TLS record. -/
def sampleSession : SMTPConn :=
  { Conn := sampleClient [str "EHLO me\r\n", str "STARTTLS\r\n", [22, 3, 1]], rd := [],
    EHLODomain := [] }

/-- A sample server with three backends, the last two for the same hostname `a.test`. -/
def twinServer : Server :=
  { cfg := { ListenAddr := str ":25", ListenProto := str "tcp", AdvertiseName := str "mx.test",
             Backends := [{ Hostname := str "b.test", Protocol := str "tcp",
                            Address := str "127.0.0.1:2500" },
                          { Hostname := str "a.test", Protocol := str "tcp",
                            Address := str "127.0.0.1:2501" },
                          { Hostname := str "a.test", Protocol := str "unix",
                            Address := str "/run/a.sock" }] } }

/-- A sample server whose only backend has the empty hostname. -/
def emptyHostServer : Server :=
  { cfg := { ListenAddr := str ":25", ListenProto := str "tcp", AdvertiseName := str "mx.test",
             Backends := [{ Hostname := [], Protocol := str "tcp",
                            Address := str "127.0.0.1:2525" }] } }

/-- A backend that answers with a 421 line and closes, never sending `220 2.0.0`; every
write to it succeeds. -/
def busyBackend : Peer :=
  { chunks := [str "421 4.3.2 Service not available\r\n"], rerr := .eof, wscript := [] }

/-- A sample environment whose backends are all `busyBackend`. -/
def busyEnv (name : Bytes) : Env :=
  { handshake := sampleHandshake name, dial := fun _ _ => .ok busyBackend,
    relay := none, isPrint := fun _ => false }

/-! ## Lemmas -/

theorem Conn.Write_calls (c : Conn) (p : Bytes) : (c.Write p).2.calls = c.calls ++ [p] := by
  unfold Conn.Write
  split
  · rfl
  · split <;> rfl

theorem Conn.Write_chunks (c : Conn) (p : Bytes) : (c.Write p).2.chunks = c.chunks := by
  unfold Conn.Write
  split
  · rfl
  · split <;> rfl

theorem Conn.Write_rerr (c : Conn) (p : Bytes) : (c.Write p).2.rerr = c.rerr := by
  unfold Conn.Write
  split
  · rfl
  · split <;> rfl

theorem Conn.Write_closed (c : Conn) (p : Bytes) : (c.Write p).2.closed = c.closed := by
  unfold Conn.Write
  split
  · rfl
  · split <;> rfl

theorem Conn.Write_ok (c : Conn) (p : Bytes) (hc : c.closed = false) (hr : c.reliable) :
    (c.Write p).1 = (p.length, GoError.nil) ∧ (c.Write p).2.wire = c.wire ++ p ∧
      (c.Write p).2.reliable := by
  unfold Conn.Write
  simp only [hc, Bool.false_eq_true, if_false]
  unfold Conn.reliable at hr ⊢
  split
  · next h => simp [h]
  · next rest h =>
    refine ⟨rfl, rfl, ?_⟩
    intro o ho
    exact hr o (by simp [h, ho])
  · next n d rest h =>
    have := hr (.fail n d) (by simp [h])
    cases this

/-- The result of `Write` is an operation error or nil. -/
theorem Conn.Write_err (c : Conn) (p : Bytes) :
    (c.Write p).1.2 = .nil ∨ ∃ op d, (c.Write p).1.2 = .opError op (.plain d) := by
  unfold Conn.Write
  split
  · right; exact ⟨_, _, rfl⟩
  · split
    · left; rfl
    · left; rfl
    · right; exact ⟨_, _, rfl⟩

theorem cutLine_none {s : Bytes} : cutLine s = none ↔ 10 ∉ s := by
  induction s with
  | nil => simp [cutLine]
  | cons b t ih =>
    unfold cutLine
    by_cases hb : b = 10
    · simp [hb]
    · simp only [hb, if_false]
      cases h : cutLine t with
      | none => simp [h] at ih; simp [ih, Ne.symm hb]
      | some lr =>
        have : ¬ (10 ∉ t) := by rw [← ih]; simp [h]
        simp at this
        simp [this]

theorem cutLine_some {s l r : Bytes} (h : cutLine s = some (l, r)) :
    ∃ pre, l = pre ++ [10] ∧ 10 ∉ pre ∧ s = pre ++ 10 :: r := by
  induction s generalizing l r with
  | nil => simp [cutLine] at h
  | cons b t ih =>
    unfold cutLine at h
    by_cases hb : b = 10
    · simp only [hb, if_true, Option.some.injEq, Prod.mk.injEq] at h
      refine ⟨[], ?_, by simp, ?_⟩
      · simp [h.1]
      · simp [hb, h.2]
    · simp only [hb, if_false] at h
      cases hc : cutLine t with
      | none => simp [hc] at h
      | some lr =>
        obtain ⟨l1, r1⟩ := lr
        simp only [hc, Option.some.injEq, Prod.mk.injEq] at h
        obtain ⟨pre, e1, e2, e3⟩ := ih hc
        refine ⟨b :: pre, ?_, ?_, ?_⟩
        · simp [← h.1, e1]
        · simp [e2, Ne.symm hb]
        · simp [e3, h.2]

theorem first_newline_unique {a b x y : Bytes} (ha : 10 ∉ a) (hb : 10 ∉ b)
    (h : a ++ 10 :: x = b ++ 10 :: y) : a = b ∧ x = y := by
  induction a generalizing b with
  | nil =>
    cases b with
    | nil => simpa using h
    | cons c t =>
      simp only [List.nil_append, List.cons_append, List.cons.injEq] at h
      simp [← h.1] at hb
  | cons c t ih =>
    cases b with
    | nil =>
      simp only [List.nil_append, List.cons_append, List.cons.injEq] at h
      simp [h.1] at ha
    | cons d u =>
      simp only [List.cons_append, List.cons.injEq] at h
      simp only [List.mem_cons, not_or] at ha hb
      obtain ⟨e1, e2⟩ := ih ha.2 hb.2 h.2
      exact ⟨by rw [h.1, e1], e2⟩

theorem no_newline_split {a b body rest : Bytes} (ha : 10 ∉ a) (hb : 10 ∉ body)
    (h : a ++ b = body ++ 10 :: rest) :
    ∃ body1, body = a ++ body1 ∧ b = body1 ++ 10 :: rest := by
  induction a generalizing body with
  | nil => exact ⟨body, by simp, by simpa using h⟩
  | cons c t ih =>
    cases body with
    | nil =>
      simp only [List.nil_append, List.cons_append, List.cons.injEq] at h
      simp [h.1] at ha
    | cons d u =>
      simp only [List.cons_append, List.cons.injEq] at h
      simp only [List.mem_cons, not_or] at ha hb
      obtain ⟨body1, e1, e2⟩ := ih ha.2 hb.2 h.2
      exact ⟨body1, by simp [h.1, e1], e2⟩

theorem Conn.Read_frame (c : Conn) (n : Nat) : ∃ cs, (c.Read n).2 = { c with chunks := cs } := by
  unfold Conn.Read
  split_ifs
  · exact ⟨c.chunks, rfl⟩
  · exact ⟨c.chunks, rfl⟩
  · split
    · exact ⟨_, rfl⟩
    · split_ifs <;> exact ⟨_, rfl⟩

theorem flatten_dropWhile_isEmpty (l : List Bytes) :
    (l.dropWhile (fun ch => ch.isEmpty)).flatten = l.flatten := by
  induction l with
  | nil => rfl
  | cons a t ih =>
    cases a with
    | nil => simpa [List.dropWhile] using ih
    | cons x y => simp [List.dropWhile]

/-- A read returns the next bytes of the stream: what was read, followed by what is left,
is what was there before. -/
theorem Conn.Read_stream (c : Conn) (n : Nat) :
    (c.Read n).1.1 ++ (c.Read n).2.chunks.flatten = c.chunks.flatten := by
  unfold Conn.Read
  split_ifs
  · simp
  · simp
  · split
    · next h =>
      have := flatten_dropWhile_isEmpty c.chunks
      rw [h] at this
      simp [← this]
    · next ch rest h =>
      have := flatten_dropWhile_isEmpty c.chunks
      rw [h] at this
      split_ifs
      · simp [← this]
      · simp only [List.flatten_cons]
        rw [← this, List.flatten_cons, ← List.append_assoc, List.take_append_drop]

theorem Conn.Read_err (c : Conn) (n : Nat) :
    (c.Read n).1.2 = .nil ∨ (c.Read n).1.2 = .eof ∨ ∃ op d, (c.Read n).1.2 = .opError op (.plain d) := by
  unfold Conn.Read
  split_ifs
  · exact Or.inr (Or.inr ⟨_, _, rfl⟩)
  · exact Or.inl rfl
  · split
    · cases h : c.rerr with
      | eof => exact Or.inr (Or.inl (by simp [h, ConnErr.toError]))
      | op d => exact Or.inr (Or.inr ⟨"read", d, by simp [h, ConnErr.toError]⟩)
    · split_ifs <;> exact Or.inl rfl

/-- A read into a buffer that is not empty, on an open connection with bytes still to
arrive, returns at least one byte and no error. -/
theorem Conn.Read_progress (c : Conn) (n : Nat) (hcl : c.closed = false) (hn : 0 < n)
    (hs : c.chunks.flatten ≠ []) : (c.Read n).1.2 = .nil ∧ (c.Read n).1.1 ≠ [] := by
  unfold Conn.Read
  have hn0 : n ≠ 0 := by omega
  simp only [hcl, Bool.false_eq_true, if_false, hn0]
  split
  · next h =>
    have := flatten_dropWhile_isEmpty c.chunks
    rw [h] at this
    exact absurd this.symm hs
  · next ch rest h =>
    have hne : ch ≠ [] := by
      have := List.head_dropWhile_not (fun ch : Bytes => ch.isEmpty) c.chunks (by rw [h]; simp)
      simp only [h, List.head_cons] at this
      intro e
      rw [e] at this
      simp at this
    split_ifs
    · exact ⟨rfl, hne⟩
    · refine ⟨rfl, ?_⟩
      cases ch with
      | nil => exact absurd rfl hne
      | cons a t =>
        cases n with
        | zero => omega
        | succ n => simp

/-- An error-free read returns at least one byte when the buffer is not empty. -/
theorem Conn.Read_ok_nonempty (c : Conn) (n : Nat) (hn : 0 < n) (h : (c.Read n).1.2 = .nil) :
    (c.Read n).1.1 ≠ [] := by
  by_cases hcl : c.closed = false
  · by_cases hs : c.chunks.flatten = []
    · unfold Conn.Read at h
      have hn0 : n ≠ 0 := by omega
      simp only [hcl, Bool.false_eq_true, if_false, hn0] at h
      split at h
      · cases hr : c.rerr <;> simp [hr, ConnErr.toError] at h
      · next ch rest hd =>
        have := flatten_dropWhile_isEmpty c.chunks
        rw [hd, hs] at this
        have hne : ch ≠ [] := by
          have := List.head_dropWhile_not (fun ch : Bytes => ch.isEmpty) c.chunks (by rw [hd]; simp)
          simp only [hd, List.head_cons] at this
          intro e
          rw [e] at this
          simp at this
        simp at this
        exact absurd this.1 hne
    · exact (Conn.Read_progress c n hcl hn hs).2
  · unfold Conn.Read at h
    have : c.closed = true := by simpa using hcl
    simp [this, errClosed] at h

theorem readBytesLoop_frame (fuel : Nat) (acc buf : Bytes) (c : Conn) :
    ∃ cs, (readBytesLoop fuel acc buf c).2.2 = { c with chunks := cs } := by
  induction fuel generalizing acc buf c with
  | zero => exact ⟨c.chunks, rfl⟩
  | succ fuel ih =>
    unfold readBytesLoop
    split
    · exact ⟨c.chunks, rfl⟩
    · split_ifs
      · exact ih _ _ _
      · exact Conn.Read_frame c _
      · obtain ⟨cs0, h0⟩ := Conn.Read_frame c (defaultBufSize - buf.length)
        obtain ⟨cs, h⟩ := ih acc (buf ++ (c.Read (defaultBufSize - buf.length)).1.1)
          (c.Read (defaultBufSize - buf.length)).2
        exact ⟨cs, by rw [h, h0]⟩

theorem readBytesLoop_ok (fuel : Nat) (acc buf : Bytes) (c : Conn)
    (h : (readBytesLoop fuel acc buf c).1.2 = .nil) :
    (readBytesLoop fuel acc buf c).1.1 ++ (readBytesLoop fuel acc buf c).2.1 ++
        (readBytesLoop fuel acc buf c).2.2.chunks.flatten = acc ++ buf ++ c.chunks.flatten ∧
      (readBytesLoop fuel acc buf c).1.1 ≠ [] := by
  induction fuel generalizing acc buf c with
  | zero => simp [readBytesLoop] at h
  | succ fuel ih =>
    unfold readBytesLoop at h ⊢
    cases hc : cutLine buf with
    | some lr =>
      obtain ⟨l, r⟩ := lr
      obtain ⟨pre, e1, -, e3⟩ := cutLine_some hc
      simp only
      refine ⟨?_, ?_⟩
      · rw [e3, e1]
        simp
      · rw [e1]
        simp
    | none =>
      rw [hc] at h
      simp only at h ⊢
      split_ifs at h ⊢ with h1 h2
      · obtain ⟨e, hne⟩ := ih _ _ _ h
        exact ⟨by rw [e]; simp, hne⟩
      · exact absurd h h2
      · obtain ⟨e, hne⟩ := ih _ _ _ h
        refine ⟨?_, hne⟩
        rw [e]
        have := Conn.Read_stream c (defaultBufSize - buf.length)
        simp only [List.append_assoc]
        rw [this]

theorem readBytesLoop_err (fuel : Nat) (acc buf : Bytes) (c : Conn)
    (hf : 2 * c.chunks.flatten.length + (if defaultBufSize ≤ buf.length then 1 else 0) < fuel) :
    (readBytesLoop fuel acc buf c).1.2 = .nil ∨ (readBytesLoop fuel acc buf c).1.2 = .eof ∨
      ∃ op d, (readBytesLoop fuel acc buf c).1.2 = .opError op (.plain d) := by
  induction fuel generalizing acc buf c with
  | zero => omega
  | succ fuel ih =>
    unfold readBytesLoop
    split
    · exact Or.inl rfl
    · split_ifs with h1 h2
      · apply ih
        rw [if_pos h1] at hf
        have : ¬ (defaultBufSize ≤ ([] : Bytes).length) := by
          simp [defaultBufSize]
        rw [if_neg this]
        omega
      · rcases Conn.Read_err c (defaultBufSize - buf.length) with e | e | e
        · exact absurd e h2
        · exact Or.inr (Or.inl e)
        · exact Or.inr (Or.inr e)
      · have h2 : (c.Read (defaultBufSize - buf.length)).1.2 = .nil := by simpa using h2
        apply ih
        have hs := Conn.Read_stream c (defaultBufSize - buf.length)
        have hne := Conn.Read_ok_nonempty c (defaultBufSize - buf.length) (by omega) h2
        have hl := congrArg List.length hs
        simp only [List.length_append] at hl
        have hp : 0 < (c.Read (defaultBufSize - buf.length)).1.1.length := List.length_pos.mpr hne
        rw [if_neg h1] at hf
        split_ifs <;> omega

theorem readBytesLoop_line (fuel : Nat) (acc buf : Bytes) (c : Conn) (body rest : Bytes)
    (hf : 2 * c.chunks.flatten.length + (if defaultBufSize ≤ buf.length then 1 else 0) < fuel)
    (hcl : c.closed = false) (hb : 10 ∉ body)
    (h : buf ++ c.chunks.flatten = body ++ 10 :: rest) :
    ∃ r cs, readBytesLoop fuel acc buf c = ((acc ++ body ++ [10], .nil), r, { c with chunks := cs }) ∧
      r ++ cs.flatten = rest := by
  induction fuel generalizing acc buf c body with
  | zero => omega
  | succ fuel ih =>
    unfold readBytesLoop
    cases hc : cutLine buf with
    | some lr =>
      obtain ⟨l, r⟩ := lr
      obtain ⟨pre, e1, e2, e3⟩ := cutLine_some hc
      rw [e3, List.append_assoc, List.cons_append] at h
      obtain ⟨e4, e5⟩ := first_newline_unique e2 hb h
      refine ⟨r, c.chunks, ?_, e5⟩
      simp [e1, e4]
    | none =>
      rw [cutLine_none] at hc
      obtain ⟨body1, e1, e2⟩ := no_newline_split hc hb h
      have h3 : 10 ∉ body1 := fun hm => hb (by simp [e1, hm])
      simp only
      split_ifs with h1 h2
      · have hf1 : 2 * c.chunks.flatten.length +
            (if defaultBufSize ≤ ([] : Bytes).length then 1 else 0) < fuel := by
          rw [if_pos h1] at hf
          have : ¬ (defaultBufSize ≤ ([] : Bytes).length) := by simp [defaultBufSize]
          rw [if_neg this]
          omega
        obtain ⟨r, cs, e, hr⟩ := ih (acc ++ buf) [] c body1 hf1 hcl h3 (by simpa using e2)
        exact ⟨r, cs, by rw [e, e1]; simp, hr⟩
      · exfalso
        have hs : c.chunks.flatten ≠ [] := by rw [e2]; simp
        exact h2 (Conn.Read_progress c _ hcl (by omega) hs).1
      · have hs : c.chunks.flatten ≠ [] := by rw [e2]; simp
        obtain ⟨p1, p2⟩ := Conn.Read_progress c (defaultBufSize - buf.length) hcl (by omega) hs
        have hst := Conn.Read_stream c (defaultBufSize - buf.length)
        obtain ⟨cs0, hfr⟩ := Conn.Read_frame c (defaultBufSize - buf.length)
        have hl := congrArg List.length hst
        simp only [List.length_append] at hl
        have hp : 0 < (c.Read (defaultBufSize - buf.length)).1.1.length := List.length_pos.mpr p2
        have hf1 : 2 * (c.Read (defaultBufSize - buf.length)).2.chunks.flatten.length +
            (if defaultBufSize ≤ (buf ++ (c.Read (defaultBufSize - buf.length)).1.1).length
              then 1 else 0) < fuel := by
          rw [if_neg h1] at hf
          split_ifs <;> omega
        have hcl1 : (c.Read (defaultBufSize - buf.length)).2.closed = false := by
          rw [hfr]; exact hcl
        have hstream : (buf ++ (c.Read (defaultBufSize - buf.length)).1.1) ++
            (c.Read (defaultBufSize - buf.length)).2.chunks.flatten = body ++ 10 :: rest := by
          rw [List.append_assoc, hst]
          exact h
        obtain ⟨r, cs, e, hr⟩ := ih acc _ _ body hf1 hcl1 hb hstream
        refine ⟨r, cs, ?_, hr⟩
        rw [e, hfr]

theorem ReadBytes_frame (buf : Bytes) (c : Conn) :
    ∃ cs, (ReadBytes buf c).2.2 = { c with chunks := cs } :=
  readBytesLoop_frame _ _ _ _

theorem ReadBytes_err (buf : Bytes) (c : Conn) :
    (ReadBytes buf c).1.2 = .nil ∨ (ReadBytes buf c).1.2 = .eof ∨
      ∃ op d, (ReadBytes buf c).1.2 = .opError op (.plain d) :=
  readBytesLoop_err _ _ _ _ (by split_ifs <;> omega)

/-- A line that `ReadBytes` returns without error is not empty, and the line, the new reader
buffer and the segments left make up the stream as it was. -/
theorem ReadBytes_ok (buf : Bytes) (c : Conn) (h : (ReadBytes buf c).1.2 = .nil) :
    (ReadBytes buf c).1.1 ++ (ReadBytes buf c).2.1 ++ (ReadBytes buf c).2.2.chunks.flatten =
      buf ++ c.chunks.flatten ∧ (ReadBytes buf c).1.1 ≠ [] := by
  have := readBytesLoop_ok _ [] buf c h
  simpa [ReadBytes] using this

/-- The line `ReadBytes` returns is the stream up to and including its first newline, however
the stream is split into segments. -/
theorem ReadBytes_line (buf : Bytes) (c : Conn) (body rest : Bytes) (hcl : c.closed = false)
    (hb : 10 ∉ body) (h : buf ++ c.chunks.flatten = body ++ 10 :: rest) :
    ∃ r cs, ReadBytes buf c = ((body ++ [10], .nil), r, { c with chunks := cs }) ∧
      r ++ cs.flatten = rest := by
  have := readBytesLoop_line (2 * c.chunks.flatten.length + 2) [] buf c body rest
    (by split_ifs <;> omega) hcl hb h
  simpa [ReadBytes] using this

theorem decodeRune_encodeRune (r : Nat) (t : Bytes) (h : validRune r) :
    decodeRune (encodeRune r ++ t) = (r, (encodeRune r).length) := by
  unfold validRune at h
  unfold encodeRune
  by_cases h1 : r ≤ 0x7F
  · simp only [h1, if_true]
    simp only [decodeRune, List.singleton_append, List.length_singleton]
    rw [if_pos (by omega)]
  · by_cases h2 : r ≤ 0x7FF
    · simp only [h1, h2, if_true, if_false]
      simp only [decodeRune, List.cons_append, List.nil_append]
      have l : leadInfo (0xC0 + r / 64) = some (2, 0x80, 0xBF) := by
        unfold leadInfo
        rw [if_pos (by omega)]
      rw [if_neg (by omega), l]
      simp only [List.length_cons, List.getD_cons_succ, List.getD_cons_zero]
      rw [if_neg (by omega), if_neg (by omega), if_pos (by omega)]
      simp only [List.length_nil]
      congr 1
      omega
    · have h3 : ¬ (0x10FFFF < r ∨ (0xD800 ≤ r ∧ r ≤ 0xDFFF)) := by omega
      by_cases h4 : r ≤ 0xFFFF
      · simp only [h1, h2, h3, h4, if_true, if_false]
        simp only [decodeRune, List.cons_append, List.nil_append]
        rw [if_neg (by omega)]
        have l : ∃ lo hi, leadInfo (0xE0 + r / 4096) = some (3, lo, hi) ∧
            lo ≤ 0x80 + r / 64 % 64 ∧ 0x80 + r / 64 % 64 ≤ hi := by
          unfold leadInfo
          rw [if_neg (by omega)]
          by_cases c0 : r / 4096 = 0
          · rw [if_pos (by omega)]
            exact ⟨_, _, rfl, by omega, by omega⟩
          · rw [if_neg (by omega)]
            by_cases c1 : r / 4096 = 13
            · rw [if_pos (by omega)]
              exact ⟨_, _, rfl, by omega, by omega⟩
            · rw [if_neg (by omega), if_pos (by omega)]
              exact ⟨_, _, rfl, by omega, by omega⟩
        obtain ⟨lo, hi, l, l1, l2⟩ := l
        rw [l]
        simp only [List.length_cons, List.getD_cons_succ, List.getD_cons_zero]
        rw [if_neg (by omega), if_neg (by omega), if_neg (by omega), if_neg (by omega),
          if_pos (by omega)]
        simp only [List.length_nil]
        congr 1
        omega
      · simp only [h1, h2, h3, h4, if_true, if_false]
        simp only [decodeRune, List.cons_append, List.nil_append]
        rw [if_neg (by omega)]
        have l : ∃ lo hi, leadInfo (0xF0 + r / 262144) = some (4, lo, hi) ∧
            lo ≤ 0x80 + r / 4096 % 64 ∧ 0x80 + r / 4096 % 64 ≤ hi := by
          unfold leadInfo
          rw [if_neg (by omega), if_neg (by omega), if_neg (by omega), if_neg (by omega)]
          by_cases c0 : r / 262144 = 0
          · rw [if_pos (by omega)]
            exact ⟨_, _, rfl, by omega, by omega⟩
          · rw [if_neg (by omega)]
            by_cases c1 : r / 262144 = 4
            · rw [if_neg (by omega), if_pos (by omega)]
              exact ⟨_, _, rfl, by omega, by omega⟩
            · rw [if_pos (by omega)]
              exact ⟨_, _, rfl, by omega, by omega⟩
        obtain ⟨lo, hi, l, l1, l2⟩ := l
        rw [l]
        simp only [List.length_cons, List.getD_cons_succ, List.getD_cons_zero]
        rw [if_neg (by omega), if_neg (by omega), if_neg (by omega), if_neg (by omega),
          if_neg (by omega), if_neg (by omega)]
        simp only [List.length_nil]
        congr 1
        omega

theorem encodeRune_ne_nil (r : Nat) : encodeRune r ≠ [] := by
  unfold encodeRune
  split_ifs <;> simp

theorem decodeRunesFrom_skip (a t : Bytes) : decodeRunesFrom a.length (a ++ t) = decodeRunesFrom 0 t := by
  induction a with
  | nil => simp
  | cons b a ih => simpa [decodeRunesFrom] using ih

theorem decodeRunes_encodeRune (r : Nat) (t : Bytes) (h : validRune r) :
    decodeRunes (encodeRune r ++ t) = r :: decodeRunes t := by
  unfold decodeRunes
  have e := decodeRune_encodeRune r t h
  cases he : encodeRune r with
  | nil => exact absurd he (encodeRune_ne_nil r)
  | cons b a =>
    rw [he] at e
    simp only [List.cons_append] at e ⊢
    simp only [decodeRunesFrom, e, List.length_cons, Nat.add_sub_cancel]
    rw [decodeRunesFrom_skip]

theorem decodeRunes_encodeRunes (rs : List Nat) (t : Bytes) (h : ∀ r ∈ rs, validRune r) :
    decodeRunes (encodeRunes rs ++ t) = rs ++ decodeRunes t := by
  induction rs with
  | nil => simp [encodeRunes]
  | cons r rs ih =>
    have h1 : validRune r := h r (by simp)
    have h2 : ∀ x ∈ rs, validRune x := fun x hx => h x (by simp [hx])
    have : encodeRunes (r :: rs) = encodeRune r ++ encodeRunes rs := by simp [encodeRunes]
    rw [this, List.append_assoc, decodeRunes_encodeRune r _ h1, ih h2]
    simp

theorem decodeRune_valid (p : Bytes) : validRune (decodeRune p).1 := by
  cases p with
  | nil => simp [decodeRune, validRune, RuneError]
  | cons p0 t =>
    simp only [decodeRune]
    by_cases h0 : p0 < 0x80
    · rw [if_pos h0]
      simp only [validRune]
      omega
    · rw [if_neg h0]
      generalize (p0 :: t).getD 1 0 = b1
      generalize (p0 :: t).getD 2 0 = b2
      generalize (p0 :: t).getD 3 0 = b3
      generalize (p0 :: t).length = n
      cases hl : leadInfo p0 with
      | none => simp [validRune, RuneError]
      | some v =>
        obtain ⟨sz, lo, hi⟩ := v
        simp only
        unfold leadInfo at hl
        split_ifs at hl <;> simp only [Option.some.injEq, Prod.mk.injEq] at hl <;>
          obtain ⟨rfl, rfl, rfl⟩ := hl <;>
          split_ifs <;> simp only [validRune, RuneError] <;> omega

theorem decodeRunesFrom_valid (k : Nat) (s : Bytes) : ∀ r ∈ decodeRunesFrom k s, validRune r := by
  induction s generalizing k with
  | nil => simp [decodeRunesFrom]
  | cons b t ih =>
    cases k with
    | zero =>
      intro r hr
      simp only [decodeRunesFrom, List.mem_cons] at hr
      rcases hr with rfl | hr
      · exact decodeRune_valid _
      · exact ih _ r hr
    | succ k => simpa [decodeRunesFrom] using ih k

theorem length_le_encodeRunes (rs : List Nat) : rs.length ≤ (encodeRunes rs).length := by
  induction rs with
  | nil => simp [encodeRunes]
  | cons r rs ih =>
    have : encodeRunes (r :: rs) = encodeRune r ++ encodeRunes rs := by simp [encodeRunes]
    have h := encodeRune_ne_nil r
    have : 0 < (encodeRune r).length := List.length_pos.mpr h
    simp_all
    omega

theorem SkipSpace_nonspace (r : Nat) (rs : List Nat) (h : isSpace r = false) :
    SkipSpace (r :: rs) = .ok (r :: rs) := by
  have h13 : r ≠ 13 := by rintro rfl; revert h; decide
  have h10 : r ≠ 10 := by rintro rfl; revert h; decide
  simp [SkipSpace, h13, h10, h]

theorem SkipSpace_ok {rs rs1 : List Nat} (h : SkipSpace rs = .ok rs1) :
    (∀ r ∈ rs1, r ∈ rs) ∧ (∀ r t, rs1 = r :: t → isSpace r = false) := by
  induction rs with
  | nil =>
    simp only [SkipSpace, Except.ok.injEq] at h
    subst h
    simp
  | cons a t ih =>
    unfold SkipSpace at h
    split_ifs at h with h1 h2 h3
    · obtain ⟨m, hd⟩ := ih h
      exact ⟨fun r hr => List.mem_cons_of_mem _ (m r hr), hd⟩
    · obtain ⟨m, hd⟩ := ih h
      exact ⟨fun r hr => List.mem_cons_of_mem _ (m r hr), hd⟩
    · simp only [Except.ok.injEq] at h
      subst h
      refine ⟨fun r hr => hr, ?_⟩
      intro r t e
      simp only [List.cons.injEq] at e
      rw [← e.1]
      simpa using h3

theorem SkipSpace_error {rs : List Nat} {e : GoError} (h : SkipSpace rs = .error e) :
    ∃ m, e = .plain m := by
  induction rs with
  | nil => simp [SkipSpace] at h
  | cons a t ih =>
    unfold SkipSpace at h
    split_ifs at h with h1 h2 h3
    · exact ih h
    · simp only [Except.error.injEq] at h
      exact ⟨_, h.symm⟩
    · exact ih h

theorem SkipSpace_idem {rs rs1 : List Nat} (h : SkipSpace rs = .ok rs1) : SkipSpace rs1 = .ok rs1 := by
  cases rs1 with
  | nil => simp [SkipSpace]
  | cons r t => exact SkipSpace_nonspace r t ((SkipSpace_ok h).2 r t rfl)

/-- A word that `%s` scans: the encoding of a non-empty run of runes none of which is a
space, all taken from the input. -/
theorem convertString_ok {rs rest : List Nat} {s : Bytes} (h : convertString rs = .ok (s, rest)) :
    ∃ tok, s = encodeRunes tok ∧ tok ≠ [] ∧ (∀ r ∈ tok, isSpace r = false) ∧ (∀ r ∈ tok, r ∈ rs) := by
  unfold convertString at h
  cases h1 : SkipSpace rs with
  | error e => simp [h1] at h
  | ok rs1 =>
    simp only [h1] at h
    split_ifs at h with h2
    unfold token at h
    rw [SkipSpace_idem h1] at h
    simp only [Except.ok.injEq, Prod.mk.injEq] at h
    obtain ⟨m, hd⟩ := SkipSpace_ok h1
    cases rs1 with
    | nil => exact absurd rfl h2
    | cons r t =>
      have hr := hd r t rfl
      refine ⟨_, h.1.symm, ?_, ?_, ?_⟩
      · simp [List.takeWhile, hr]
      · intro x hx
        have := List.mem_takeWhile_imp hx
        simpa using this
      · intro x hx
        exact m x (List.takeWhile_sublist _ |>.subset hx)

theorem convertString_error {rs : List Nat} {e : GoError} (h : convertString rs = .error e) :
    e = .eof ∨ ∃ m, e = .plain m := by
  unfold convertString at h
  cases h1 : SkipSpace rs with
  | error e1 =>
    simp only [h1, Except.error.injEq] at h
    subst h
    exact Or.inr (SkipSpace_error h1)
  | ok rs1 =>
    simp only [h1] at h
    split_ifs at h with h2
    · simp only [Except.error.injEq] at h
      exact Or.inl h.symm
    · unfold token at h
      rw [SkipSpace_idem h1] at h
      simp at h

theorem encodeRunes_ne_nil {tok : List Nat} (h : tok ≠ []) : encodeRunes tok ≠ [] := by
  cases tok with
  | nil => exact absurd rfl h
  | cons r t =>
    have := encodeRune_ne_nil r
    simp [encodeRunes, this]

theorem convertString_rest {rs rest : List Nat} {s : Bytes} (h : convertString rs = .ok (s, rest)) :
    ∀ r ∈ rest, r ∈ rs := by
  unfold convertString at h
  cases h1 : SkipSpace rs with
  | error e => simp [h1] at h
  | ok rs1 =>
    simp only [h1] at h
    split_ifs at h with h2
    unfold token at h
    rw [SkipSpace_idem h1] at h
    simp only [Except.ok.injEq, Prod.mk.injEq] at h
    intro r hr
    rw [← h.2] at hr
    exact (SkipSpace_ok h1).1 r ((List.dropWhile_sublist _).subset hr)

theorem advanceSpace_ok {rs rs1 : List Nat} (h : advanceSpace rs = .ok rs1) : ∀ r ∈ rs1, r ∈ rs := by
  unfold advanceSpace at h
  cases rs with
  | nil =>
    simp only [Except.ok.injEq] at h
    subst h
    simp
  | cons a t =>
    simp only at h
    split_ifs at h
    simp only [Except.ok.injEq] at h
    intro r hr
    rw [← h] at hr
    exact (List.dropWhile_sublist _).subset hr

theorem advanceSpace_error {rs : List Nat} {e : GoError} (h : advanceSpace rs = .error e) :
    ∃ m, e = .plain m := by
  unfold advanceSpace at h
  cases rs with
  | nil => simp at h
  | cons a t =>
    simp only at h
    split_ifs at h <;> simp only [Except.error.injEq] at h <;> exact ⟨_, h.symm⟩

theorem convertString_word {rs rest : List Nat} {s : Bytes} (hv : ∀ r ∈ rs, validRune r)
    (h : convertString rs = .ok (s, rest)) : IsWord s := by
  obtain ⟨tok, e, hne, hs, hm⟩ := convertString_ok h
  exact ⟨tok, e, hne, fun r hr => ⟨hs r hr, hv r (hm r hr)⟩⟩

theorem doScanf_spec (pattern : List FmtItem) (rs : List Nat) (args : List Bytes)
    (hv : ∀ r ∈ rs, validRune r) (ha : ∀ a ∈ args, IsWord a) :
    (∀ a ∈ (doScanf pattern rs args).1, IsWord a) ∧
    ((doScanf pattern rs args).2 = .nil ∨ (doScanf pattern rs args).2 = .eof ∨
      ∃ m, (doScanf pattern rs args).2 = .plain m) ∧
    ((doScanf pattern rs args).2 = .nil →
      (doScanf pattern rs args).1.length = args.length + verbCount pattern) := by
  induction pattern generalizing rs args with
  | nil => simpa [doScanf, verbCount] using ha
  | cons it rest ih =>
    cases it with
    | space =>
      unfold doScanf
      cases h1 : advanceSpace rs with
      | error e =>
        obtain ⟨m, rfl⟩ := advanceSpace_error h1
        simpa using ha
      | ok rs1 =>
        have := ih rs1 args (fun r hr => hv r (advanceSpace_ok h1 r hr)) ha
        simpa [verbCount] using this
    | verbS =>
      unfold doScanf
      cases h1 : SkipSpace rs with
      | error e =>
        obtain ⟨m, rfl⟩ := SkipSpace_error h1
        simpa using ha
      | ok rs1 =>
        have hv1 : ∀ r ∈ rs1, validRune r := fun r hr => hv r ((SkipSpace_ok h1).1 r hr)
        simp only
        cases h2 : convertString rs1 with
        | error e =>
          rcases convertString_error h2 with rfl | ⟨m, rfl⟩ <;> simpa using ha
        | ok v =>
          obtain ⟨s, rs2⟩ := v
          have hw := convertString_word hv1 h2
          have := ih rs2 (args ++ [s]) (fun r hr => hv1 r (convertString_rest h2 r hr))
            (by
              intro a haa
              simp only [List.mem_append, List.mem_singleton] at haa
              rcases haa with haa | rfl
              · exact ha a haa
              · exact hw)
          simp only [verbCount, List.length_append, List.length_singleton] at this ⊢
          refine ⟨this.1, this.2.1, fun hn => ?_⟩
          rw [this.2.2 hn]
          simp [List.count_cons]
          omega

theorem Sscanf_spec (s : Bytes) (pattern : List FmtItem) :
    (∀ a ∈ (Sscanf s pattern).1, IsWord a) ∧
    ((Sscanf s pattern).2 = .nil ∨ (Sscanf s pattern).2 = .eof ∨
      ∃ m, (Sscanf s pattern).2 = .plain m) ∧
    ((Sscanf s pattern).2 = .nil → (Sscanf s pattern).1.length = verbCount pattern) := by
  have := doScanf_spec pattern ((decodeRunes s).take hugeWid) []
    (fun r hr => decodeRunesFrom_valid 0 s r (List.mem_of_mem_take hr)) (by simp)
  simpa [Sscanf] using this

theorem IsWord.ne_nil {s : Bytes} (h : IsWord s) : s ≠ [] := by
  obtain ⟨tok, rfl, hne, _⟩ := h
  exact encodeRunes_ne_nil hne

theorem IsWord.no_space {s : Bytes} (h : IsWord s) : ∀ r ∈ decodeRunes s, isSpace r = false := by
  obtain ⟨tok, rfl, _, ht⟩ := h
  have := decodeRunes_encodeRunes tok [] (fun r hr => (ht r hr).2)
  simp only [List.append_nil] at this
  rw [this]
  have e : decodeRunes [] = [] := rfl
  rw [e, List.append_nil]
  exact fun r hr => (ht r hr).1

theorem TrimSuffix_line (body : Bytes) : (body ++ [10]).dropLast = body := by simp

theorem Readlinef_frame (c : SMTPConn) (pattern : List FmtItem) :
    ∃ r cs, (c.Readlinef pattern).2 = { c with rd := r, Conn := { c.Conn with chunks := cs } } := by
  obtain ⟨cs, h⟩ := ReadBytes_frame c.rd c.Conn
  refine ⟨(ReadBytes c.rd c.Conn).2.1, cs, ?_⟩
  unfold SMTPConn.Readlinef
  simp only [h]
  split_ifs <;> rfl

theorem Readlinef_shape (c : SMTPConn) (pattern : List FmtItem) :
    BaseShape (c.Readlinef pattern).1.2 ∧
      ((c.Readlinef pattern).1.2 = .nil →
        (c.Readlinef pattern).1.1.length = verbCount pattern ∧
        ∀ a ∈ (c.Readlinef pattern).1.1, IsWord a) := by
  unfold SMTPConn.Readlinef BaseShape
  simp only
  split_ifs with h1 h2 h3 h4
  · rcases ReadBytes_err c.rd c.Conn with h | h | h
    · exact absurd h h1
    · simp [h]
    · obtain ⟨op, d, h⟩ := h
      simp [h]
  · simp
  · obtain ⟨_, h, _⟩ := Sscanf_spec (TrimSuffix (ReadBytes c.rd c.Conn).1.1.dropLast [13]) pattern
    rcases h with h | h | ⟨m, h⟩
    · exact absurd h h2
    · simp [h, errorsIsEOF] at h3
    · refine ⟨Or.inr (Or.inr (Or.inr ⟨m, h⟩)), fun hn => ?_⟩
      simp [h] at hn
  · simp
  · push_neg at h2 h4
    refine ⟨Or.inl rfl, fun _ => ⟨h4, ?_⟩⟩
    exact (Sscanf_spec (TrimSuffix (ReadBytes c.rd c.Conn).1.1.dropLast [13]) pattern).1

theorem Readlinef_line (c : SMTPConn) (pattern : List FmtItem) (body rest : Bytes)
    (hcl : c.Conn.closed = false) (hb : 10 ∉ body) (h : c.pending = body ++ 10 :: rest) :
    ∃ r cs, r ++ cs.flatten = rest ∧
      c.Readlinef pattern =
        (if (Sscanf (TrimSuffix body [13]) pattern).2 ≠ .nil then
            if errorsIsEOF (Sscanf (TrimSuffix body [13]) pattern).2 then
              ((Sscanf (TrimSuffix body [13]) pattern).1, .plain (str "unexpected EOF during scanf"))
            else Sscanf (TrimSuffix body [13]) pattern
          else ((Sscanf (TrimSuffix body [13]) pattern).1, .nil),
         { c with rd := r, Conn := { c.Conn with chunks := cs } }) := by
  obtain ⟨r, cs, e, hr⟩ := ReadBytes_line c.rd c.Conn body rest hcl hb h
  refine ⟨r, cs, hr, ?_⟩
  unfold SMTPConn.Readlinef
  simp only [e, TrimSuffix_line, ne_eq, not_true_eq_false, if_false]
  have hs := (Sscanf_spec (TrimSuffix body [13]) pattern).2.2
  split_ifs with h1 h2 <;> try rfl
  exact absurd (hs h1) h2

theorem After.refl (c : SMTPConn) (hcl : c.Conn.closed = false) (hr : c.Conn.reliable) :
    After c c [] c.pending c.EHLODomain := by
  simp [After, hcl, hr]

theorem Write_step {c c1 : SMTPConn} {ps : List Bytes} {rest dom : Bytes}
    (h : After c c1 ps rest dom) (p : Bytes) :
    ∃ c2, c1.Write p = ((p.length, .nil), c2) ∧ After c c2 (ps ++ [p]) rest dom := by
  obtain ⟨hcl, hr, hc, hw, hp, hd⟩ := h
  obtain ⟨e1, e2, e3⟩ := Conn.Write_ok c1.Conn p hcl hr
  refine ⟨(c1.Write p).2, ?_, ?_⟩
  · simp only [SMTPConn.Write, e1]
  · refine ⟨?_, e3, ?_, ?_, ?_, ?_⟩
    · simp [SMTPConn.Write, Conn.Write_closed, hcl]
    · simp [SMTPConn.Write, Conn.Write_calls, hc]
    · simp [SMTPConn.Write, e2, hw]
    · simp [SMTPConn.Write, SMTPConn.pending, Conn.Write_chunks] at hp ⊢
      exact hp
    · simpa [SMTPConn.Write] using hd

theorem Ready_step {c c1 : SMTPConn} {ps : List Bytes} {rest dom : Bytes}
    (h : After c c1 ps rest dom) (name : Bytes) :
    ∃ c2, c1.Ready name = (.nil, c2) ∧
      After c c2 (ps ++ [str "220 " ++ name ++ str " ESMTP server is submissive (and breedable)\r\n"])
        rest dom := by
  obtain ⟨c2, e, h2⟩ := Write_step h
    (str "220 " ++ name ++ str " ESMTP server is submissive (and breedable)\r\n")
  exact ⟨c2, by simp only [SMTPConn.Ready, e], h2⟩

theorem writeCapabilities_step (caps : List Bytes) {c c1 : SMTPConn} {ps : List Bytes}
    {rest dom : Bytes} (h : After c c1 ps rest dom) :
    ∃ c2, writeCapabilities caps c1 = (.nil, c2) ∧
      After c c2 (ps ++ caps.map (fun cap => cap ++ str "\r\n")) rest dom := by
  induction caps generalizing c1 ps with
  | nil => exact ⟨c1, rfl, by simpa using h⟩
  | cons cap caps ih =>
    obtain ⟨c2, e, h2⟩ := Write_step h (cap ++ str "\r\n")
    obtain ⟨c3, e3, h3⟩ := ih h2
    refine ⟨c3, ?_, by simpa using h3⟩
    unfold writeCapabilities
    simp only [e, ne_eq, not_true_eq_false, if_false, e3]

theorem Readlinef_step {c c1 : SMTPConn} {ps : List Bytes} {body rest dom : Bytes}
    (h : After c c1 ps (body ++ 10 :: rest) dom) (hb : 10 ∉ body) (pattern : List FmtItem) :
    ∃ c2, After c c2 ps rest dom ∧
      c1.Readlinef pattern =
        (if (Sscanf (TrimSuffix body [13]) pattern).2 ≠ .nil then
            if errorsIsEOF (Sscanf (TrimSuffix body [13]) pattern).2 then
              ((Sscanf (TrimSuffix body [13]) pattern).1, .plain (str "unexpected EOF during scanf"))
            else Sscanf (TrimSuffix body [13]) pattern
          else ((Sscanf (TrimSuffix body [13]) pattern).1, .nil), c2) := by
  obtain ⟨hcl, hr, hc, hw, hp, hd⟩ := h
  obtain ⟨r, cs, e1, e2⟩ := Readlinef_line c1 pattern body rest hcl hb hp
  refine ⟨_, ?_, e2⟩
  exact ⟨hcl, hr, hc, hw, by simpa [SMTPConn.pending] using e1, hd⟩

theorem WaitEHLO_step {c c1 : SMTPConn} {ps : List Bytes} {body rest dom : Bytes}
    (h : After c c1 ps (body ++ 10 :: rest) dom) (hb : 10 ∉ body) :
    ∃ c2, After c c2 ps rest dom ∧
      c1.WaitEHLO =
        (if (Sscanf (TrimSuffix body [13]) patternEHLO).2 ≠ .nil then
            (if errorsIsEOF (Sscanf (TrimSuffix body [13]) patternEHLO).2 then
              .plain (str "unexpected EOF during scanf")
             else (Sscanf (TrimSuffix body [13]) patternEHLO).2, c2)
          else if (Sscanf (TrimSuffix body [13]) patternEHLO).1.getD 0 [] ≠ str "EHLO" then
            (.smtp 503 (str "5.5.1") (str "Bad sequence of commands")
              (.plain (str "expected EHLO, got " ++
                (Sscanf (TrimSuffix body [13]) patternEHLO).1.getD 0 [])), c2)
          else (.nil, { c2 with EHLODomain :=
            (Sscanf (TrimSuffix body [13]) patternEHLO).1.getD 1 [] })) := by
  obtain ⟨c2, h2, e⟩ := Readlinef_step h hb patternEHLO
  refine ⟨c2, h2, ?_⟩
  unfold SMTPConn.WaitEHLO
  simp only [e]
  have hs := (Sscanf_spec (TrimSuffix body [13]) patternEHLO).2.1
  split_ifs <;> simp_all

theorem WaitSTARTTLS_step {c c1 : SMTPConn} {ps : List Bytes} {body rest dom : Bytes}
    (h : After c c1 ps (body ++ 10 :: rest) dom) (hb : 10 ∉ body) :
    ∃ c2, After c c2 ps rest dom ∧
      c1.WaitSTARTTLS =
        (if (Sscanf (TrimSuffix body [13]) patternSTARTTLS).2 ≠ .nil then
            (if errorsIsEOF (Sscanf (TrimSuffix body [13]) patternSTARTTLS).2 then
              .plain (str "unexpected EOF during scanf")
             else (Sscanf (TrimSuffix body [13]) patternSTARTTLS).2)
          else if (Sscanf (TrimSuffix body [13]) patternSTARTTLS).1.getD 0 [] ≠ str "STARTTLS" then
            .smtp 503 (str "5.5.1") (str "STARTTLS is required")
              (.plain (str "expected STARTTLS, got " ++
                (Sscanf (TrimSuffix body [13]) patternSTARTTLS).1.getD 0 []))
          else .nil, c2) := by
  obtain ⟨c2, h2, e⟩ := Readlinef_step h hb patternSTARTTLS
  refine ⟨c2, h2, ?_⟩
  unfold SMTPConn.WaitSTARTTLS
  simp only [e]
  have hs := (Sscanf_spec (TrimSuffix body [13]) patternSTARTTLS).2.1
  split_ifs <;> simp_all

theorem TrimSuffix_cr (x : Bytes) : TrimSuffix (x ++ [13]) [13] = x := by
  simp [TrimSuffix]

theorem encodeRunes_append (a b : List Nat) : encodeRunes (a ++ b) = encodeRunes a ++ encodeRunes b := by
  simp [encodeRunes]

theorem encodeRune_mem {r b : Nat} (h : b ∈ encodeRune r) : (b = r ∧ r ≤ 0x7F) ∨ 0x80 ≤ b := by
  unfold encodeRune at h
  split_ifs at h <;> simp only [List.mem_cons, List.mem_singleton, List.not_mem_nil, or_false] at h <;> omega

theorem newline_not_mem_word {rs : List Nat} (h : ∀ r ∈ rs, isSpace r = false) :
    10 ∉ encodeRunes rs := by
  intro hm
  simp only [encodeRunes, List.mem_flatMap] at hm
  obtain ⟨r, hr, hb⟩ := hm
  rcases encodeRune_mem hb with ⟨e, _⟩ | e
  · have := h r hr
    rw [← e] at this
    revert this
    decide
  · omega

theorem Sscanf_EHLO (rs : List Nat) (hne : rs ≠ [])
    (hs : ∀ r ∈ rs, isSpace r = false ∧ validRune r) (hl : rs.length + 5 ≤ hugeWid) :
    Sscanf (str "EHLO " ++ encodeRunes rs) patternEHLO = ([str "EHLO", encodeRunes rs], .nil) := by
  have e0 : str "EHLO " = encodeRunes [69, 72, 76, 79, 32] := by decide
  have hv : ∀ r ∈ [69, 72, 76, 79, 32] ++ rs, validRune r := by
    intro r hr
    simp only [List.mem_append, List.mem_cons, List.mem_singleton, List.not_mem_nil, or_false] at hr
    rcases hr with (rfl | rfl | rfl | rfl | rfl) | hr
    all_goals first | exact (hs r hr).2 | (simp only [validRune]; omega)
  have e1 : decodeRunes (str "EHLO " ++ encodeRunes rs) = [69, 72, 76, 79, 32] ++ rs := by
    rw [e0, ← encodeRunes_append]
    have := decodeRunes_encodeRunes _ [] hv
    simp only [List.append_nil] at this
    rw [this]
    have e : decodeRunes [] = [] := rfl
    rw [e, List.append_nil]
  have e2 : ([69, 72, 76, 79, 32] ++ rs).take hugeWid = [69, 72, 76, 79, 32] ++ rs := by
    apply List.take_of_length_le
    simp only [List.length_append, List.length_cons, List.length_nil]
    omega
  unfold Sscanf
  rw [e1, e2]
  cases rs with
  | nil => exact absurd rfl hne
  | cons r0 rt =>
    have h0 : isSpace r0 = false := (hs r0 (by simp)).1
    have hall : ∀ x ∈ r0 :: rt, (!isSpace x) = true := by
      intro x hx
      simp [(hs x hx).1]
    have t1 : (r0 :: rt).takeWhile (fun r => !isSpace r) = r0 :: rt :=
      List.takeWhile_eq_self_iff.mpr hall
    have t2 : (r0 :: rt).dropWhile (fun r => !isSpace r) = [] :=
      List.dropWhile_eq_nil_iff.mpr hall
    have s1 : SkipSpace (r0 :: rt) = .ok (r0 :: rt) := SkipSpace_nonspace r0 rt h0
    have s2 : ∀ l, SkipSpace (69 :: l) = .ok (69 :: l) := fun l => SkipSpace_nonspace 69 l (by decide)
    have i1 : isSpace 69 = false := by decide
    have i2 : isSpace 72 = false := by decide
    have i3 : isSpace 76 = false := by decide
    have i4 : isSpace 79 = false := by decide
    have i5 : isSpace 32 = true := by decide
    have e3 : encodeRunes [69, 72, 76, 79] = str "EHLO" := by decide
    simp only [patternEHLO, doScanf, List.cons_append, List.nil_append, s2, convertString, token,
      List.takeWhile_cons, List.dropWhile_cons, i1, i2, i3, i4, i5, Bool.not_false, Bool.not_true,
      if_true, if_false, advanceSpace, h0, Bool.true_and, Bool.false_and, s1, t1, t2, e3,
      reduceCtorEq, bne_iff_ne, ne_eq, not_false_eq_true, decide_True, decide_False,
      Bool.false_eq_true, Nat.reduceEqDiff]

theorem Conn.Close_calls (c : Conn) : c.Close.2.calls = c.calls ∧ c.Close.2.wire = c.wire := by
  unfold Conn.Close
  split_ifs <;> exact ⟨rfl, rfl⟩

theorem SMTPError_Write_calls (b : Int) (e m : Bytes) (c : SMTPConn) :
    (SMTPError.Write b e m c).2.Conn.calls = c.Conn.calls ++ [smtpLine b e m] := by
  simp [SMTPError.Write, SMTPConn.Write, Conn.Write_calls]

theorem SMTPError_Write_wire (b : Int) (e m : Bytes) (c : SMTPConn)
    (hcl : c.Conn.closed = false) (hr : c.Conn.reliable) :
    (SMTPError.Write b e m c).2.Conn.wire = c.Conn.wire ++ smtpLine b e m := by
  simp [SMTPError.Write, SMTPConn.Write, (Conn.Write_ok c.Conn _ hcl hr).2.1]

theorem handleConnection_calls (s : Server) (env : Env) (conn : Conn) :
    (handleConnection s env conn).conn.Conn.calls =
      (handleSession s env { Conn := conn, rd := [], EHLODomain := [] }).conn.Conn.calls ++
        reportLines (handleSession s env { Conn := conn, rd := [], EHLODomain := [] }).err := by
  unfold handleConnection reportLines
  rw [(Conn.Close_calls _).1]
  generalize handleSession s env { Conn := conn, rd := [], EHLODomain := [] } = o
  cases h : errorsAsSMTP o.err with
  | some v =>
    obtain ⟨b, e, m⟩ := v
    simp only [SMTPError_Write_calls]
  | none =>
    simp only
    by_cases h1 : o.err = .nil
    · simp [h1]
    · by_cases h2 : errorsAsOpError o.err = true
      · simp [h1, h2]
      · by_cases h3 : errorsIsEOF o.err = true
        · simp [h1, h2, h3]
        · simp [h1, h2, h3, SMTPError_Write_calls]

theorem handleConnection_wire (s : Server) (env : Env) (conn : Conn)
    (hcl : (handleSession s env { Conn := conn, rd := [], EHLODomain := [] }).conn.Conn.closed = false)
    (hr : (handleSession s env { Conn := conn, rd := [], EHLODomain := [] }).conn.Conn.reliable) :
    (handleConnection s env conn).conn.Conn.wire =
      (handleSession s env { Conn := conn, rd := [], EHLODomain := [] }).conn.Conn.wire ++
        (reportLines (handleSession s env { Conn := conn, rd := [], EHLODomain := [] }).err).flatten := by
  unfold handleConnection reportLines
  rw [(Conn.Close_calls _).2]
  revert hcl hr
  generalize handleSession s env { Conn := conn, rd := [], EHLODomain := [] } = o
  intro hcl hr
  cases h : errorsAsSMTP o.err with
  | some v =>
    obtain ⟨b, e, m⟩ := v
    simp [SMTPError_Write_wire _ _ _ _ hcl hr]
  | none =>
    simp only
    by_cases h1 : o.err = .nil
    · simp [h1]
    · by_cases h2 : errorsAsOpError o.err = true
      · simp [h1, h2]
      · by_cases h3 : errorsIsEOF o.err = true
        · simp [h1, h2, h3]
        · simp [h1, h2, h3, SMTPError_Write_wire _ _ _ _ hcl hr]

theorem handleSession_early (s : Server) (env : Env) (c c1 : SMTPConn) (e : GoError)
    (h : handleSession_frontend s c = (e, c1)) (he : e ≠ .nil) :
    handleSession s env c =
      { err := e, conn := c1, sniffed := false, captured := [], serverName := [],
        handshakeErr := .nil, dials := [], backend := none, readiness := .nil,
        replayed := false, relayed := false } := by
  unfold handleSession
  simp [h, he]

theorem CaptureConn.Read_spec (cc : CaptureConn) (n : Nat) :
    (cc.Read n).1 = (cc.Conn.Read n).1 ∧ (cc.Read n).2.Conn = (cc.Conn.Read n).2 ∧
      (cc.Read n).2.teeBuffer = cc.teeBuffer ++ (cc.Conn.Read n).1.1 := by
  refine ⟨rfl, rfl, ?_⟩
  unfold CaptureConn.Read
  simp only
  split_ifs with h
  · rfl
  · have : (cc.Conn.Read n).1.1 = [] := by
      cases h1 : (cc.Conn.Read n).1.1 with
      | nil => rfl
      | cons a t => simp [h1] at h
    simp [this]

/-- The sniffing step leaves the write side of the client connection alone and keeps it
open; what it captured, followed by what is left to arrive, is the stream it started from. -/
theorem runTLS_frame (p : TLSProg) (cc : CaptureConn) (sn : Bytes) :
    (∃ cs, (runTLS p cc sn).2.1.Conn = { cc.Conn with chunks := cs }) ∧
    (runTLS p cc sn).2.1.teeBuffer ++ (runTLS p cc sn).2.1.Conn.chunks.flatten =
      cc.teeBuffer ++ cc.Conn.chunks.flatten := by
  induction p generalizing cc sn with
  | read n k ih =>
    unfold runTLS
    obtain ⟨⟨cs, h1⟩, h2⟩ := ih (cc.Read n).1 (cc.Read n).2 sn
    obtain ⟨-, e2, e3⟩ := CaptureConn.Read_spec cc n
    obtain ⟨cs0, e4⟩ := Conn.Read_frame cc.Conn n
    refine ⟨⟨cs, ?_⟩, ?_⟩
    · rw [h1, e2, e4]
    · rw [h2, e2, e3, List.append_assoc, Conn.Read_stream]
  | write p k ih =>
    unfold runTLS
    exact ih (cc.Write p).1 cc sn
  | close k ih =>
    unfold runTLS
    exact ih cc.Close.1 cc sn
  | getConfigForClient name k ih =>
    unfold runTLS
    exact ih _ cc name
  | done err =>
    unfold runTLS
    exact ⟨⟨cc.Conn.chunks, rfl⟩, rfl⟩

theorem waitReadyLoop_frame (fuel : Nat) (buf : Bytes) (c : Conn) :
    ∃ cs, (waitReadyLoop fuel buf c).2.2 = { c with chunks := cs } := by
  induction fuel generalizing buf c with
  | zero => exact ⟨c.chunks, rfl⟩
  | succ fuel ih =>
    unfold waitReadyLoop
    obtain ⟨cs, h⟩ := ReadBytes_frame buf c
    simp only
    split_ifs
    · exact ⟨cs, h⟩
    · exact ⟨cs, h⟩
    · obtain ⟨cs1, h1⟩ := ih (ReadBytes buf c).2.1 (ReadBytes buf c).2.2
      exact ⟨cs1, by rw [h1, h]⟩

theorem serveBackend_spec (env : Env) (o : Outcome) (backend : Backend) :
    (serveBackend env o backend).dials = o.dials ++ [backend] ∧
    (serveBackend env o backend).serverName = o.serverName ∧
    (serveBackend env o backend).captured = o.captured ∧
    (serveBackend env o backend).sniffed = o.sniffed ∧
    (serveBackend env o backend).handshakeErr = o.handshakeErr ∧
    (serveBackend env o backend).conn.EHLODomain = o.conn.EHLODomain ∧
    (serveBackend env o backend).conn.Conn.calls = o.conn.Conn.calls ∧
    (serveBackend env o backend).conn.Conn.wire = o.conn.Conn.wire := by
  unfold serveBackend
  split
  · simp
  · simp only
    split_ifs <;> simp

theorem selectBackend_spec (env : Env) (o : Outcome) (bs : List Backend) :
    (selectBackend env o bs).dials =
      o.dials ++ (bs.find? (fun b => decide (b.Hostname = o.serverName))).toList ∧
    (selectBackend env o bs).serverName = o.serverName ∧
    (selectBackend env o bs).captured = o.captured ∧
    (selectBackend env o bs).sniffed = o.sniffed ∧
    (selectBackend env o bs).handshakeErr = o.handshakeErr ∧
    (selectBackend env o bs).conn.EHLODomain = o.conn.EHLODomain ∧
    (selectBackend env o bs).conn.Conn.calls = o.conn.Conn.calls ∧
    (selectBackend env o bs).conn.Conn.wire = o.conn.Conn.wire := by
  induction bs with
  | nil => simp [selectBackend]
  | cons b rest ih =>
    unfold selectBackend
    by_cases h : b.Hostname = o.serverName
    · simp only [h, if_true, List.find?_cons_of_pos, decide_True, Option.toList_some]
      exact serveBackend_spec env o b
    · simp only [h, if_false]
      rw [List.find?_cons_of_neg _ (by simpa using h)]
      exact ih

theorem find?_first {α : Type} (p : α → Bool) (l : List α) (b : α) (h : l.find? p = some b) :
    ∃ pre post, l = pre ++ b :: post ∧ p b = true ∧ ∀ x ∈ pre, p x = false := by
  induction l with
  | nil => simp at h
  | cons a t ih =>
    by_cases ha : p a = true
    · rw [List.find?_cons_of_pos _ ha] at h
      simp only [Option.some.injEq] at h
      subst h
      exact ⟨[], t, rfl, ha, by simp⟩
    · rw [List.find?_cons_of_neg _ ha] at h
      obtain ⟨pre, post, e, hb, hp⟩ := ih h
      refine ⟨a :: pre, post, by simp [e], hb, ?_⟩
      intro x hx
      simp only [List.mem_cons] at hx
      rcases hx with rfl | hx
      · simpa using ha
      · exact hp x hx

theorem Frame_refl (c : Conn) : Frame c c :=
  ⟨rfl, [], by simp, fun _ h => ⟨h, by simp⟩⟩

theorem Frame_trans {a b c : Conn} (h1 : Frame a b) (h2 : Frame b c) : Frame a c := by
  obtain ⟨c1, ps, e1, f1⟩ := h1
  obtain ⟨c2, qs, e2, f2⟩ := h2
  refine ⟨c2.trans c1, ps ++ qs, by rw [e2, e1, List.append_assoc], fun hc hr => ?_⟩
  obtain ⟨r1, w1⟩ := f1 hc hr
  obtain ⟨r2, w2⟩ := f2 (c1.trans hc) r1
  exact ⟨r2, by rw [w2, w1]; simp⟩

theorem Frame_write (c : Conn) (p : Bytes) : Frame c (c.Write p).2 := by
  refine ⟨Conn.Write_closed c p, [p], Conn.Write_calls c p, fun hc hr => ?_⟩
  obtain ⟨-, e2, e3⟩ := Conn.Write_ok c p hc hr
  exact ⟨e3, by simpa using e2⟩

theorem Frame_chunks (c : Conn) (cs : List Bytes) : Frame c { c with chunks := cs } :=
  ⟨rfl, [], by simp, fun _ h => ⟨h, by simp⟩⟩

theorem Frame_smtpWrite (c : SMTPConn) (p : Bytes) : Frame c.Conn (c.Write p).2.Conn :=
  Frame_write c.Conn p

theorem Frame_readlinef (c : SMTPConn) (pattern : List FmtItem) :
    Frame c.Conn (c.Readlinef pattern).2.Conn := by
  obtain ⟨r, cs, h⟩ := Readlinef_frame c pattern
  rw [h]
  exact Frame_chunks _ _

theorem Frame_waitEHLO (c : SMTPConn) : Frame c.Conn c.WaitEHLO.2.Conn := by
  unfold SMTPConn.WaitEHLO
  simp only
  split_ifs <;> exact Frame_readlinef c _

theorem Frame_waitSTARTTLS (c : SMTPConn) : Frame c.Conn c.WaitSTARTTLS.2.Conn := by
  unfold SMTPConn.WaitSTARTTLS
  simp only
  split_ifs <;> exact Frame_readlinef c _

theorem Frame_writeCapabilities (caps : List Bytes) (c : SMTPConn) :
    Frame c.Conn (writeCapabilities caps c).2.Conn := by
  induction caps generalizing c with
  | nil => exact Frame_refl _
  | cons cap rest ih =>
    unfold writeCapabilities
    split_ifs
    · exact Frame_smtpWrite c _
    · exact Frame_trans (Frame_smtpWrite c _) (ih _)

theorem Frame_frontend (s : Server) (c : SMTPConn) :
    Frame c.Conn (handleSession_frontend s c).2.Conn := by
  unfold handleSession_frontend
  simp only
  have f1 : Frame c.Conn (c.Ready s.cfg.AdvertiseName).2.Conn := Frame_smtpWrite c _
  have f2 := Frame_trans f1 (Frame_waitEHLO (c.Ready s.cfg.AdvertiseName).2)
  have f3 := Frame_trans f2 (Frame_smtpWrite (c.Ready s.cfg.AdvertiseName).2.WaitEHLO.2
    (str "250-Hello " ++ (c.Ready s.cfg.AdvertiseName).2.WaitEHLO.2.EHLODomain ++ str "\r\n"))
  have f4 := Frame_trans f3 (Frame_writeCapabilities capabilities _)
  have f5 := Frame_trans f4 (Frame_waitSTARTTLS _)
  have f6 := Frame_trans f5 (Frame_smtpWrite _ (str "220 2.0.0 Ready to start TLS\r\n"))
  split_ifs
  · exact f1
  · exact f2
  · exact f3
  · exact f4
  · exact f5
  · exact f6

/-- A session that reached the sniffing step had an open client connection. -/
theorem frontend_open (s : Server) (c : SMTPConn) (h : (handleSession_frontend s c).1 = .nil) :
    c.Conn.closed = false := by
  by_contra hc
  have hc : c.Conn.closed = true := by simpa using hc
  have : (c.Ready s.cfg.AdvertiseName).1 ≠ .nil := by
    simp [SMTPConn.Ready, SMTPConn.Write, Conn.Write, hc, errClosed]
  unfold handleSession_frontend at h
  simp only [this, ne_eq, not_false_eq_true, if_true] at h

theorem runTLS_write_side (p : TLSProg) (conn : Conn) (sn : Bytes) :
    (runTLS p (NewCaptureConn conn) sn).2.1.Conn.calls = conn.calls ∧
    (runTLS p (NewCaptureConn conn) sn).2.1.Conn.wire = conn.wire ∧
    (runTLS p (NewCaptureConn conn) sn).2.1.Conn.closed = conn.closed ∧
    (runTLS p (NewCaptureConn conn) sn).2.1.Conn.wscript = conn.wscript := by
  obtain ⟨⟨cs, h⟩, -⟩ := runTLS_frame p (NewCaptureConn conn) sn
  rw [h]
  exact ⟨rfl, rfl, rfl, rfl⟩

theorem handleSession_cases (s : Server) (env : Env) (c : SMTPConn) :
    ((handleSession_frontend s c).1 ≠ .nil ∧
      handleSession s env c =
        { err := (handleSession_frontend s c).1, conn := (handleSession_frontend s c).2,
          sniffed := false, captured := [], serverName := [],
          handshakeErr := .nil, dials := [], backend := none, readiness := .nil,
          replayed := false, relayed := false }) ∨
    ((handleSession_frontend s c).1 = .nil ∧ (sniffedOutcome s env c).serverName = [] ∧
      handleSession s env c =
        { sniffedOutcome s env c with
          err := (GoError.smtp 501 (str "5.5.4") (str "No server name provided")
            (sniffedOutcome s env c).handshakeErr) }) ∨
    ((handleSession_frontend s c).1 = .nil ∧ (sniffedOutcome s env c).serverName ≠ [] ∧
      handleSession s env c = selectBackend env (sniffedOutcome s env c) s.cfg.Backends) := by
  unfold handleSession sniffedOutcome
  by_cases h1 : (handleSession_frontend s c).1 = .nil
  · by_cases h2 : (runTLS env.handshake (NewCaptureConn (handleSession_frontend s c).2.Conn) []).2.2 = []
    · right; left
      simp [h1, h2]
    · right; right
      simp [h1, h2]
  · left
    simp [h1]

theorem quoteFrom_plain (tbl : Nat → Bool) (s : Bytes)
    (h : ∀ b ∈ s, 0x20 ≤ b ∧ b ≤ 0x7E ∧ b ≠ 0x22 ∧ b ≠ 0x5C) : quoteFrom tbl 0 s = s := by
  induction s with
  | nil => rfl
  | cons b t ih =>
    obtain ⟨h1, h2, h3, h4⟩ := h b (by simp)
    have ht : ∀ x ∈ t, 0x20 ≤ x ∧ x ≤ 0x7E ∧ x ≠ 0x22 ∧ x ≠ 0x5C := fun x hx => h x (by simp [hx])
    unfold quoteFrom
    have c1 : ¬ (0x80 ≤ b) := by omega
    have c2 : ¬ (b = RuneError) := by simp only [RuneError]; omega
    have c3 : IsPrint tbl b = true := by
      unfold IsPrint
      rw [if_pos (by omega), if_pos ⟨h1, h2⟩]
    have c4 : encodeRune b = [b] := by
      unfold encodeRune
      rw [if_pos (by omega)]
    simp only [c1, if_false, c2, and_false, appendEscapedRune, h3, h4, or_self, c3, if_true, c4,
      Nat.sub_self, ih ht, List.singleton_append]

theorem Quote_plain (tbl : Nat → Bool) (s : Bytes)
    (h : ∀ b ∈ s, 0x20 ≤ b ∧ b ≤ 0x7E ∧ b ≠ 0x22 ∧ b ≠ 0x5C) :
    Quote tbl s = str "\"" ++ s ++ str "\"" := by
  unfold Quote
  rw [quoteFrom_plain tbl s h]
  rfl

theorem waitReady_calls (c : Conn) : (waitReady c).2.2.calls = c.calls ∧
    (waitReady c).2.2.wscript = c.wscript ∧ (waitReady c).2.2.closed = c.closed := by
  obtain ⟨cs, h⟩ := waitReadyLoop_frame (c.chunks.flatten.length + 1) [] c
  unfold waitReady
  rw [h]
  exact ⟨rfl, rfl, rfl⟩

theorem serveBackend_backend (env : Env) (o : Outcome) (backend : Backend) (b : Conn)
    (h : (serveBackend env o backend).backend = some b) (h0 : o.backend = none) :
    b.calls = [str "EHLO " ++ o.conn.EHLODomain ++ str "\r\n", str "STARTTLS\r\n", o.captured] := by
  unfold serveBackend at h
  split at h
  · simp [h0] at h
  · next peer hp =>
    simp only at h
    split_ifs at h <;>
    · simp only [Option.some.injEq] at h
      rw [← h]
      simp [Conn.Write_calls, (waitReady_calls _).1, Conn.fresh]

theorem selectBackend_backend (env : Env) (o : Outcome) (bs : List Backend) (b : Conn)
    (h : (selectBackend env o bs).backend = some b) (h0 : o.backend = none) :
    b.calls = [str "EHLO " ++ o.conn.EHLODomain ++ str "\r\n", str "STARTTLS\r\n", o.captured] := by
  induction bs with
  | nil => simp [selectBackend, h0] at h
  | cons x rest ih =>
    unfold selectBackend at h
    split_ifs at h
    · exact serveBackend_backend env o x b h h0
    · exact ih h

theorem readsThrough_spec (ns : List Nat) (cc : CaptureConn) :
    (readsThrough ns cc).1 = (readsDirect ns cc.Conn).1 ∧
    (readsThrough ns cc).2.Conn = (readsDirect ns cc.Conn).2 ∧
    (readsThrough ns cc).2.teeBuffer =
      cc.teeBuffer ++ ((readsDirect ns cc.Conn).1.map Prod.fst).flatten := by
  induction ns generalizing cc with
  | nil => simp [readsThrough, readsDirect]
  | cons n ns ih =>
    obtain ⟨e1, e2, e3⟩ := CaptureConn.Read_spec cc n
    obtain ⟨i1, i2, i3⟩ := ih (cc.Read n).2
    unfold readsThrough readsDirect
    refine ⟨?_, ?_, ?_⟩
    · simp only [e1, i1, e2]
    · simp only [i2, e2]
    · simp only [i3, e3, e2, List.map_cons, List.flatten_cons, List.append_assoc]

theorem Write_shape (c : SMTPConn) (p : Bytes) : BaseShape (c.Write p).1.2 := by
  rcases Conn.Write_err c.Conn p with h | ⟨op, d, h⟩
  · exact Or.inl (by simpa [SMTPConn.Write] using h)
  · exact Or.inr (Or.inr (Or.inl ⟨op, d, by simpa [SMTPConn.Write] using h⟩))

theorem writeCapabilities_shape (caps : List Bytes) (c : SMTPConn) :
    BaseShape (writeCapabilities caps c).1 := by
  induction caps generalizing c with
  | nil => exact Or.inl rfl
  | cons cap rest ih =>
    unfold writeCapabilities
    split_ifs
    · exact Write_shape c _
    · exact ih _

theorem WaitEHLO_shape (c : SMTPConn) : BaseShape c.WaitEHLO.1 ∨ IsSMTPError c.WaitEHLO.1 := by
  unfold SMTPConn.WaitEHLO
  simp only
  split_ifs
  · exact Or.inl (Readlinef_shape c _).1
  · exact Or.inr ⟨_, _, _, _, rfl⟩
  · exact Or.inl (Or.inl rfl)

theorem WaitSTARTTLS_shape (c : SMTPConn) :
    BaseShape c.WaitSTARTTLS.1 ∨ IsSMTPError c.WaitSTARTTLS.1 := by
  unfold SMTPConn.WaitSTARTTLS
  simp only
  split_ifs
  · exact Or.inl (Readlinef_shape c _).1
  · exact Or.inr ⟨_, _, _, _, rfl⟩
  · exact Or.inl (Or.inl rfl)

theorem frontend_shape (s : Server) (c : SMTPConn) :
    BaseShape (handleSession_frontend s c).1 ∨ IsSMTPError (handleSession_frontend s c).1 := by
  unfold handleSession_frontend
  simp only
  split_ifs
  · exact Or.inl (Write_shape c _)
  · exact WaitEHLO_shape _
  · exact Or.inl (Write_shape _ _)
  · exact Or.inl (writeCapabilities_shape _ _)
  · exact WaitSTARTTLS_shape _
  · exact Or.inl (Or.inl rfl)

theorem serveBackend_shape (env : Env) (o : Outcome) (backend : Backend) :
    BaseShape (serveBackend env o backend).err ∨ IsSMTPError (serveBackend env o backend).err := by
  unfold serveBackend
  split
  · exact Or.inr ⟨_, _, _, _, rfl⟩
  · simp only
    split_ifs
    · exact Or.inr ⟨_, _, _, _, rfl⟩
    · left
      cases env.relay with
      | none => exact Or.inl rfl
      | some d => exact Or.inr (Or.inr (Or.inl ⟨_, _, rfl⟩))

theorem selectBackend_shape (env : Env) (o : Outcome) (bs : List Backend) :
    BaseShape (selectBackend env o bs).err ∨ IsSMTPError (selectBackend env o bs).err := by
  induction bs with
  | nil => exact Or.inr ⟨_, _, _, _, rfl⟩
  | cons b rest ih =>
    unfold selectBackend
    split_ifs
    · exact serveBackend_shape env o b
    · exact ih

/-- The error of a session is nil, `io.EOF`, a `*net.OpError` over a plain error, a plain
error, or a `*SMTPError`. -/
theorem handleSession_shape (s : Server) (env : Env) (c : SMTPConn) :
    BaseShape (handleSession s env c).err ∨ IsSMTPError (handleSession s env c).err := by
  rcases handleSession_cases s env c with ⟨-, e⟩ | ⟨-, -, e⟩ | ⟨-, -, e⟩
  · rw [e]
    exact frontend_shape s c
  · rw [e]
    exact Or.inr ⟨_, _, _, _, rfl⟩
  · rw [e]
    exact selectBackend_shape _ _ _

theorem OnChain_nil {x : GoError} (h : OnChain .nil x) : x = .nil := by
  obtain ⟨k, hk⟩ := h
  rw [← hk]
  clear hk
  induction k with
  | zero => rfl
  | succ k ih => rw [Function.iterate_succ_apply]; exact ih

theorem OnChain_step {e x : GoError} (h : OnChain e x) : x = e ∨ OnChain e.Unwrap x := by
  obtain ⟨k, hk⟩ := h
  cases k with
  | zero => exact Or.inl hk.symm
  | succ k => exact Or.inr ⟨k, by rw [← hk, Function.iterate_succ_apply]⟩

theorem OnChain_self (e : GoError) : OnChain e e := ⟨0, rfl⟩

/-- On the cause chain of an error of base shape there is no `*SMTPError`; there is a
`*net.OpError` only if the error is one, and `io.EOF` only if the error is `io.EOF`. -/
theorem BaseShape_chain {e : GoError} (h : BaseShape e) :
    (¬ ∃ x, OnChain e x ∧ IsSMTPError x) ∧
    ((∃ x, OnChain e x ∧ IsOpError x) ↔ errorsAsOpError e = true) ∧
    errorsAsSMTP e = none ∧ (errorsIsEOF e = true ↔ e = .eof) := by
  rcases h with rfl | rfl | ⟨op, d, rfl⟩ | ⟨m, rfl⟩
  · refine ⟨?_, ?_, rfl, by simp [errorsIsEOF]⟩
    · rintro ⟨x, hx, b, en, m, u, rfl⟩
      cases OnChain_nil hx
    · constructor
      · rintro ⟨x, hx, op, err, rfl⟩
        cases OnChain_nil hx
      · intro h; simp [errorsAsOpError] at h
  · refine ⟨?_, ?_, rfl, by simp [errorsIsEOF]⟩
    · rintro ⟨x, hx, b, en, m, u, rfl⟩
      rcases OnChain_step hx with h | h
      · cases h
      · cases OnChain_nil h
    · constructor
      · rintro ⟨x, hx, op, err, rfl⟩
        rcases OnChain_step hx with h | h
        · cases h
        · cases OnChain_nil h
      · intro h; simp [errorsAsOpError] at h
  · refine ⟨?_, ?_, rfl, by simp [errorsIsEOF]⟩
    · rintro ⟨x, hx, b, en, m, u, rfl⟩
      rcases OnChain_step hx with h | h
      · cases h
      · rcases OnChain_step h with h | h
        · cases h
        · cases OnChain_nil h
    · constructor
      · intro _; rfl
      · intro _; exact ⟨_, OnChain_self _, _, _, rfl⟩
  · refine ⟨?_, ?_, rfl, by simp [errorsIsEOF]⟩
    · rintro ⟨x, hx, b, en, m1, u, rfl⟩
      rcases OnChain_step hx with h | h
      · cases h
      · cases OnChain_nil h
    · constructor
      · rintro ⟨x, hx, op, err, rfl⟩
        rcases OnChain_step hx with h | h
        · cases h
        · cases OnChain_nil h
      · intro h; simp [errorsAsOpError] at h

theorem WaitEHLO_domain (c : SMTPConn) (h : c.WaitEHLO.1 = .nil) :
    IsWord c.WaitEHLO.2.EHLODomain := by
  obtain ⟨-, hs⟩ := Readlinef_shape c patternEHLO
  unfold SMTPConn.WaitEHLO at h ⊢
  simp only at h ⊢
  split_ifs at h ⊢ with h1 h2
  · exact absurd h h1
  · have h1 : (c.Readlinef patternEHLO).1.2 = .nil := by simpa using h1
    obtain ⟨hl, hw⟩ := hs h1
    have hl2 : (c.Readlinef patternEHLO).1.1.length = 2 := by rw [hl]; decide
    apply hw
    have : (c.Readlinef patternEHLO).1.1.getD 1 [] = (c.Readlinef patternEHLO).1.1[1] := by
      rw [List.getD_eq_getElem?_getD, List.getElem?_eq_getElem (by omega)]
      rfl
    simp only
    rw [this]
    exact List.getElem_mem _

theorem WaitSTARTTLS_domain (c : SMTPConn) : c.WaitSTARTTLS.2.EHLODomain = c.EHLODomain := by
  obtain ⟨r, cs, h⟩ := Readlinef_frame c patternSTARTTLS
  unfold SMTPConn.WaitSTARTTLS
  simp only
  split_ifs <;> rw [h]

theorem writeCapabilities_domain (caps : List Bytes) (c : SMTPConn) :
    (writeCapabilities caps c).2.EHLODomain = c.EHLODomain := by
  induction caps generalizing c with
  | nil => rfl
  | cons cap rest ih =>
    unfold writeCapabilities
    split_ifs
    · rfl
    · rw [ih]
      rfl

/-- A frontend that succeeds has passed `WaitEHLO` without error and keeps the domain it
stored. -/
theorem frontend_domain (s : Server) (c : SMTPConn) (h : (handleSession_frontend s c).1 = .nil) :
    (c.Ready s.cfg.AdvertiseName).2.WaitEHLO.1 = .nil ∧
    (handleSession_frontend s c).2.EHLODomain =
      (c.Ready s.cfg.AdvertiseName).2.WaitEHLO.2.EHLODomain := by
  unfold handleSession_frontend at h ⊢
  simp only at h ⊢
  split_ifs at h ⊢ with h1 h2 h3 h4 h5
  · exact absurd h h1
  · exact absurd h h2
  · exact absurd h h3
  · exact absurd h h4
  · exact absurd h h5
  · refine ⟨by simpa using h2, ?_⟩
    show (SMTPConn.Write _ _).2.EHLODomain = _
    simp only [SMTPConn.Write]
    rw [WaitSTARTTLS_domain, writeCapabilities_domain]

theorem frontend_stops (s : Server) (c : SMTPConn)
    (h1 : (c.Ready s.cfg.AdvertiseName).1 = .nil)
    (h2 : (c.Ready s.cfg.AdvertiseName).2.WaitEHLO.1 ≠ .nil) :
    handleSession_frontend s c = (c.Ready s.cfg.AdvertiseName).2.WaitEHLO := by
  unfold handleSession_frontend
  simp only [h1, h2, ne_eq, not_true_eq_false, if_false, not_false_eq_true, if_true]

theorem WaitEHLO_no_domain (c : SMTPConn) (rest : Bytes) (hcl : c.Conn.closed = false)
    (hp : c.pending = str "EHLO\r\n" ++ rest ∨ c.pending = str "EHLO \r\n" ++ rest) :
    c.WaitEHLO.1 = .plain (str "unexpected EOF during scanf") := by
  rcases hp with hp | hp
  · have hp1 : c.pending = (str "EHLO" ++ [13]) ++ 10 :: rest := by
      rw [hp]
      have : str "EHLO\r\n" = str "EHLO" ++ [13, 10] := by decide
      simp [this]
    obtain ⟨r, cs, -, e⟩ := Readlinef_line c patternEHLO _ rest hcl (by decide) hp1
    unfold SMTPConn.WaitEHLO
    rw [e, TrimSuffix_cr]
    have : Sscanf (str "EHLO") patternEHLO = ([str "EHLO"], .eof) := by decide
    simp [this, errorsIsEOF]
  · have hp1 : c.pending = (str "EHLO " ++ [13]) ++ 10 :: rest := by
      rw [hp]
      have : str "EHLO \r\n" = str "EHLO " ++ [13, 10] := by decide
      simp [this]
    obtain ⟨r, cs, -, e⟩ := Readlinef_line c patternEHLO _ rest hcl (by decide) hp1
    unfold SMTPConn.WaitEHLO
    rw [e, TrimSuffix_cr]
    have : Sscanf (str "EHLO ") patternEHLO = ([str "EHLO"], .eof) := by decide
    simp [this, errorsIsEOF]

theorem ack_ne_greeting (name : Bytes) :
    str "220 2.0.0 Ready to start TLS\r\n" ≠
      str "220 " ++ name ++ str " ESMTP server is submissive (and breedable)\r\n" := by
  intro h
  have := congrArg List.length h
  have e1 : (str "220 2.0.0 Ready to start TLS\r\n").length = 30 := by decide
  have e2 : (str "220 ").length = 4 := by decide
  have e3 : (str " ESMTP server is submissive (and breedable)\r\n").length = 45 := by decide
  simp only [List.length_append, e1, e2, e3] at this
  omega

theorem ack_ne_hello (d : Bytes) :
    str "220 2.0.0 Ready to start TLS\r\n" ≠ str "250-Hello " ++ d ++ str "\r\n" := by
  intro h
  have e1 : str "220 2.0.0 Ready to start TLS\r\n" = 50 :: 50 :: str "0 2.0.0 Ready to start TLS\r\n" := by decide
  have e2 : str "250-Hello " = 50 :: 53 :: str "0-Hello " := by decide
  rw [e1, e2] at h
  simp at h

/-- The bound `waitReady` supplies is never reached: with more fuel than there are bytes to
read, the readiness wait ends with nil, `io.EOF` or a `*net.OpError`, never by running out of
fuel. -/
theorem waitReadyLoop_total (fuel : Nat) (buf : Bytes) (c : Conn)
    (h : buf.length + c.chunks.flatten.length < fuel) :
    (waitReadyLoop fuel buf c).1 = .nil ∨ (waitReadyLoop fuel buf c).1 = .eof ∨
      ∃ op d, (waitReadyLoop fuel buf c).1 = .opError op (.plain d) := by
  induction fuel generalizing buf c with
  | zero => omega
  | succ fuel ih =>
    unfold waitReadyLoop
    simp only
    split_ifs with h1 h2
    · rcases ReadBytes_err buf c with e | e | e
      · exact absurd e h1
      · exact Or.inr (Or.inl e)
      · exact Or.inr (Or.inr e)
    · exact Or.inl rfl
    · have h1 : (ReadBytes buf c).1.2 = .nil := by simpa using h1
      obtain ⟨e, hne⟩ := ReadBytes_ok buf c h1
      apply ih
      have hl := congrArg List.length e
      simp only [List.length_append] at hl
      have : 0 < (ReadBytes buf c).1.1.length := List.length_pos.mpr hne
      omega

theorem waitReady_total (c : Conn) :
    (waitReady c).1 = .nil ∨ (waitReady c).1 = .eof ∨
      ∃ op d, (waitReady c).1 = .opError op (.plain d) :=
  waitReadyLoop_total _ [] c (by simp)

/-- Any two amounts of fuel above the bound give the same readiness wait. -/
theorem waitReadyLoop_fuel (fuel fuel2 : Nat) (buf : Bytes) (c : Conn)
    (h : buf.length + c.chunks.flatten.length < fuel)
    (h2 : buf.length + c.chunks.flatten.length < fuel2) :
    waitReadyLoop fuel buf c = waitReadyLoop fuel2 buf c := by
  induction fuel generalizing fuel2 buf c with
  | zero => omega
  | succ fuel ih =>
    cases fuel2 with
    | zero => omega
    | succ fuel2 =>
      unfold waitReadyLoop
      simp only
      split_ifs with h1 h3
      · rfl
      · rfl
      · have h1 : (ReadBytes buf c).1.2 = .nil := by simpa using h1
        obtain ⟨e, hne⟩ := ReadBytes_ok buf c h1
        have hl := congrArg List.length e
        simp only [List.length_append] at hl
        have hp : 0 < (ReadBytes buf c).1.1.length := List.length_pos.mpr hne
        exact ih _ _ _ (by omega) (by omega)

theorem handleSession_client_calls (s : Server) (env : Env) (c : SMTPConn)
    (hf : (handleSession_frontend s c).1 = .nil) :
    (handleSession s env c).sniffed = true ∧
    (handleSession s env c).conn.Conn.calls = (handleSession_frontend s c).2.Conn.calls := by
  obtain ⟨w1, -⟩ := runTLS_write_side env.handshake (handleSession_frontend s c).2.Conn []
  rcases handleSession_cases s env c with ⟨h1, -⟩ | ⟨-, -, e⟩ | ⟨-, -, e⟩
  · exact absurd hf h1
  · rw [e]
    exact ⟨rfl, w1⟩
  · obtain ⟨-, -, -, h4, -, -, h7, -⟩ := selectBackend_spec env (sniffedOutcome s env c) s.cfg.Backends
    rw [e, h4, h7]
    exact ⟨rfl, w1⟩

theorem WaitSTARTTLS_rejects (c : SMTPConn) (body rest cmd : Bytes) (hcl : c.Conn.closed = false)
    (hb : 10 ∉ body) (hp : c.pending = body ++ 10 :: rest)
    (hs : Sscanf (TrimSuffix body [13]) patternSTARTTLS = ([cmd], .nil)) (hc : cmd ≠ str "STARTTLS") :
    c.WaitSTARTTLS.1 = .smtp 503 (str "5.5.1") (str "STARTTLS is required")
      (.plain (str "expected STARTTLS, got " ++ cmd)) := by
  obtain ⟨r, cs, -, e⟩ := Readlinef_line c patternSTARTTLS body rest hcl hb hp
  unfold SMTPConn.WaitSTARTTLS
  rw [e, hs]
  simp [hc]

/-- Outside valid UTF-8 the domain is not kept verbatim: the scanner reads runes, so a domain
holding the byte `0xFF` is stored with the three bytes of U+FFFD in its place. -/
theorem WaitEHLO_invalid_utf8 :
    (SMTPConn.WaitEHLO
      { Conn := sampleClient [str "EHLO a" ++ [255] ++ str "\r\n"], rd := [],
        EHLODomain := [] }).2.EHLODomain = str "a" ++ [239, 191, 189] := by
  decide

theorem decodeRune_newline (p : Bytes) (h : (decodeRune p).1 = 10) : p.head? = some 10 := by
  cases p with
  | nil => simp [decodeRune, RuneError] at h
  | cons p0 t =>
    simp only [decodeRune] at h
    by_cases h0 : p0 < 0x80
    · rw [if_pos h0] at h
      simp only at h
      simp [h]
    · rw [if_neg h0] at h
      exfalso
      revert h
      generalize (p0 :: t).getD 1 0 = b1
      generalize (p0 :: t).getD 2 0 = b2
      generalize (p0 :: t).getD 3 0 = b3
      generalize (p0 :: t).length = n
      cases hl : leadInfo p0 with
      | none => simp [RuneError]
      | some v =>
        obtain ⟨sz, lo, hi⟩ := v
        simp only
        unfold leadInfo at hl
        split_ifs at hl <;> simp only [Option.some.injEq, Prod.mk.injEq] at hl <;>
          obtain ⟨rfl, rfl, rfl⟩ := hl <;>
          split_ifs <;> simp only [RuneError] <;> omega

theorem decodeRunesFrom_newline (k : Nat) (s : Bytes) (h : 10 ∈ decodeRunesFrom k s) : 10 ∈ s := by
  induction s generalizing k with
  | nil => simp [decodeRunesFrom] at h
  | cons b t ih =>
    cases k with
    | zero =>
      simp only [decodeRunesFrom, List.mem_cons] at h
      rcases h with h | h
      · have := decodeRune_newline (b :: t) h.symm
        simp only [List.head?_cons, Option.some.injEq] at this
        simp [this]
      · exact List.mem_cons_of_mem _ (ih _ h)
    | succ k =>
      simp only [decodeRunesFrom] at h
      exact List.mem_cons_of_mem _ (ih _ h)

theorem line_runes (body : Bytes) (hb : 10 ∉ body) :
    10 ∉ (decodeRunes (TrimSuffix body [13])).take hugeWid := by
  intro h
  have h1 := decodeRunesFrom_newline 0 _ (List.mem_of_mem_take h)
  apply hb
  unfold TrimSuffix at h1
  split_ifs at h1
  · exact List.mem_of_mem_take h1
  · exact h1

theorem SkipSpace_line {rs : List Nat} (h : 10 ∉ rs) :
    SkipSpace rs = .ok (rs.dropWhile (fun r => isSpace r)) := by
  induction rs with
  | nil => rfl
  | cons r t ih =>
    have ht : 10 ∉ t := fun hx => h (List.mem_cons_of_mem _ hx)
    have hr : r ≠ 10 := fun e => h (by simp [e])
    unfold SkipSpace
    by_cases h13 : r = 13 ∧ t.head? = some 10
    · exfalso
      obtain ⟨-, h2⟩ := h13
      cases t with
      | nil => simp at h2
      | cons a t2 =>
        simp only [List.head?_cons, Option.some.injEq] at h2
        exact ht (by simp [h2])
    · rw [if_neg h13, if_neg hr]
      by_cases hs : isSpace r = true
      · rw [if_pos hs, ih ht]
        simp [List.dropWhile, hs]
      · rw [if_neg hs]
        simp [List.dropWhile, hs]

theorem dropWhile_word_head (rs : List Nat) :
    ∀ r t, rs.dropWhile (fun r => !isSpace r) = r :: t → isSpace r = true := by
  intro r t h
  have := List.head_dropWhile_not (fun r => !isSpace r) rs (by rw [h]; simp)
  simpa [h] using this

theorem not_mem_dropWhile {p : Nat → Bool} {rs : List Nat} (h : 10 ∉ rs) : 10 ∉ rs.dropWhile p :=
  fun hx => h ((List.dropWhile_sublist p).subset hx)

/-- The verb `%s` on input without a newline: `io.EOF` when only spaces are left, else the
next word, and what follows the word is empty or starts with a space. -/
theorem doScanf_verb_line (rest : List FmtItem) (rs : List Nat) (args : List Bytes)
    (h : 10 ∉ rs) :
    (rs.dropWhile (fun r => isSpace r) = [] ∧ doScanf (.verbS :: rest) rs args = (args, .eof)) ∨
    (rs.dropWhile (fun r => isSpace r) ≠ [] ∧ ∃ s rs2,
      doScanf (.verbS :: rest) rs args = doScanf rest rs2 (args ++ [s]) ∧ 10 ∉ rs2 ∧
        ∀ r t, rs2 = r :: t → isSpace r = true) := by
  have h1 := SkipSpace_line h
  have hd : 10 ∉ rs.dropWhile (fun r => isSpace r) := not_mem_dropWhile h
  have h2 := SkipSpace_idem h1
  by_cases he : rs.dropWhile (fun r => isSpace r) = []
  · left
    refine ⟨he, ?_⟩
    have h3 : SkipSpace [] = .ok [] := rfl
    simp only [doScanf, h1, convertString, he, h3, if_true]
  · right
    refine ⟨he, encodeRunes ((rs.dropWhile (fun r => isSpace r)).takeWhile (fun r => !isSpace r)),
      (rs.dropWhile (fun r => isSpace r)).dropWhile (fun r => !isSpace r), ?_,
      not_mem_dropWhile hd, dropWhile_word_head _⟩
    simp only [doScanf, h1, convertString, h2, he, if_false, token]

/-- A space in the format on input without a newline that is empty or starts with a space:
the step succeeds. -/
theorem doScanf_space_line (rest : List FmtItem) (rs : List Nat) (args : List Bytes)
    (h : 10 ∉ rs) (hs : ∀ r t, rs = r :: t → isSpace r = true) :
    ∃ rs2, doScanf (.space :: rest) rs args = doScanf rest rs2 args ∧ 10 ∉ rs2 := by
  cases rs with
  | nil => exact ⟨[], by simp [doScanf, advanceSpace], by simp⟩
  | cons r t =>
    have h1 := hs r t rfl
    have hr : r ≠ 10 := fun e => h (by simp [e])
    refine ⟨(r :: t).dropWhile (fun x => isSpace x && x != 10), ?_, not_mem_dropWhile h⟩
    simp only [doScanf, advanceSpace, h1, Bool.not_true, Bool.false_eq_true, if_false, hr]

/-- On a line (input without a newline) the only error of a scan with the format `%s` or
`%s %s` is `io.EOF`. -/
theorem Sscanf_line_eof (body : Bytes) (hb : 10 ∉ body) :
    ((Sscanf (TrimSuffix body [13]) patternSTARTTLS).2 ≠ .nil →
      Sscanf (TrimSuffix body [13]) patternSTARTTLS = ([], .eof)) ∧
    ((Sscanf (TrimSuffix body [13]) patternEHLO).2 ≠ .nil →
      (Sscanf (TrimSuffix body [13]) patternEHLO).2 = .eof) := by
  have hl := line_runes body hb
  unfold Sscanf
  generalize (decodeRunes (TrimSuffix body [13])).take hugeWid = rs at hl
  constructor
  · intro hne
    rcases doScanf_verb_line [] rs [] hl with ⟨-, e⟩ | ⟨-, s, rs2, e, -, -⟩
    · exact e
    · rw [patternSTARTTLS, e] at hne
      exact absurd rfl hne
  · intro hne
    rw [patternEHLO] at hne ⊢
    rcases doScanf_verb_line [.space, .verbS] rs [] hl with ⟨-, e⟩ | ⟨-, s, rs2, e, h2, h3⟩
    · rw [e]
    · obtain ⟨rs3, e3, h4⟩ := doScanf_space_line [.verbS] rs2 ([] ++ [s]) h2 h3
      rcases doScanf_verb_line [] rs3 ([] ++ [s]) h4 with ⟨-, e5⟩ | ⟨-, s5, rs5, e5, -, -⟩
      · rw [e, e3, e5]
      · rw [e, e3, e5] at hne
        exact absurd rfl hne

/-- A line that holds no word (every rune is a space) does not scan with the format `%s`. -/
theorem Sscanf_no_word (body : Bytes) (hb : 10 ∉ body)
    (hs : ∀ r ∈ decodeRunes (TrimSuffix body [13]), isSpace r = true) :
    Sscanf (TrimSuffix body [13]) patternSTARTTLS = ([], .eof) := by
  have hl := line_runes body hb
  have hs1 : ∀ r ∈ (decodeRunes (TrimSuffix body [13])).take hugeWid, isSpace r = true :=
    fun r hr => hs r (List.mem_of_mem_take hr)
  unfold Sscanf
  generalize (decodeRunes (TrimSuffix body [13])).take hugeWid = rs at hl hs1
  rcases doScanf_verb_line [] rs [] hl with ⟨-, e⟩ | ⟨hne, -⟩
  · exact e
  · exact absurd (List.dropWhile_eq_nil_iff.mpr hs1) hne

theorem WaitSTARTTLS_no_word (c : SMTPConn) (body rest : Bytes) (hcl : c.Conn.closed = false)
    (hb : 10 ∉ body) (hp : c.pending = body ++ 10 :: rest)
    (hs : (Sscanf (TrimSuffix body [13]) patternSTARTTLS).2 ≠ .nil) :
    c.WaitSTARTTLS.1 = .plain (str "unexpected EOF during scanf") := by
  obtain ⟨r, cs, -, e⟩ := Readlinef_line c patternSTARTTLS body rest hcl hb hp
  have h1 := (Sscanf_line_eof body hb).1 hs
  unfold SMTPConn.WaitSTARTTLS
  rw [e, h1]
  simp [errorsIsEOF]

theorem quoteFrom_ascii (tbl : Nat → Bool) (s : Bytes) (h : ∀ b ∈ s, 0x20 ≤ b ∧ b ≤ 0x7E) :
    quoteFrom tbl 0 s = s.flatMap (fun b => if b = 0x22 ∨ b = 0x5C then [0x5C, b] else [b]) := by
  induction s with
  | nil => rfl
  | cons b t ih =>
    obtain ⟨h1, h2⟩ := h b (by simp)
    have ht : ∀ x ∈ t, 0x20 ≤ x ∧ x ≤ 0x7E := fun x hx => h x (by simp [hx])
    unfold quoteFrom
    have c1 : ¬ (0x80 ≤ b) := by omega
    have c2 : ¬ (b = RuneError) := by simp only [RuneError]; omega
    have c3 : IsPrint tbl b = true := by
      unfold IsPrint
      rw [if_pos (by omega), if_pos ⟨h1, h2⟩]
    have c4 : encodeRune b = [b] := by
      unfold encodeRune
      rw [if_pos (by omega)]
    simp only [c1, if_false, c2, and_false, Nat.sub_self, ih ht, List.flatMap_cons]
    by_cases hq : b = 0x22 ∨ b = 0x5C
    · simp only [appendEscapedRune, hq, if_true]
    · simp only [appendEscapedRune, hq, if_false, c3, if_true, c4]

theorem Quote_ascii (tbl : Nat → Bool) (s : Bytes) (h : ∀ b ∈ s, 0x20 ≤ b ∧ b ≤ 0x7E) :
    Quote tbl s =
      str "\"" ++ s.flatMap (fun b => if b = 0x22 ∨ b = 0x5C then [0x5C, b] else [b]) ++ str "\"" := by
  unfold Quote
  rw [quoteFrom_ascii tbl s h]
  rfl

/-- Outside printable ASCII the quoted form depends on the rune: a printable rune such as
U+00E9 is kept as it is, a newline becomes `\n`, and a byte that starts no valid encoding
becomes a two-digit hex escape. -/
theorem Quote_beyond_ascii (tbl : Nat → Bool) :
    Quote tbl [0xC3, 0xA9] = [0x22, 0xC3, 0xA9, 0x22] ∧
    Quote tbl [10] = str "\"\\n\"" ∧
    Quote tbl [0xFF] = str "\"\\xff\"" := by
  exact ⟨rfl, rfl, rfl⟩

theorem serveBackend_client (env : Env) (o : Outcome) (backend : Backend) :
    (serveBackend env o backend).conn.Conn.wscript = o.conn.Conn.wscript ∧
    ((serveBackend env o backend).conn.Conn.closed = o.conn.Conn.closed ∨
      reportLines (serveBackend env o backend).err = []) := by
  unfold serveBackend
  split
  · exact ⟨rfl, Or.inl rfl⟩
  · simp only
    split_ifs
    · exact ⟨rfl, Or.inl rfl⟩
    · refine ⟨rfl, Or.inr ?_⟩
      cases env.relay with
      | none => simp [reportLines, errorsAsSMTP]
      | some d => simp [reportLines, errorsAsSMTP, errorsAsOpError]

theorem selectBackend_client (env : Env) (o : Outcome) (bs : List Backend) :
    (selectBackend env o bs).conn.Conn.wscript = o.conn.Conn.wscript ∧
    ((selectBackend env o bs).conn.Conn.closed = o.conn.Conn.closed ∨
      reportLines (selectBackend env o bs).err = []) := by
  induction bs with
  | nil => exact ⟨rfl, Or.inl rfl⟩
  | cons b rest ih =>
    unfold selectBackend
    split_ifs
    · exact serveBackend_client env o b
    · exact ih

/-- On a client connection that is open and on which every write succeeds, a session leaves
the connection reliable, and leaves it open unless it ends with an error for which nothing is
reported. -/
theorem handleSession_client (s : Server) (env : Env) (c : SMTPConn)
    (hcl : c.Conn.closed = false) (hr : c.Conn.reliable) :
    (handleSession s env c).conn.Conn.reliable ∧
    ((handleSession s env c).conn.Conn.closed = false ∨
      reportLines (handleSession s env c).err = []) := by
  obtain ⟨fc, ps, -, ff⟩ := Frame_frontend s c
  obtain ⟨r1, -⟩ := ff hcl hr
  obtain ⟨-, -, w3, w4⟩ := runTLS_write_side env.handshake (handleSession_frontend s c).2.Conn []
  have rs : (sniffedOutcome s env c).conn.Conn.reliable := by
    unfold Conn.reliable at r1 ⊢
    show ∀ o ∈ (runTLS env.handshake (NewCaptureConn (handleSession_frontend s c).2.Conn) []).2.1.Conn.wscript, _
    rw [w4]
    exact r1
  have cs : (sniffedOutcome s env c).conn.Conn.closed = false := by
    show (runTLS env.handshake (NewCaptureConn (handleSession_frontend s c).2.Conn) []).2.1.Conn.closed = false
    rw [w3, fc]
    exact hcl
  rcases handleSession_cases s env c with ⟨-, e⟩ | ⟨-, -, e⟩ | ⟨-, -, e⟩
  · rw [e]
    exact ⟨r1, Or.inl (fc.trans hcl)⟩
  · rw [e]
    exact ⟨rs, Or.inl cs⟩
  · obtain ⟨k1, k2⟩ := selectBackend_client env (sniffedOutcome s env c) s.cfg.Backends
    rw [e]
    constructor
    · unfold Conn.reliable at rs ⊢
      rw [k1]
      exact rs
    · rcases k2 with k2 | k2
      · exact Or.inl (k2.trans cs)
      · exact Or.inr k2

/-- When nothing is reported for the error of a session, `handleConnection` transmits
nothing. -/
theorem handleConnection_silent (s : Server) (env : Env) (conn : Conn)
    (h : reportLines (handleSession s env { Conn := conn, rd := [], EHLODomain := [] }).err = []) :
    (handleConnection s env conn).conn.Conn.wire =
      (handleSession s env { Conn := conn, rd := [], EHLODomain := [] }).conn.Conn.wire := by
  unfold handleConnection
  rw [(Conn.Close_calls _).2]
  revert h
  unfold reportLines
  generalize handleSession s env { Conn := conn, rd := [], EHLODomain := [] } = o
  intro h
  cases h0 : errorsAsSMTP o.err with
  | some v =>
    obtain ⟨b, e, m⟩ := v
    simp [h0] at h
  | none =>
    simp only [h0] at h
    simp only
    by_cases h1 : o.err = .nil
    · simp [h1]
    · by_cases h2 : errorsAsOpError o.err = true
      · simp [h1, h2]
      · by_cases h3 : errorsIsEOF o.err = true
        · simp [h1, h2, h3]
        · simp [h1, h2, h3] at h

/-- On a client connection that is open and on which every write succeeds, what
`handleConnection` transmits after the session is the status lines reported for its error. -/
theorem handleConnection_wire_open (s : Server) (env : Env) (conn : Conn)
    (hcl : conn.closed = false) (hr : conn.reliable) :
    (handleConnection s env conn).conn.Conn.wire =
      (handleSession s env { Conn := conn, rd := [], EHLODomain := [] }).conn.Conn.wire ++
        (reportLines (handleSession s env { Conn := conn, rd := [], EHLODomain := [] }).err).flatten := by
  obtain ⟨r, k⟩ := handleSession_client s env { Conn := conn, rd := [], EHLODomain := [] } hcl hr
  rcases k with k | k
  · exact handleConnection_wire s env conn k r
  · rw [handleConnection_silent s env conn k, k]
    simp

/-! ## The claims -/

/-- Claim C1.  Backend selection.  Whenever a session sniffed a non-empty server name, the
backends passed to `net.Dial` are either exactly one entry `b` of the configured list, the
first in list order whose `Hostname` equals the sniffed name byte for byte (no entry before
it has that hostname, so a later entry with the same hostname is never chosen), or none at
all, and then no entry has that hostname. -/
theorem backend_selection (s : Server) (env : Env) (c : SMTPConn)
    (h : (handleSession s env c).serverName ≠ []) :
    (∃ pre b post, s.cfg.Backends = pre ++ b :: post ∧
        b.Hostname = (handleSession s env c).serverName ∧
        (∀ x ∈ pre, x.Hostname ≠ (handleSession s env c).serverName) ∧
        (handleSession s env c).dials = [b]) ∨
    ((∀ x ∈ s.cfg.Backends, x.Hostname ≠ (handleSession s env c).serverName) ∧
        (handleSession s env c).dials = []) := by
  rcases handleSession_cases s env c with ⟨-, e⟩ | ⟨-, hn, e⟩ | ⟨-, -, e⟩
  · rw [e] at h
    exact absurd rfl h
  · rw [e] at h
    exact absurd hn h
  · obtain ⟨hd, hs, -⟩ := selectBackend_spec env (sniffedOutcome s env c) s.cfg.Backends
    rw [e, hd, hs]
    have d0 : (sniffedOutcome s env c).dials = [] := rfl
    rw [d0, List.nil_append]
    cases hfind : s.cfg.Backends.find?
        (fun b => decide (b.Hostname = (sniffedOutcome s env c).serverName)) with
    | none =>
      right
      refine ⟨?_, rfl⟩
      intro x hx
      have := List.find?_eq_none.mp hfind x hx
      simpa using this
    | some b =>
      left
      obtain ⟨pre, post, e1, e2, e3⟩ := find?_first _ _ _ hfind
      refine ⟨pre, b, post, e1, by simpa using e2, ?_, rfl⟩
      intro x hx
      simpa using e3 x hx

/-- Witness for C1: a server with two backends for `a.test`; the session that sniffs `a.test`
dials the first of them only. -/
theorem backend_selection_witness :
    (handleSession twinServer (sampleEnv (str "a.test")) sampleSession).serverName ≠ [] ∧
    ((∃ pre b post, twinServer.cfg.Backends = pre ++ b :: post ∧
        b.Hostname = (handleSession twinServer (sampleEnv (str "a.test")) sampleSession).serverName ∧
        (∀ x ∈ pre, x.Hostname ≠ (handleSession twinServer (sampleEnv (str "a.test")) sampleSession).serverName) ∧
        (handleSession twinServer (sampleEnv (str "a.test")) sampleSession).dials = [b]) ∨
    ((∀ x ∈ twinServer.cfg.Backends, x.Hostname ≠ (handleSession twinServer (sampleEnv (str "a.test")) sampleSession).serverName) ∧
        (handleSession twinServer (sampleEnv (str "a.test")) sampleSession).dials = [])) ∧
    (handleSession twinServer (sampleEnv (str "a.test")) sampleSession).dials =
      [{ Hostname := str "a.test", Protocol := str "tcp", Address := str "127.0.0.1:2501" }] :=
  ⟨by decide,
   backend_selection twinServer (sampleEnv (str "a.test")) sampleSession (by decide),
   by decide⟩

/-- Counterexample to C2 as stated: for the sniffed name `a"b` the message is not the
literal name between double quotes; the verb `%q` escapes the quote inside the name. -/
theorem no_backend_counterexample :
    (handleSession sampleServer (sampleEnv (str "a\"b"))
      { Conn := sampleClient [str "EHLO me\r\n", str "STARTTLS\r\n", [22, 3, 1]], rd := [],
        EHLODomain := [] }).serverName = str "a\"b" ∧
    (handleSession sampleServer (sampleEnv (str "a\"b"))
      { Conn := sampleClient [str "EHLO me\r\n", str "STARTTLS\r\n", [22, 3, 1]], rd := [],
        EHLODomain := [] }).err =
      .smtp 501 (str "5.5.4") (str "No backend found for server name \"a\\\"b\"")
        (.plain (str "no backend found for server name \"a\\\"b\"")) ∧
    str "No backend found for server name \"a\\\"b\"" ≠
      str "No backend found for server name \"" ++ str "a\"b" ++ str "\"" ∧
    (handleConnection sampleServer (sampleEnv (str "a\"b"))
      (sampleClient [str "EHLO me\r\n", str "STARTTLS\r\n", [22, 3, 1]])).conn.Conn.calls.getLast? =
      some (str "501 5.5.4 No backend found for server name \"a\\\"b\"\r\n") := by
  decide

/-- Claim C2, amended.  For every non-empty sniffed server name that is the hostname of no
configured backend, `handleSession` returns the `SMTPError` 501, `5.5.4`, whose message is
`No backend found for server name ` followed by the name as the verb `%q` (`strconv.Quote`)
renders it.  `handleConnection` then makes one further write, of the line
`501 5.5.4 No backend found for server name <quoted name>` with CRLF, and if the writes to the
client succeed these are the bytes transmitted.  For a name made only of printable ASCII
(0x20 to 0x7E) the quoted name is the name between double quotes with a backslash put before
every double quote and every backslash in it; so for a name made only of printable ASCII
other than the double quote and the backslash it is the literal name between double
quotes. -/
theorem no_backend_found (s : Server) (env : Env) (conn : Conn)
    (hn : (handleSession s env { Conn := conn, rd := [], EHLODomain := [] }).serverName ≠ [])
    (hb : ∀ b ∈ s.cfg.Backends,
      b.Hostname ≠ (handleSession s env { Conn := conn, rd := [], EHLODomain := [] }).serverName) :
    (handleSession s env { Conn := conn, rd := [], EHLODomain := [] }).err =
      .smtp 501 (str "5.5.4")
        (str "No backend found for server name " ++ Quote env.isPrint
          (handleSession s env { Conn := conn, rd := [], EHLODomain := [] }).serverName)
        (.plain (str "no backend found for server name " ++ Quote env.isPrint
          (handleSession s env { Conn := conn, rd := [], EHLODomain := [] }).serverName)) ∧
    (handleConnection s env conn).conn.Conn.calls =
      (handleSession s env { Conn := conn, rd := [], EHLODomain := [] }).conn.Conn.calls ++
        [str "501 5.5.4 No backend found for server name " ++ Quote env.isPrint
          (handleSession s env { Conn := conn, rd := [], EHLODomain := [] }).serverName ++
          str "\r\n"] ∧
    (conn.reliable → (handleConnection s env conn).conn.Conn.wire =
      (handleSession s env { Conn := conn, rd := [], EHLODomain := [] }).conn.Conn.wire ++
        (str "501 5.5.4 No backend found for server name " ++ Quote env.isPrint
          (handleSession s env { Conn := conn, rd := [], EHLODomain := [] }).serverName ++
          str "\r\n")) ∧
    ((∀ b ∈ (handleSession s env { Conn := conn, rd := [], EHLODomain := [] }).serverName,
        0x20 ≤ b ∧ b ≤ 0x7E) →
      Quote env.isPrint (handleSession s env { Conn := conn, rd := [], EHLODomain := [] }).serverName =
        str "\"" ++ List.flatMap (handleSession s env { Conn := conn, rd := [], EHLODomain := [] }).serverName
          (fun b => if b = 0x22 ∨ b = 0x5C then [0x5C, b] else [b]) ++
          str "\"") ∧
    ((∀ b ∈ (handleSession s env { Conn := conn, rd := [], EHLODomain := [] }).serverName,
        0x20 ≤ b ∧ b ≤ 0x7E ∧ b ≠ 0x22 ∧ b ≠ 0x5C) →
      Quote env.isPrint (handleSession s env { Conn := conn, rd := [], EHLODomain := [] }).serverName =
        str "\"" ++ (handleSession s env { Conn := conn, rd := [], EHLODomain := [] }).serverName ++
          str "\"") := by
  have key : ∀ (o : Outcome) (bs : List Backend), (∀ b ∈ bs, b.Hostname ≠ o.serverName) →
      selectBackend env o bs = { o with err := (GoError.smtp 501 (str "5.5.4")
        (str "No backend found for server name " ++ Quote env.isPrint o.serverName)
        (.plain (str "no backend found for server name " ++ Quote env.isPrint o.serverName))) } := by
    intro o bs
    induction bs with
    | nil => intro _; rfl
    | cons b rest ih =>
      intro hall
      unfold selectBackend
      rw [if_neg (hall b (by simp))]
      exact ih (fun x hx => hall x (by simp [hx]))
  have hf : (handleSession_frontend s { Conn := conn, rd := [], EHLODomain := [] }).1 = .nil := by
    rcases handleSession_cases s env { Conn := conn, rd := [], EHLODomain := [] } with
      ⟨-, e⟩ | ⟨h1, -, -⟩ | ⟨h1, -, -⟩
    · rw [e] at hn; exact absurd rfl hn
    · exact h1
    · exact h1
  have he : (handleSession s env { Conn := conn, rd := [], EHLODomain := [] }).err =
      .smtp 501 (str "5.5.4")
        (str "No backend found for server name " ++ Quote env.isPrint
          (handleSession s env { Conn := conn, rd := [], EHLODomain := [] }).serverName)
        (.plain (str "no backend found for server name " ++ Quote env.isPrint
          (handleSession s env { Conn := conn, rd := [], EHLODomain := [] }).serverName)) := by
    rcases handleSession_cases s env { Conn := conn, rd := [], EHLODomain := [] } with
      ⟨-, e⟩ | ⟨-, h0, e⟩ | ⟨-, -, e⟩
    · rw [e] at hn; exact absurd rfl hn
    · rw [e] at hn; exact absurd h0 hn
    · have hs := (selectBackend_spec env (sniffedOutcome s env { Conn := conn, rd := [], EHLODomain := [] })
        s.cfg.Backends).2.1
      rw [e] at hb ⊢
      rw [hs] at hb ⊢
      rw [key _ _ hb]
  have hl : ∀ m : Bytes, smtpLine 501 (str "5.5.4") (str "No backend found for server name " ++ m) =
      str "501 5.5.4 No backend found for server name " ++ m ++ str "\r\n" := by
    intro m
    have e : fmtInt 501 ++ str " " ++ str "5.5.4" ++ str " " ++
        str "No backend found for server name " =
        str "501 5.5.4 No backend found for server name " := by decide
    unfold smtpLine
    rw [← e]
    simp only [List.append_assoc]
  refine ⟨he, ?_, fun hr => ?_, fun hp => Quote_ascii _ _ hp, fun hp => Quote_plain _ _ hp⟩
  · rw [handleConnection_calls, he]
    simp only [reportLines, errorsAsSMTP, hl]
  · rw [handleConnection_wire_open s env conn (frontend_open s _ hf) hr, he]
    simp only [reportLines, errorsAsSMTP, hl, List.flatten_cons, List.flatten_nil, List.append_nil]

set_option maxRecDepth 16000 in
/-- Witness for C2: the name `example.com` on a server whose only backend is `a.test`; the
line written and transmitted is `501 5.5.4 No backend found for server name "example.com"`. -/
theorem no_backend_found_witness :
    ((handleSession sampleServer (sampleEnv (str "example.com")) { Conn := (sampleClient [str "EHLO me\r\n", str "STARTTLS\r\n", [22, 3, 1]]), rd := [], EHLODomain := [] }).serverName ≠ []) ∧
    (∀ b ∈ sampleServer.cfg.Backends,
      b.Hostname ≠ (handleSession sampleServer (sampleEnv (str "example.com")) { Conn := (sampleClient [str "EHLO me\r\n", str "STARTTLS\r\n", [22, 3, 1]]), rd := [], EHLODomain := [] }).serverName) ∧
    ((handleSession sampleServer (sampleEnv (str "example.com")) { Conn := (sampleClient [str "EHLO me\r\n", str "STARTTLS\r\n", [22, 3, 1]]), rd := [], EHLODomain := [] }).err =
      .smtp 501 (str "5.5.4")
        (str "No backend found for server name " ++ Quote (sampleEnv (str "example.com")).isPrint
          (handleSession sampleServer (sampleEnv (str "example.com")) { Conn := (sampleClient [str "EHLO me\r\n", str "STARTTLS\r\n", [22, 3, 1]]), rd := [], EHLODomain := [] }).serverName)
        (.plain (str "no backend found for server name " ++ Quote (sampleEnv (str "example.com")).isPrint
          (handleSession sampleServer (sampleEnv (str "example.com")) { Conn := (sampleClient [str "EHLO me\r\n", str "STARTTLS\r\n", [22, 3, 1]]), rd := [], EHLODomain := [] }).serverName)) ∧
    (handleConnection sampleServer (sampleEnv (str "example.com")) (sampleClient [str "EHLO me\r\n", str "STARTTLS\r\n", [22, 3, 1]])).conn.Conn.calls =
      (handleSession sampleServer (sampleEnv (str "example.com")) { Conn := (sampleClient [str "EHLO me\r\n", str "STARTTLS\r\n", [22, 3, 1]]), rd := [], EHLODomain := [] }).conn.Conn.calls ++
        [str "501 5.5.4 No backend found for server name " ++ Quote (sampleEnv (str "example.com")).isPrint
          (handleSession sampleServer (sampleEnv (str "example.com")) { Conn := (sampleClient [str "EHLO me\r\n", str "STARTTLS\r\n", [22, 3, 1]]), rd := [], EHLODomain := [] }).serverName ++
          str "\r\n"] ∧
    ((sampleClient [str "EHLO me\r\n", str "STARTTLS\r\n", [22, 3, 1]]).reliable → (handleConnection sampleServer (sampleEnv (str "example.com")) (sampleClient [str "EHLO me\r\n", str "STARTTLS\r\n", [22, 3, 1]])).conn.Conn.wire =
      (handleSession sampleServer (sampleEnv (str "example.com")) { Conn := (sampleClient [str "EHLO me\r\n", str "STARTTLS\r\n", [22, 3, 1]]), rd := [], EHLODomain := [] }).conn.Conn.wire ++
        (str "501 5.5.4 No backend found for server name " ++ Quote (sampleEnv (str "example.com")).isPrint
          (handleSession sampleServer (sampleEnv (str "example.com")) { Conn := (sampleClient [str "EHLO me\r\n", str "STARTTLS\r\n", [22, 3, 1]]), rd := [], EHLODomain := [] }).serverName ++
          str "\r\n")) ∧
    ((∀ b ∈ (handleSession sampleServer (sampleEnv (str "example.com")) { Conn := (sampleClient [str "EHLO me\r\n", str "STARTTLS\r\n", [22, 3, 1]]), rd := [], EHLODomain := [] }).serverName,
        0x20 ≤ b ∧ b ≤ 0x7E) →
      Quote (sampleEnv (str "example.com")).isPrint (handleSession sampleServer (sampleEnv (str "example.com")) { Conn := (sampleClient [str "EHLO me\r\n", str "STARTTLS\r\n", [22, 3, 1]]), rd := [], EHLODomain := [] }).serverName =
        str "\"" ++ List.flatMap (handleSession sampleServer (sampleEnv (str "example.com")) { Conn := (sampleClient [str "EHLO me\r\n", str "STARTTLS\r\n", [22, 3, 1]]), rd := [], EHLODomain := [] }).serverName
          (fun b => if b = 0x22 ∨ b = 0x5C then [0x5C, b] else [b]) ++
          str "\"") ∧
    ((∀ b ∈ (handleSession sampleServer (sampleEnv (str "example.com")) { Conn := (sampleClient [str "EHLO me\r\n", str "STARTTLS\r\n", [22, 3, 1]]), rd := [], EHLODomain := [] }).serverName,
        0x20 ≤ b ∧ b ≤ 0x7E ∧ b ≠ 0x22 ∧ b ≠ 0x5C) →
      Quote (sampleEnv (str "example.com")).isPrint (handleSession sampleServer (sampleEnv (str "example.com")) { Conn := (sampleClient [str "EHLO me\r\n", str "STARTTLS\r\n", [22, 3, 1]]), rd := [], EHLODomain := [] }).serverName =
        str "\"" ++ (handleSession sampleServer (sampleEnv (str "example.com")) { Conn := (sampleClient [str "EHLO me\r\n", str "STARTTLS\r\n", [22, 3, 1]]), rd := [], EHLODomain := [] }).serverName ++
          str "\"")) ∧
    (handleConnection sampleServer (sampleEnv (str "example.com"))
      (sampleClient [str "EHLO me\r\n", str "STARTTLS\r\n", [22, 3, 1]])).conn.Conn.calls.getLast? =
      some (str "501 5.5.4 No backend found for server name \"example.com\"\r\n") ∧
    (handleConnection sampleServer (sampleEnv (str "example.com"))
      (sampleClient [str "EHLO me\r\n", str "STARTTLS\r\n", [22, 3, 1]])).conn.Conn.wire =
      str "220 mx.test ESMTP server is submissive (and breedable)\r\n250-Hello me\r\n250-PIPELINING\r\n250-8BITMIME\r\n250-ENHANCEDSTATUSCODES\r\n250-CHUNKING\r\n250-STARTTLS\r\n250-SMTPUTF8\r\n250 SIZE 33554432\r\n220 2.0.0 Ready to start TLS\r\n501 5.5.4 No backend found for server name \"example.com\"\r\n" :=
  ⟨by decide, by decide,
   no_backend_found sampleServer (sampleEnv (str "example.com"))
     (sampleClient [str "EHLO me\r\n", str "STARTTLS\r\n", [22, 3, 1]]) (by decide) (by decide),
   by decide, by decide⟩

/-- Counterexample to C3 as stated: the first line `QUIT` does not scan as two words, so
`WaitEHLO` returns the plain error `unexpected EOF during scanf`, not an `SMTPError`, and the
line written after the greeting is `451 4.3.0 Service Unavailable`. -/
theorem WaitEHLO_counterexample :
    Sscanf (str "QUIT") patternEHLO = ([str "QUIT"], .eof) ∧
    ((SMTPConn.Ready { Conn := sampleClient [str "QUIT\r\n"], rd := [], EHLODomain := [] }
        (str "mx.test")).2.WaitEHLO).1 = .plain (str "unexpected EOF during scanf") ∧
    (handleConnection sampleServer (sampleEnv []) (sampleClient [str "QUIT\r\n"])).conn.Conn.calls =
      [str "220 mx.test ESMTP server is submissive (and breedable)\r\n",
       str "451 4.3.0 Service Unavailable\r\n"] := by
  decide

/-- Claim C3, amended.  Let the first line the client sends be `body` followed by a newline,
on an open connection on which every write succeeds.  If the line scans as two words and the
first is not `EHLO`, then `WaitEHLO` yields the `SMTPError` 503, `5.5.1`, `Bad sequence of
commands`, and what the session writes and transmits is the greeting followed by exactly
`503 5.5.1 Bad sequence of commands` with CRLF.  If the line does not scan as two words, the
error of the scan is `io.EOF`; `WaitEHLO` does not return it but the new error
`unexpected EOF during scanf` that `Readlinef` makes in its place, which is no `SMTPError`;
and what the session writes and transmits is the greeting followed by exactly
`451 4.3.0 Service Unavailable` with CRLF. -/
theorem WaitEHLO_first_line (s : Server) (env : Env) (conn : Conn) (body rest : Bytes)
    (hcl : conn.closed = false) (hr : conn.reliable) (hb : 10 ∉ body)
    (hp : conn.chunks.flatten = body ++ 10 :: rest) :
    (∀ cmd dom, Sscanf (TrimSuffix body [13]) patternEHLO = ([cmd, dom], .nil) → cmd ≠ str "EHLO" →
      ((SMTPConn.Ready { Conn := conn, rd := [], EHLODomain := [] } s.cfg.AdvertiseName).2.WaitEHLO).1 =
        .smtp 503 (str "5.5.1") (str "Bad sequence of commands")
          (.plain (str "expected EHLO, got " ++ cmd)) ∧
      (handleConnection s env conn).conn.Conn.calls = conn.calls ++
        [str "220 " ++ s.cfg.AdvertiseName ++ str " ESMTP server is submissive (and breedable)\r\n",
         str "503 5.5.1 Bad sequence of commands\r\n"] ∧
      (handleConnection s env conn).conn.Conn.wire = conn.wire ++
        (str "220 " ++ s.cfg.AdvertiseName ++ str " ESMTP server is submissive (and breedable)\r\n" ++
         str "503 5.5.1 Bad sequence of commands\r\n")) ∧
    ((Sscanf (TrimSuffix body [13]) patternEHLO).2 ≠ .nil →
      (Sscanf (TrimSuffix body [13]) patternEHLO).2 = .eof ∧
      ((SMTPConn.Ready { Conn := conn, rd := [], EHLODomain := [] } s.cfg.AdvertiseName).2.WaitEHLO).1 =
        .plain (str "unexpected EOF during scanf") ∧
      errorsAsSMTP ((SMTPConn.Ready { Conn := conn, rd := [], EHLODomain := [] } s.cfg.AdvertiseName).2.WaitEHLO).1 = none ∧
      (handleConnection s env conn).conn.Conn.calls = conn.calls ++
        [str "220 " ++ s.cfg.AdvertiseName ++ str " ESMTP server is submissive (and breedable)\r\n",
         str "451 4.3.0 Service Unavailable\r\n"] ∧
      (handleConnection s env conn).conn.Conn.wire = conn.wire ++
        (str "220 " ++ s.cfg.AdvertiseName ++ str " ESMTP server is submissive (and breedable)\r\n" ++
         str "451 4.3.0 Service Unavailable\r\n")) := by
  have h0 := After.refl { Conn := conn, rd := [], EHLODomain := [] } hcl hr
  obtain ⟨c1, e1, h1⟩ := Ready_step h0 s.cfg.AdvertiseName
  have hp1 : SMTPConn.pending { Conn := conn, rd := [], EHLODomain := [] } = body ++ 10 :: rest := by
    simpa [SMTPConn.pending] using hp
  rw [hp1] at h1
  obtain ⟨c2, h2, e2⟩ := WaitEHLO_step h1 hb
  obtain ⟨a1, a2, a3, a4, -, -⟩ := h2
  simp only [List.nil_append] at a3 a4
  have l503 : smtpLine 503 (str "5.5.1") (str "Bad sequence of commands") =
      str "503 5.5.1 Bad sequence of commands\r\n" := by decide
  have l451 : smtpLine 451 (str "4.3.0") (str "Service Unavailable") =
      str "451 4.3.0 Service Unavailable\r\n" := by decide
  constructor
  · intro cmd dom hs hc
    rw [hs] at e2
    simp only [ne_eq, not_true_eq_false, if_false, List.getD_cons_zero, hc, not_false_eq_true,
      if_true] at e2
    have hf : handleSession_frontend s { Conn := conn, rd := [], EHLODomain := [] } =
        (.smtp 503 (str "5.5.1") (str "Bad sequence of commands")
          (.plain (str "expected EHLO, got " ++ cmd)), c2) := by
      unfold handleSession_frontend
      simp only [e1, e2, ne_eq, not_true_eq_false, if_false, reduceCtorEq, not_false_eq_true, if_true]
    have ho := handleSession_early s env _ _ _ hf (by simp)
    refine ⟨by rw [e1]; simp only [e2], ?_, ?_⟩
    · rw [handleConnection_calls, ho]
      simp [reportLines, errorsAsSMTP, a3, l503]
    · rw [handleConnection_wire s env conn (by rw [ho]; exact a1) (by rw [ho]; exact a2), ho]
      simp [reportLines, errorsAsSMTP, a4, l503]
  · intro hs
    have heof := (Sscanf_line_eof body hb).2 hs
    rw [if_pos hs, heof] at e2
    have e2x : c1.WaitEHLO = (.plain (str "unexpected EOF during scanf"), c2) := by
      rw [e2]
      simp [errorsIsEOF]
    have hw : ((SMTPConn.Ready { Conn := conn, rd := [], EHLODomain := [] } s.cfg.AdvertiseName).2.WaitEHLO).1 =
        .plain (str "unexpected EOF during scanf") := by
      rw [e1]
      simp only [e2x]
    have hf : handleSession_frontend s { Conn := conn, rd := [], EHLODomain := [] } =
        (.plain (str "unexpected EOF during scanf"), c2) := by
      unfold handleSession_frontend
      simp only [e1, e2x, ne_eq, not_true_eq_false, if_false, reduceCtorEq, not_false_eq_true, if_true]
    have ho := handleSession_early s env _ _ _ hf (by simp)
    refine ⟨heof, hw, by rw [hw]; rfl, ?_, ?_⟩
    · rw [handleConnection_calls, ho]
      simp [reportLines, errorsAsSMTP, errorsAsOpError, errorsIsEOF, a3, l451]
    · rw [handleConnection_wire s env conn (by rw [ho]; exact a1) (by rw [ho]; exact a2), ho]
      simp [reportLines, errorsAsSMTP, errorsAsOpError, errorsIsEOF, a4, l451]

/-- Witness for C3: the first line `QUIT now` scans as two words, the first not `EHLO`, and
the session transmits the 503 line; the first line `QUIT` does not scan as two words, and the
session transmits the 451 line. -/
theorem WaitEHLO_first_line_witness :
    ((sampleClient [str "QUIT now\r\n"]).closed = false ∧
    (sampleClient [str "QUIT now\r\n"]).reliable ∧
    10 ∉ str "QUIT now\r" ∧
    (sampleClient [str "QUIT now\r\n"]).chunks.flatten = str "QUIT now\r" ++ 10 :: [] ∧
    Sscanf (TrimSuffix (str "QUIT now\r") [13]) patternEHLO = ([str "QUIT", str "now"], .nil) ∧
    str "QUIT" ≠ str "EHLO" ∧
    (((SMTPConn.Ready { Conn := (sampleClient [str "QUIT now\r\n"]), rd := [], EHLODomain := [] } sampleServer.cfg.AdvertiseName).2.WaitEHLO).1 =
        .smtp 503 (str "5.5.1") (str "Bad sequence of commands")
          (.plain (str "expected EHLO, got " ++ str "QUIT")) ∧
      (handleConnection sampleServer (sampleEnv []) (sampleClient [str "QUIT now\r\n"])).conn.Conn.calls = (sampleClient [str "QUIT now\r\n"]).calls ++
        [str "220 " ++ sampleServer.cfg.AdvertiseName ++ str " ESMTP server is submissive (and breedable)\r\n",
         str "503 5.5.1 Bad sequence of commands\r\n"] ∧
      (handleConnection sampleServer (sampleEnv []) (sampleClient [str "QUIT now\r\n"])).conn.Conn.wire = (sampleClient [str "QUIT now\r\n"]).wire ++
        (str "220 " ++ sampleServer.cfg.AdvertiseName ++ str " ESMTP server is submissive (and breedable)\r\n" ++
         str "503 5.5.1 Bad sequence of commands\r\n"))) ∧
    ((sampleClient [str "QUIT\r\n"]).closed = false ∧
    (sampleClient [str "QUIT\r\n"]).reliable ∧
    10 ∉ str "QUIT\r" ∧
    (sampleClient [str "QUIT\r\n"]).chunks.flatten = str "QUIT\r" ++ 10 :: [] ∧
    (Sscanf (TrimSuffix (str "QUIT\r") [13]) patternEHLO).2 ≠ .nil ∧
    ((Sscanf (TrimSuffix (str "QUIT\r") [13]) patternEHLO).2 = .eof ∧
      ((SMTPConn.Ready { Conn := (sampleClient [str "QUIT\r\n"]), rd := [], EHLODomain := [] } sampleServer.cfg.AdvertiseName).2.WaitEHLO).1 =
        .plain (str "unexpected EOF during scanf") ∧
      errorsAsSMTP ((SMTPConn.Ready { Conn := (sampleClient [str "QUIT\r\n"]), rd := [], EHLODomain := [] } sampleServer.cfg.AdvertiseName).2.WaitEHLO).1 = none ∧
      (handleConnection sampleServer (sampleEnv []) (sampleClient [str "QUIT\r\n"])).conn.Conn.calls = (sampleClient [str "QUIT\r\n"]).calls ++
        [str "220 " ++ sampleServer.cfg.AdvertiseName ++ str " ESMTP server is submissive (and breedable)\r\n",
         str "451 4.3.0 Service Unavailable\r\n"] ∧
      (handleConnection sampleServer (sampleEnv []) (sampleClient [str "QUIT\r\n"])).conn.Conn.wire = (sampleClient [str "QUIT\r\n"]).wire ++
        (str "220 " ++ sampleServer.cfg.AdvertiseName ++ str " ESMTP server is submissive (and breedable)\r\n" ++
         str "451 4.3.0 Service Unavailable\r\n"))) :=
  ⟨⟨by decide, by decide, by decide, by decide, by decide, by decide,
    (WaitEHLO_first_line sampleServer (sampleEnv []) (sampleClient [str "QUIT now\r\n"])
      (str "QUIT now\r") [] (by decide) (by decide) (by decide) (by decide)).1
      (str "QUIT") (str "now") (by decide) (by decide)⟩,
   ⟨by decide, by decide, by decide, by decide, by decide,
    (WaitEHLO_first_line sampleServer (sampleEnv []) (sampleClient [str "QUIT\r\n"])
      (str "QUIT\r") [] (by decide) (by decide) (by decide) (by decide)).2 (by decide)⟩⟩

/-- Counterexample to C4 as stated: after a valid EHLO the empty line does not scan as a
word, so the session ends with the plain error `unexpected EOF during scanf`, not with the
`SMTPError` 503, and the last line written is `451 4.3.0 Service Unavailable`. -/
theorem WaitSTARTTLS_counterexample :
    Sscanf (TrimSuffix (str "\r") [13]) patternSTARTTLS = ([], .eof) ∧
    (handleSession sampleServer (sampleEnv [])
      { Conn := sampleClient [str "EHLO me\r\n", str "\r\n"], rd := [], EHLODomain := [] }).err =
      .plain (str "unexpected EOF during scanf") ∧
    (handleConnection sampleServer (sampleEnv [])
      (sampleClient [str "EHLO me\r\n", str "\r\n"])).conn.Conn.calls =
      [str "220 mx.test ESMTP server is submissive (and breedable)\r\n",
       str "250-Hello me\r\n", str "250-PIPELINING\r\n", str "250-8BITMIME\r\n",
       str "250-ENHANCEDSTATUSCODES\r\n", str "250-CHUNKING\r\n",
       str "250-STARTTLS\r\n", str "250-SMTPUTF8\r\n",
       str "250 SIZE 33554432\r\n", str "451 4.3.0 Service Unavailable\r\n"] := by
  decide

/-- Claim C4, amended.  In any state of an open connection whose next line is `body` followed
by a newline: if the line scans as a word other than `STARTTLS`, `WaitSTARTTLS` yields the
`SMTPError` 503, `5.5.1`, `STARTTLS is required`; if the line does not scan as a word, the
scan stores nothing and its error is `io.EOF`, and `WaitSTARTTLS` does not return it but the
new error `unexpected EOF during scanf` that `Readlinef` makes in its place, which is no
`SMTPError`.  A line that holds no word (it is empty, or every character of it is a space)
does not scan as a word.  Let the client, on an open connection on which every write
succeeds, send a valid line `EHLO <domain>` and then the line `body`.  If the second line
scans as a word other than `STARTTLS`, the session ends with that `SMTPError`, and what it
writes and transmits is the greeting, the capability block and then
`503 5.5.1 STARTTLS is required` with CRLF.  If the second line does not scan as a word, the
session ends with the error `unexpected EOF during scanf`, and what it writes and transmits
is the greeting, the capability block and then `451 4.3.0 Service Unavailable` with CRLF.  In
both cases the session never writes the acknowledgement `220 2.0.0 Ready to start TLS`. -/
theorem WaitSTARTTLS_second_line (s : Server) (env : Env) (conn : Conn) (rs : List Nat)
    (body rest : Bytes)
    (hcl : conn.closed = false) (hr : conn.reliable)
    (hne : rs ≠ []) (hs : ∀ r ∈ rs, isSpace r = false ∧ validRune r)
    (hl : rs.length + 5 ≤ hugeWid) (hb : 10 ∉ body)
    (hp : conn.chunks.flatten = str "EHLO " ++ encodeRunes rs ++ str "\r\n" ++ (body ++ 10 :: rest)) :
    (∀ (c : SMTPConn) (cmd : Bytes), c.Conn.closed = false → c.pending = body ++ 10 :: rest →
      Sscanf (TrimSuffix body [13]) patternSTARTTLS = ([cmd], .nil) → cmd ≠ str "STARTTLS" →
      c.WaitSTARTTLS.1 = .smtp 503 (str "5.5.1") (str "STARTTLS is required")
        (.plain (str "expected STARTTLS, got " ++ cmd))) ∧
    (∀ (c : SMTPConn), c.Conn.closed = false → c.pending = body ++ 10 :: rest →
      (Sscanf (TrimSuffix body [13]) patternSTARTTLS).2 ≠ .nil →
      Sscanf (TrimSuffix body [13]) patternSTARTTLS = ([], .eof) ∧
      c.WaitSTARTTLS.1 = .plain (str "unexpected EOF during scanf") ∧
      errorsAsSMTP c.WaitSTARTTLS.1 = none) ∧
    ((∀ r ∈ decodeRunes (TrimSuffix body [13]), isSpace r = true) →
      (Sscanf (TrimSuffix body [13]) patternSTARTTLS).2 ≠ .nil) ∧
    (∀ cmd, Sscanf (TrimSuffix body [13]) patternSTARTTLS = ([cmd], .nil) → cmd ≠ str "STARTTLS" →
      (handleSession s env { Conn := conn, rd := [], EHLODomain := [] }).err =
        .smtp 503 (str "5.5.1") (str "STARTTLS is required")
          (.plain (str "expected STARTTLS, got " ++ cmd)) ∧
      (handleConnection s env conn).conn.Conn.calls = conn.calls ++
        [str "220 " ++ s.cfg.AdvertiseName ++ str " ESMTP server is submissive (and breedable)\r\n",
         str "250-Hello " ++ encodeRunes rs ++ str "\r\n",
         str "250-PIPELINING\r\n", str "250-8BITMIME\r\n", str "250-ENHANCEDSTATUSCODES\r\n",
         str "250-CHUNKING\r\n", str "250-STARTTLS\r\n", str "250-SMTPUTF8\r\n",
         str "250 SIZE 33554432\r\n", str "503 5.5.1 STARTTLS is required\r\n"] ∧
      (handleConnection s env conn).conn.Conn.wire = conn.wire ++ List.flatten
        [str "220 " ++ s.cfg.AdvertiseName ++ str " ESMTP server is submissive (and breedable)\r\n",
         str "250-Hello " ++ encodeRunes rs ++ str "\r\n",
         str "250-PIPELINING\r\n", str "250-8BITMIME\r\n", str "250-ENHANCEDSTATUSCODES\r\n",
         str "250-CHUNKING\r\n", str "250-STARTTLS\r\n", str "250-SMTPUTF8\r\n",
         str "250 SIZE 33554432\r\n", str "503 5.5.1 STARTTLS is required\r\n"]) ∧
    ((Sscanf (TrimSuffix body [13]) patternSTARTTLS).2 ≠ .nil →
      Sscanf (TrimSuffix body [13]) patternSTARTTLS = ([], .eof) ∧
      (handleSession s env { Conn := conn, rd := [], EHLODomain := [] }).err =
        .plain (str "unexpected EOF during scanf") ∧
      (handleConnection s env conn).conn.Conn.calls = conn.calls ++
        [str "220 " ++ s.cfg.AdvertiseName ++ str " ESMTP server is submissive (and breedable)\r\n",
         str "250-Hello " ++ encodeRunes rs ++ str "\r\n",
         str "250-PIPELINING\r\n", str "250-8BITMIME\r\n", str "250-ENHANCEDSTATUSCODES\r\n",
         str "250-CHUNKING\r\n", str "250-STARTTLS\r\n", str "250-SMTPUTF8\r\n",
         str "250 SIZE 33554432\r\n", str "451 4.3.0 Service Unavailable\r\n"] ∧
      (handleConnection s env conn).conn.Conn.wire = conn.wire ++ List.flatten
        [str "220 " ++ s.cfg.AdvertiseName ++ str " ESMTP server is submissive (and breedable)\r\n",
         str "250-Hello " ++ encodeRunes rs ++ str "\r\n",
         str "250-PIPELINING\r\n", str "250-8BITMIME\r\n", str "250-ENHANCEDSTATUSCODES\r\n",
         str "250-CHUNKING\r\n", str "250-STARTTLS\r\n", str "250-SMTPUTF8\r\n",
         str "250 SIZE 33554432\r\n", str "451 4.3.0 Service Unavailable\r\n"]) ∧
    ((Sscanf (TrimSuffix body [13]) patternSTARTTLS).2 ≠ .nil ∨
        (∃ cmd, Sscanf (TrimSuffix body [13]) patternSTARTTLS = ([cmd], .nil) ∧ cmd ≠ str "STARTTLS") →
      ∀ p ∈ (handleConnection s env conn).conn.Conn.calls,
        p = str "220 2.0.0 Ready to start TLS\r\n" → p ∈ conn.calls) := by
  have h0 := After.refl { Conn := conn, rd := [], EHLODomain := [] } hcl hr
  obtain ⟨c1, e1, h1⟩ := Ready_step h0 s.cfg.AdvertiseName
  have hb1 : 10 ∉ str "EHLO " ++ encodeRunes rs ++ [13] := by
    have := newline_not_mem_word (fun r hr => (hs r hr).1)
    have e : str "EHLO " = [69, 72, 76, 79, 32] := by decide
    simp [e, this]
  have hp1 : SMTPConn.pending { Conn := conn, rd := [], EHLODomain := [] } =
      (str "EHLO " ++ encodeRunes rs ++ [13]) ++ 10 :: (body ++ 10 :: rest) := by
    have e : str "\r\n" = [13, 10] := by decide
    simp [SMTPConn.pending, hp, e]
  rw [hp1] at h1
  obtain ⟨c2, h2, e2⟩ := WaitEHLO_step h1 hb1
  rw [TrimSuffix_cr, Sscanf_EHLO rs hne hs hl] at e2
  simp only [ne_eq, not_true_eq_false, if_false, List.getD_cons_zero, List.getD_cons_succ] at e2
  have h2d : After { Conn := conn, rd := [], EHLODomain := [] } { c2 with EHLODomain := encodeRunes rs }
      ([] ++ [str "220 " ++ s.cfg.AdvertiseName ++ str " ESMTP server is submissive (and breedable)\r\n"])
      (body ++ 10 :: rest) (encodeRunes rs) := by
    obtain ⟨a1, a2, a3, a4, a5, a6⟩ := h2
    exact ⟨a1, a2, a3, a4, a5, rfl⟩
  obtain ⟨c3, e3, h3⟩ := Write_step h2d (str "250-Hello " ++ encodeRunes rs ++ str "\r\n")
  obtain ⟨c4, e4, h4⟩ := writeCapabilities_step capabilities h3
  obtain ⟨c5, h5, e5⟩ := WaitSTARTTLS_step h4 hb
  obtain ⟨a1, a2, a3, a4, -, -⟩ := h5
  have hps : ([] ++ [str "220 " ++ s.cfg.AdvertiseName ++ str " ESMTP server is submissive (and breedable)\r\n"]) ++
        [str "250-Hello " ++ encodeRunes rs ++ str "\r\n"] ++
        capabilities.map (fun cap => cap ++ str "\r\n") =
        [str "220 " ++ s.cfg.AdvertiseName ++ str " ESMTP server is submissive (and breedable)\r\n",
         str "250-Hello " ++ encodeRunes rs ++ str "\r\n",
         str "250-PIPELINING\r\n", str "250-8BITMIME\r\n", str "250-ENHANCEDSTATUSCODES\r\n",
         str "250-CHUNKING\r\n", str "250-STARTTLS\r\n", str "250-SMTPUTF8\r\n",
         str "250 SIZE 33554432\r\n"] := rfl
  rw [hps] at a3 a4
  have l503 : smtpLine 503 (str "5.5.1") (str "STARTTLS is required") =
      str "503 5.5.1 STARTTLS is required\r\n" := by decide
  have l451 : smtpLine 451 (str "4.3.0") (str "Service Unavailable") =
      str "451 4.3.0 Service Unavailable\r\n" := by decide
  have pa : ∀ cmd, Sscanf (TrimSuffix body [13]) patternSTARTTLS = ([cmd], .nil) →
      cmd ≠ str "STARTTLS" →
      (handleSession s env { Conn := conn, rd := [], EHLODomain := [] }).err =
        .smtp 503 (str "5.5.1") (str "STARTTLS is required")
          (.plain (str "expected STARTTLS, got " ++ cmd)) ∧
      (handleConnection s env conn).conn.Conn.calls = c5.Conn.calls ++
        [str "503 5.5.1 STARTTLS is required\r\n"] ∧
      (handleConnection s env conn).conn.Conn.wire = c5.Conn.wire ++
        str "503 5.5.1 STARTTLS is required\r\n" := by
    intro cmd hsc hc
    rw [hsc] at e5
    simp only [ne_eq, not_true_eq_false, if_false, List.getD_cons_zero, hc, not_false_eq_true,
      if_true] at e5
    have hf : handleSession_frontend s { Conn := conn, rd := [], EHLODomain := [] } =
        (.smtp 503 (str "5.5.1") (str "STARTTLS is required")
          (.plain (str "expected STARTTLS, got " ++ cmd)), c5) := by
      unfold handleSession_frontend
      simp only [e1, e2, e3, e4, e5, ne_eq, not_true_eq_false, if_false, reduceCtorEq,
        not_false_eq_true, if_true]
    have ho := handleSession_early s env _ _ _ hf (by simp)
    refine ⟨by rw [ho], ?_, ?_⟩
    · rw [handleConnection_calls, ho]
      simp [reportLines, errorsAsSMTP, l503]
    · rw [handleConnection_wire s env conn (by rw [ho]; exact a1) (by rw [ho]; exact a2), ho]
      simp [reportLines, errorsAsSMTP, l503]
  have pb : (Sscanf (TrimSuffix body [13]) patternSTARTTLS).2 ≠ .nil →
      (handleSession s env { Conn := conn, rd := [], EHLODomain := [] }).err =
        .plain (str "unexpected EOF during scanf") ∧
      (handleConnection s env conn).conn.Conn.calls = c5.Conn.calls ++
        [str "451 4.3.0 Service Unavailable\r\n"] ∧
      (handleConnection s env conn).conn.Conn.wire = c5.Conn.wire ++
        str "451 4.3.0 Service Unavailable\r\n" := by
    intro hsc
    have heof := (Sscanf_line_eof body hb).1 hsc
    rw [if_pos hsc, heof] at e5
    have e5x : c4.WaitSTARTTLS = (.plain (str "unexpected EOF during scanf"), c5) := by
      rw [e5]
      simp [errorsIsEOF]
    have hf : handleSession_frontend s { Conn := conn, rd := [], EHLODomain := [] } =
        (.plain (str "unexpected EOF during scanf"), c5) := by
      unfold handleSession_frontend
      simp only [e1, e2, e3, e4, e5x, ne_eq, not_true_eq_false, if_false, reduceCtorEq,
        not_false_eq_true, if_true]
    have ho := handleSession_early s env _ _ _ hf (by simp)
    refine ⟨by rw [ho], ?_, ?_⟩
    · rw [handleConnection_calls, ho]
      simp [reportLines, errorsAsSMTP, errorsAsOpError, errorsIsEOF, l451]
    · rw [handleConnection_wire s env conn (by rw [ho]; exact a1) (by rw [ho]; exact a2), ho]
      simp [reportLines, errorsAsSMTP, errorsAsOpError, errorsIsEOF, l451]
  refine ⟨fun c0 cmd h1 h2 h3 h4 => WaitSTARTTLS_rejects c0 body rest cmd h1 hb h2 h3 h4,
    fun c0 h1 h2 h3 => ?_, fun h => ?_, fun cmd h1 h2 => ?_, fun h => ?_, ?_⟩
  · have hw := WaitSTARTTLS_no_word c0 body rest h1 hb h2 h3
    exact ⟨(Sscanf_line_eof body hb).1 h3, hw, by rw [hw]; rfl⟩
  · rw [Sscanf_no_word body hb h]
    simp
  · obtain ⟨x, y, z⟩ := pa cmd h1 h2
    exact ⟨x, by rw [y, a3]; simp, by rw [z, a4]; simp⟩
  · obtain ⟨x, y, z⟩ := pb h
    exact ⟨(Sscanf_line_eof body hb).1 h, x, by rw [y, a3]; simp, by rw [z, a4]; simp⟩
  · intro h p hp hpe
    have hc : (handleConnection s env conn).conn.Conn.calls = c5.Conn.calls ++
        [str "503 5.5.1 STARTTLS is required\r\n"] ∨
        (handleConnection s env conn).conn.Conn.calls = c5.Conn.calls ++
        [str "451 4.3.0 Service Unavailable\r\n"] := by
      rcases h with h | ⟨cmd, h1, h2⟩
      · exact Or.inr (pb h).2.1
      · exact Or.inl (pa cmd h1 h2).2.1
    subst hpe
    have n1 := ack_ne_greeting s.cfg.AdvertiseName
    have n2 := ack_ne_hello (encodeRunes rs)
    rcases hc with hc | hc <;>
    · rw [hc, a3] at hp
      simp only [List.mem_append, List.mem_cons, List.mem_singleton, List.not_mem_nil, or_false] at hp
      rcases hp with (hp | hp) | hp
      · exact hp
      · rcases hp with hp | hp | hp
        · exact absurd hp n1
        · exact absurd hp n2
        · exact absurd hp (by decide)
      · exact absurd hp (by decide)

/-- Witness for C4: after `EHLO me` the line `NOOP` scans as a word other than `STARTTLS`, and
the session transmits the 503 line; after `EHLO me` the empty line does not scan as a word,
and the session transmits the 451 line. -/
theorem WaitSTARTTLS_second_line_witness :
    ((sampleClient [str "EHLO me\r\n", str "NOOP\r\n"]).closed = false ∧
    (sampleClient [str "EHLO me\r\n", str "NOOP\r\n"]).reliable ∧
    [109, 101] ≠ [] ∧ (∀ r ∈ [109, 101], isSpace r = false ∧ validRune r) ∧
    [109, 101].length + 5 ≤ hugeWid ∧ 10 ∉ str "NOOP\r" ∧
    (sampleClient [str "EHLO me\r\n", str "NOOP\r\n"]).chunks.flatten =
      str "EHLO " ++ encodeRunes [109, 101] ++ str "\r\n" ++ (str "NOOP\r" ++ 10 :: []) ∧
    Sscanf (TrimSuffix (str "NOOP\r") [13]) patternSTARTTLS = ([str "NOOP"], .nil) ∧
    str "NOOP" ≠ str "STARTTLS" ∧
    ((handleSession sampleServer (sampleEnv []) { Conn := (sampleClient [str "EHLO me\r\n", str "NOOP\r\n"]), rd := [], EHLODomain := [] }).err =
        .smtp 503 (str "5.5.1") (str "STARTTLS is required")
          (.plain (str "expected STARTTLS, got " ++ str "NOOP")) ∧
      (handleConnection sampleServer (sampleEnv []) (sampleClient [str "EHLO me\r\n", str "NOOP\r\n"])).conn.Conn.calls = (sampleClient [str "EHLO me\r\n", str "NOOP\r\n"]).calls ++
        [str "220 " ++ sampleServer.cfg.AdvertiseName ++ str " ESMTP server is submissive (and breedable)\r\n",
         str "250-Hello " ++ encodeRunes [109, 101] ++ str "\r\n",
         str "250-PIPELINING\r\n", str "250-8BITMIME\r\n", str "250-ENHANCEDSTATUSCODES\r\n",
         str "250-CHUNKING\r\n", str "250-STARTTLS\r\n", str "250-SMTPUTF8\r\n",
         str "250 SIZE 33554432\r\n", str "503 5.5.1 STARTTLS is required\r\n"] ∧
      (handleConnection sampleServer (sampleEnv []) (sampleClient [str "EHLO me\r\n", str "NOOP\r\n"])).conn.Conn.wire = (sampleClient [str "EHLO me\r\n", str "NOOP\r\n"]).wire ++ List.flatten
        [str "220 " ++ sampleServer.cfg.AdvertiseName ++ str " ESMTP server is submissive (and breedable)\r\n",
         str "250-Hello " ++ encodeRunes [109, 101] ++ str "\r\n",
         str "250-PIPELINING\r\n", str "250-8BITMIME\r\n", str "250-ENHANCEDSTATUSCODES\r\n",
         str "250-CHUNKING\r\n", str "250-STARTTLS\r\n", str "250-SMTPUTF8\r\n",
         str "250 SIZE 33554432\r\n", str "503 5.5.1 STARTTLS is required\r\n"])) ∧
    ((sampleClient [str "EHLO me\r\n", str "\r\n"]).closed = false ∧
    (sampleClient [str "EHLO me\r\n", str "\r\n"]).reliable ∧
    [109, 101] ≠ [] ∧ (∀ r ∈ [109, 101], isSpace r = false ∧ validRune r) ∧
    [109, 101].length + 5 ≤ hugeWid ∧ 10 ∉ str "\r" ∧
    (sampleClient [str "EHLO me\r\n", str "\r\n"]).chunks.flatten =
      str "EHLO " ++ encodeRunes [109, 101] ++ str "\r\n" ++ (str "\r" ++ 10 :: []) ∧
    (Sscanf (TrimSuffix (str "\r") [13]) patternSTARTTLS).2 ≠ .nil ∧
    (Sscanf (TrimSuffix (str "\r") [13]) patternSTARTTLS = ([], .eof) ∧
      (handleSession sampleServer (sampleEnv []) { Conn := (sampleClient [str "EHLO me\r\n", str "\r\n"]), rd := [], EHLODomain := [] }).err =
        .plain (str "unexpected EOF during scanf") ∧
      (handleConnection sampleServer (sampleEnv []) (sampleClient [str "EHLO me\r\n", str "\r\n"])).conn.Conn.calls = (sampleClient [str "EHLO me\r\n", str "\r\n"]).calls ++
        [str "220 " ++ sampleServer.cfg.AdvertiseName ++ str " ESMTP server is submissive (and breedable)\r\n",
         str "250-Hello " ++ encodeRunes [109, 101] ++ str "\r\n",
         str "250-PIPELINING\r\n", str "250-8BITMIME\r\n", str "250-ENHANCEDSTATUSCODES\r\n",
         str "250-CHUNKING\r\n", str "250-STARTTLS\r\n", str "250-SMTPUTF8\r\n",
         str "250 SIZE 33554432\r\n", str "451 4.3.0 Service Unavailable\r\n"] ∧
      (handleConnection sampleServer (sampleEnv []) (sampleClient [str "EHLO me\r\n", str "\r\n"])).conn.Conn.wire = (sampleClient [str "EHLO me\r\n", str "\r\n"]).wire ++ List.flatten
        [str "220 " ++ sampleServer.cfg.AdvertiseName ++ str " ESMTP server is submissive (and breedable)\r\n",
         str "250-Hello " ++ encodeRunes [109, 101] ++ str "\r\n",
         str "250-PIPELINING\r\n", str "250-8BITMIME\r\n", str "250-ENHANCEDSTATUSCODES\r\n",
         str "250-CHUNKING\r\n", str "250-STARTTLS\r\n", str "250-SMTPUTF8\r\n",
         str "250 SIZE 33554432\r\n", str "451 4.3.0 Service Unavailable\r\n"])) :=
  ⟨⟨by decide, by decide, by decide, by decide, by decide, by decide, by decide, by decide,
    by decide,
    (WaitSTARTTLS_second_line sampleServer (sampleEnv []) (sampleClient [str "EHLO me\r\n", str "NOOP\r\n"]) [109, 101]
      (str "NOOP\r") [] (by decide) (by decide) (by decide) (by decide) (by decide) (by decide)
      (by decide)).2.2.2.1 (str "NOOP") (by decide) (by decide)⟩,
   ⟨by decide, by decide, by decide, by decide, by decide, by decide, by decide, by decide,
    (WaitSTARTTLS_second_line sampleServer (sampleEnv []) (sampleClient [str "EHLO me\r\n", str "\r\n"]) [109, 101]
      (str "\r") [] (by decide) (by decide) (by decide) (by decide) (by decide) (by decide)
      (by decide)).2.2.2.2.1 (by decide)⟩⟩

/-- Claim C5.  For every advertised name and every client, on an open connection on which
every write succeeds, that sends `EHLO <domain>` and `STARTTLS`, each ended by CRLF, where the
domain is a non-empty run of characters that are not spaces (and the line is shorter than the
scan limit of 2^30 characters), the first part of `handleSession` succeeds, and what it wrote
before the sniffing step is exactly, in order: the greeting with the advertised name,
`250-Hello <domain>` with the domain verbatim, the seven capability lines, and
`220 2.0.0 Ready to start TLS`, each ended by CRLF; the domain is stored verbatim and the
unread input is what followed the two lines.  The session then reaches the sniffing step, and
`handleSession` itself writes nothing else to the client. -/
theorem frontend_transcript (s : Server) (c : SMTPConn) (rs : List Nat) (rest : Bytes)
    (hcl : c.Conn.closed = false) (hr : c.Conn.reliable)
    (hne : rs ≠ []) (hs : ∀ r ∈ rs, isSpace r = false ∧ validRune r)
    (hl : rs.length + 5 ≤ hugeWid)
    (hp : c.pending = str "EHLO " ++ encodeRunes rs ++ str "\r\n" ++ (str "STARTTLS\r\n" ++ rest)) :
    ∃ c1, handleSession_frontend s c = (.nil, c1) ∧
      c1.Conn.calls = c.Conn.calls ++
        [str "220 " ++ s.cfg.AdvertiseName ++ str " ESMTP server is submissive (and breedable)\r\n",
         str "250-Hello " ++ encodeRunes rs ++ str "\r\n",
         str "250-PIPELINING\r\n", str "250-8BITMIME\r\n", str "250-ENHANCEDSTATUSCODES\r\n",
         str "250-CHUNKING\r\n", str "250-STARTTLS\r\n", str "250-SMTPUTF8\r\n",
         str "250 SIZE 33554432\r\n", str "220 2.0.0 Ready to start TLS\r\n"] ∧
      c1.Conn.wire = c.Conn.wire ++ List.flatten
        [str "220 " ++ s.cfg.AdvertiseName ++ str " ESMTP server is submissive (and breedable)\r\n",
         str "250-Hello " ++ encodeRunes rs ++ str "\r\n",
         str "250-PIPELINING\r\n", str "250-8BITMIME\r\n", str "250-ENHANCEDSTATUSCODES\r\n",
         str "250-CHUNKING\r\n", str "250-STARTTLS\r\n", str "250-SMTPUTF8\r\n",
         str "250 SIZE 33554432\r\n", str "220 2.0.0 Ready to start TLS\r\n"] ∧
      c1.EHLODomain = encodeRunes rs ∧ c1.pending = rest ∧
      ∀ env : Env, (handleSession s env c).sniffed = true ∧
        (handleSession s env c).conn.Conn.calls = c1.Conn.calls := by
  have h0 := After.refl c hcl hr
  obtain ⟨c1, e1, h1⟩ := Ready_step h0 s.cfg.AdvertiseName
  have hb1 : 10 ∉ str "EHLO " ++ encodeRunes rs ++ [13] := by
    have := newline_not_mem_word (fun r hr => (hs r hr).1)
    have e : str "EHLO " = [69, 72, 76, 79, 32] := by decide
    simp [e, this]
  have hp1 : c.pending = (str "EHLO " ++ encodeRunes rs ++ [13]) ++ 10 :: (str "STARTTLS\r\n" ++ rest) := by
    rw [hp]
    have e : str "\r\n" = [13, 10] := by decide
    simp [e]
  rw [hp1] at h1
  obtain ⟨c2, h2, e2⟩ := WaitEHLO_step h1 hb1
  rw [TrimSuffix_cr, Sscanf_EHLO rs hne hs hl] at e2
  simp only [ne_eq, not_true_eq_false, if_false, List.getD_cons_zero, List.getD_cons_succ] at e2
  have h2d : After c { c2 with EHLODomain := encodeRunes rs }
      ([] ++ [str "220 " ++ s.cfg.AdvertiseName ++ str " ESMTP server is submissive (and breedable)\r\n"])
      (str "STARTTLS\r\n" ++ rest) (encodeRunes rs) := by
    obtain ⟨a1, a2, a3, a4, a5, a6⟩ := h2
    exact ⟨a1, a2, a3, a4, a5, rfl⟩
  obtain ⟨c3, e3, h3⟩ := Write_step h2d (str "250-Hello " ++ encodeRunes rs ++ str "\r\n")
  obtain ⟨c4, e4, h4⟩ := writeCapabilities_step capabilities h3
  have hp4 : str "STARTTLS\r\n" ++ rest = (str "STARTTLS" ++ [13]) ++ 10 :: rest := by
    have e : str "STARTTLS\r\n" = str "STARTTLS" ++ [13, 10] := by decide
    simp [e]
  rw [hp4] at h4
  obtain ⟨c5, h5, e5⟩ := WaitSTARTTLS_step h4 (by decide)
  rw [TrimSuffix_cr] at e5
  have sc : Sscanf (str "STARTTLS") patternSTARTTLS = ([str "STARTTLS"], .nil) := by decide
  simp only [sc, ne_eq, not_true_eq_false, if_false, List.getD_cons_zero] at e5
  obtain ⟨c6, e6, h6⟩ := Write_step h5 (str "220 2.0.0 Ready to start TLS\r\n")
  have hf : handleSession_frontend s c = (.nil, c6) := by
    unfold handleSession_frontend
    simp only [e1, e2, e3, e4, e5, e6, ne_eq, not_true_eq_false, if_false]
  refine ⟨c6, hf, ?_, ?_, h6.2.2.2.2.2, h6.2.2.2.2.1, fun env => ?_⟩
  · rw [h6.2.2.1]
    congr 1
  · rw [h6.2.2.2.1]
    congr 1
  · have := handleSession_client_calls s env c (by rw [hf])
    rw [hf] at this
    exact this

/-- Witness for C5: the client that sends `EHLO me`, `STARTTLS` and three more bytes. -/
theorem frontend_transcript_witness :
    sampleSession.Conn.closed = false ∧ sampleSession.Conn.reliable ∧
    [109, 101] ≠ [] ∧ (∀ r ∈ [109, 101], isSpace r = false ∧ validRune r) ∧
    [109, 101].length + 5 ≤ hugeWid ∧
    sampleSession.pending =
      str "EHLO " ++ encodeRunes [109, 101] ++ str "\r\n" ++ (str "STARTTLS\r\n" ++ [22, 3, 1]) ∧
    (∃ c1, handleSession_frontend sampleServer sampleSession = (.nil, c1) ∧
      c1.Conn.calls = sampleSession.Conn.calls ++
        [str "220 " ++ sampleServer.cfg.AdvertiseName ++ str " ESMTP server is submissive (and breedable)\r\n",
         str "250-Hello " ++ encodeRunes [109, 101] ++ str "\r\n",
         str "250-PIPELINING\r\n", str "250-8BITMIME\r\n", str "250-ENHANCEDSTATUSCODES\r\n",
         str "250-CHUNKING\r\n", str "250-STARTTLS\r\n", str "250-SMTPUTF8\r\n",
         str "250 SIZE 33554432\r\n", str "220 2.0.0 Ready to start TLS\r\n"] ∧
      c1.Conn.wire = sampleSession.Conn.wire ++ List.flatten
        [str "220 " ++ sampleServer.cfg.AdvertiseName ++ str " ESMTP server is submissive (and breedable)\r\n",
         str "250-Hello " ++ encodeRunes [109, 101] ++ str "\r\n",
         str "250-PIPELINING\r\n", str "250-8BITMIME\r\n", str "250-ENHANCEDSTATUSCODES\r\n",
         str "250-CHUNKING\r\n", str "250-STARTTLS\r\n", str "250-SMTPUTF8\r\n",
         str "250 SIZE 33554432\r\n", str "220 2.0.0 Ready to start TLS\r\n"] ∧
      c1.EHLODomain = encodeRunes [109, 101] ∧ c1.pending = [22, 3, 1] ∧
      ∀ env : Env, (handleSession sampleServer env sampleSession).sniffed = true ∧
        (handleSession sampleServer env sampleSession).conn.Conn.calls = c1.Conn.calls) :=
  ⟨by decide, by decide, by decide, by decide, by decide, by decide,
   frontend_transcript sampleServer sampleSession [109, 101] [22, 3, 1] (by decide) (by decide)
     (by decide) (by decide) (by decide) (by decide)⟩

/-- Claim C6.  Error reporting in `handleConnection`, for the error `e` that `handleSession`
returns in any session.  If `e` is or wraps an `SMTPError`, then `e` is that `SMTPError` and
the one further write is its line `<basic> <enhanced> <message>` with CRLF.  Otherwise, if
`e` is nil, is or wraps a `*net.OpError`, or is `io.EOF`, nothing further is written and
nothing further is transmitted.  Otherwise the one further write is
`451 4.3.0 Service Unavailable` with CRLF.  In every case at most one status line is written.
On a client connection that was open when the session began and on which every write
succeeds, the line written is transmitted to the client: the bytes sent after those of the
session are exactly that line. -/
theorem error_report (s : Server) (env : Env) (conn : Conn) :
    ((∃ x, OnChain (handleSession s env { Conn := conn, rd := [], EHLODomain := [] }).err x ∧
        IsSMTPError x) →
      ∃ b en m u, (handleSession s env { Conn := conn, rd := [], EHLODomain := [] }).err =
          .smtp b en m u ∧
        (handleConnection s env conn).conn.Conn.calls =
          (handleSession s env { Conn := conn, rd := [], EHLODomain := [] }).conn.Conn.calls ++
            [fmtInt b ++ str " " ++ en ++ str " " ++ m ++ str "\r\n"] ∧
        (conn.closed = false → conn.reliable →
          (handleConnection s env conn).conn.Conn.wire =
            (handleSession s env { Conn := conn, rd := [], EHLODomain := [] }).conn.Conn.wire ++
              (fmtInt b ++ str " " ++ en ++ str " " ++ m ++ str "\r\n"))) ∧
    ((¬ ∃ x, OnChain (handleSession s env { Conn := conn, rd := [], EHLODomain := [] }).err x ∧
        IsSMTPError x) →
      ((handleSession s env { Conn := conn, rd := [], EHLODomain := [] }).err = .nil ∨
        (∃ x, OnChain (handleSession s env { Conn := conn, rd := [], EHLODomain := [] }).err x ∧
          IsOpError x) ∨
        (handleSession s env { Conn := conn, rd := [], EHLODomain := [] }).err = .eof) →
      (handleConnection s env conn).conn.Conn.calls =
        (handleSession s env { Conn := conn, rd := [], EHLODomain := [] }).conn.Conn.calls ∧
      (handleConnection s env conn).conn.Conn.wire =
        (handleSession s env { Conn := conn, rd := [], EHLODomain := [] }).conn.Conn.wire) ∧
    ((¬ ∃ x, OnChain (handleSession s env { Conn := conn, rd := [], EHLODomain := [] }).err x ∧
        IsSMTPError x) →
      ¬ ((handleSession s env { Conn := conn, rd := [], EHLODomain := [] }).err = .nil ∨
        (∃ x, OnChain (handleSession s env { Conn := conn, rd := [], EHLODomain := [] }).err x ∧
          IsOpError x) ∨
        (handleSession s env { Conn := conn, rd := [], EHLODomain := [] }).err = .eof) →
      (handleConnection s env conn).conn.Conn.calls =
        (handleSession s env { Conn := conn, rd := [], EHLODomain := [] }).conn.Conn.calls ++
          [str "451 4.3.0 Service Unavailable\r\n"] ∧
      (conn.closed = false → conn.reliable →
        (handleConnection s env conn).conn.Conn.wire =
          (handleSession s env { Conn := conn, rd := [], EHLODomain := [] }).conn.Conn.wire ++
            str "451 4.3.0 Service Unavailable\r\n")) ∧
    (∃ l : List Bytes, l.length ≤ 1 ∧
      (handleConnection s env conn).conn.Conn.calls =
        (handleSession s env { Conn := conn, rd := [], EHLODomain := [] }).conn.Conn.calls ++ l ∧
      (conn.closed = false → conn.reliable →
        (handleConnection s env conn).conn.Conn.wire =
          (handleSession s env { Conn := conn, rd := [], EHLODomain := [] }).conn.Conn.wire ++ l.flatten)) := by
  have l451 : smtpLine 451 (str "4.3.0") (str "Service Unavailable") =
      str "451 4.3.0 Service Unavailable\r\n" := by decide
  have hc := handleConnection_calls s env conn
  have hw := handleConnection_wire_open s env conn
  have hsil := handleConnection_silent s env conn
  rcases handleSession_shape s env { Conn := conn, rd := [], EHLODomain := [] } with hb | ⟨b, en, m, u, hs⟩
  · obtain ⟨n1, n2, n3, n4⟩ := BaseShape_chain hb
    refine ⟨fun h => absurd h n1, fun _ h => ?_, fun _ h => ?_, ?_⟩
    · have hrl : reportLines (handleSession s env { Conn := conn, rd := [], EHLODomain := [] }).err = [] := by
        unfold reportLines
        rw [n3]
        simp only
        rw [if_neg]
        rintro ⟨h1, h2, h3⟩
        rcases h with h | h | h
        · exact h1 h
        · rw [n2.mp h] at h2; cases h2
        · rw [n4.mpr h] at h3; cases h3
      exact ⟨by rw [hc, hrl, List.append_nil], hsil hrl⟩
    · have hrl : reportLines (handleSession s env { Conn := conn, rd := [], EHLODomain := [] }).err =
          [str "451 4.3.0 Service Unavailable\r\n"] := by
        unfold reportLines
        rw [n3]
        simp only
        rw [if_pos, l451]
        refine ⟨fun h1 => h (Or.inl h1), ?_, ?_⟩
        · cases h2 : errorsAsOpError (handleSession s env { Conn := conn, rd := [], EHLODomain := [] }).err with
          | false => rfl
          | true => exact absurd (Or.inr (Or.inl (n2.mpr h2))) h
        · cases h3 : errorsIsEOF (handleSession s env { Conn := conn, rd := [], EHLODomain := [] }).err with
          | false => rfl
          | true => exact absurd (Or.inr (Or.inr (n4.mp h3))) h
      refine ⟨by rw [hc, hrl], fun k1 k2 => ?_⟩
      rw [hw k1 k2, hrl]
      simp only [List.flatten_cons, List.flatten_nil, List.append_nil]
    · refine ⟨reportLines (handleSession s env { Conn := conn, rd := [], EHLODomain := [] }).err, ?_, hc, hw⟩
      unfold reportLines
      rw [n3]
      simp only
      split_ifs <;> simp
  · have hsm : ∃ x, OnChain (handleSession s env { Conn := conn, rd := [], EHLODomain := [] }).err x ∧
        IsSMTPError x := ⟨_, OnChain_self _, b, en, m, u, hs⟩
    have hrl : reportLines (handleSession s env { Conn := conn, rd := [], EHLODomain := [] }).err =
        [fmtInt b ++ str " " ++ en ++ str " " ++ m ++ str "\r\n"] := by
      rw [hs]
      rfl
    refine ⟨fun _ => ⟨b, en, m, u, hs, by rw [hc, hrl], fun k1 k2 => ?_⟩, fun h => absurd hsm h,
      fun h => absurd hsm h, ⟨_, ?_, hc, hw⟩⟩
    · rw [hw k1 k2, hrl]
      simp only [List.flatten_cons, List.flatten_nil, List.append_nil]
    · rw [hrl]
      simp

set_option maxRecDepth 16000 in
/-- Witness for C6, one session for each case.  The session in which no server name is
sniffed returns an `SMTPError`, and exactly its line is written and transmitted.  The session
of a client that closes without sending anything returns `io.EOF`, and nothing is written
after the greeting.  The session of a client whose first line is `QUIT` returns a plain
error, and `451 4.3.0 Service Unavailable` is written and transmitted. -/
theorem error_report_witness :
    ((∃ x, OnChain (handleSession emptyHostServer (sampleEnv []) { Conn := (sampleClient [str "EHLO me\r\n", str "STARTTLS\r\n", [22, 3, 1]]), rd := [], EHLODomain := [] }).err x ∧ IsSMTPError x) ∧
    (sampleClient [str "EHLO me\r\n", str "STARTTLS\r\n", [22, 3, 1]]).closed = false ∧
    (sampleClient [str "EHLO me\r\n", str "STARTTLS\r\n", [22, 3, 1]]).reliable ∧
    (∃ b en m u, (handleSession emptyHostServer (sampleEnv []) { Conn := (sampleClient [str "EHLO me\r\n", str "STARTTLS\r\n", [22, 3, 1]]), rd := [], EHLODomain := [] }).err = .smtp b en m u ∧
      (handleConnection emptyHostServer (sampleEnv []) (sampleClient [str "EHLO me\r\n", str "STARTTLS\r\n", [22, 3, 1]])).conn.Conn.calls =
        (handleSession emptyHostServer (sampleEnv []) { Conn := (sampleClient [str "EHLO me\r\n", str "STARTTLS\r\n", [22, 3, 1]]), rd := [], EHLODomain := [] }).conn.Conn.calls ++
          [fmtInt b ++ str " " ++ en ++ str " " ++ m ++ str "\r\n"] ∧
      (handleConnection emptyHostServer (sampleEnv []) (sampleClient [str "EHLO me\r\n", str "STARTTLS\r\n", [22, 3, 1]])).conn.Conn.wire =
        (handleSession emptyHostServer (sampleEnv []) { Conn := (sampleClient [str "EHLO me\r\n", str "STARTTLS\r\n", [22, 3, 1]]), rd := [], EHLODomain := [] }).conn.Conn.wire ++
          (fmtInt b ++ str " " ++ en ++ str " " ++ m ++ str "\r\n")) ∧
    (handleConnection emptyHostServer (sampleEnv []) (sampleClient [str "EHLO me\r\n", str "STARTTLS\r\n", [22, 3, 1]])).conn.Conn.wire =
      str "220 mx.test ESMTP server is submissive (and breedable)\r\n250-Hello me\r\n250-PIPELINING\r\n250-8BITMIME\r\n250-ENHANCEDSTATUSCODES\r\n250-CHUNKING\r\n250-STARTTLS\r\n250-SMTPUTF8\r\n250 SIZE 33554432\r\n220 2.0.0 Ready to start TLS\r\n501 5.5.4 No server name provided\r\n") ∧
    ((handleSession sampleServer (sampleEnv []) { Conn := (sampleClient []), rd := [], EHLODomain := [] }).err = .eof ∧
    (handleConnection sampleServer (sampleEnv []) (sampleClient [])).conn.Conn.calls =
      (handleSession sampleServer (sampleEnv []) { Conn := (sampleClient []), rd := [], EHLODomain := [] }).conn.Conn.calls ∧
    (handleConnection sampleServer (sampleEnv []) (sampleClient [])).conn.Conn.wire =
      (handleSession sampleServer (sampleEnv []) { Conn := (sampleClient []), rd := [], EHLODomain := [] }).conn.Conn.wire ∧
    (handleConnection sampleServer (sampleEnv []) (sampleClient [])).conn.Conn.wire =
      str "220 mx.test ESMTP server is submissive (and breedable)\r\n") ∧
    ((handleSession sampleServer (sampleEnv []) { Conn := (sampleClient [str "QUIT\r\n"]), rd := [], EHLODomain := [] }).err =
      .plain (str "unexpected EOF during scanf") ∧
    (handleConnection sampleServer (sampleEnv []) (sampleClient [str "QUIT\r\n"])).conn.Conn.calls =
      (handleSession sampleServer (sampleEnv []) { Conn := (sampleClient [str "QUIT\r\n"]), rd := [], EHLODomain := [] }).conn.Conn.calls ++
        [str "451 4.3.0 Service Unavailable\r\n"] ∧
    (handleConnection sampleServer (sampleEnv []) (sampleClient [str "QUIT\r\n"])).conn.Conn.wire =
      (handleSession sampleServer (sampleEnv []) { Conn := (sampleClient [str "QUIT\r\n"]), rd := [], EHLODomain := [] }).conn.Conn.wire ++
        str "451 4.3.0 Service Unavailable\r\n" ∧
    (handleConnection sampleServer (sampleEnv []) (sampleClient [str "QUIT\r\n"])).conn.Conn.wire =
      str "220 mx.test ESMTP server is submissive (and breedable)\r\n451 4.3.0 Service Unavailable\r\n") := by
  have h : ∃ x, OnChain (handleSession emptyHostServer (sampleEnv []) { Conn := (sampleClient [str "EHLO me\r\n", str "STARTTLS\r\n", [22, 3, 1]]), rd := [], EHLODomain := [] }).err x ∧ IsSMTPError x :=
    ⟨_, ⟨0, rfl⟩, 501, str "5.5.4", str "No server name provided",
      .plain (str "not implemented"), by decide⟩
  obtain ⟨b, en, m, u, e1, e2, e3⟩ := (error_report emptyHostServer (sampleEnv [])
    (sampleClient [str "EHLO me\r\n", str "STARTTLS\r\n", [22, 3, 1]])).1 h
  have he1 : (handleSession sampleServer (sampleEnv []) { Conn := (sampleClient []), rd := [], EHLODomain := [] }).err = .eof := by decide
  have n1 : ¬ ∃ x, OnChain (handleSession sampleServer (sampleEnv []) { Conn := (sampleClient []), rd := [], EHLODomain := [] }).err x ∧ IsSMTPError x := by
    rw [he1]
    exact (BaseShape_chain (Or.inr (Or.inl rfl))).1
  obtain ⟨q1, q2⟩ := (error_report sampleServer (sampleEnv []) (sampleClient [])).2.1 n1
    (Or.inr (Or.inr he1))
  have he2 : (handleSession sampleServer (sampleEnv []) { Conn := (sampleClient [str "QUIT\r\n"]), rd := [], EHLODomain := [] }).err =
      .plain (str "unexpected EOF during scanf") := by decide
  have hb2 : BaseShape (GoError.plain (str "unexpected EOF during scanf")) :=
    Or.inr (Or.inr (Or.inr ⟨_, rfl⟩))
  have n2 : ¬ ∃ x, OnChain (handleSession sampleServer (sampleEnv []) { Conn := (sampleClient [str "QUIT\r\n"]), rd := [], EHLODomain := [] }).err x ∧ IsSMTPError x := by
    rw [he2]
    exact (BaseShape_chain hb2).1
  have n3 : ¬ ((handleSession sampleServer (sampleEnv []) { Conn := (sampleClient [str "QUIT\r\n"]), rd := [], EHLODomain := [] }).err = .nil ∨
      (∃ x, OnChain (handleSession sampleServer (sampleEnv []) { Conn := (sampleClient [str "QUIT\r\n"]), rd := [], EHLODomain := [] }).err x ∧ IsOpError x) ∨
      (handleSession sampleServer (sampleEnv []) { Conn := (sampleClient [str "QUIT\r\n"]), rd := [], EHLODomain := [] }).err = .eof) := by
    rw [he2]
    rintro (k | k | k)
    · cases k
    · have := (BaseShape_chain hb2).2.1.mp k
      cases this
    · cases k
  obtain ⟨r1, r2⟩ := (error_report sampleServer (sampleEnv []) (sampleClient [str "QUIT\r\n"])).2.2.1
    n2 n3
  exact ⟨⟨h, by decide, by decide, ⟨b, en, m, u, e1, e2, e3 (by decide) (by decide)⟩, by decide⟩,
    ⟨he1, q1, q2, by decide⟩, ⟨he2, r1, r2 (by decide) (by decide), by decide⟩⟩

/-- Claim C7.  Capture and replay.  For every sequence of reads through a `CaptureConn`, the
reads return what the same reads on the wrapped connection return, leave the wrapped
connection as those reads leave it, and the buffer grows by the in-order concatenation of
the bytes returned.  Every `Write` reports the length of its argument and no error and
changes nothing; `Close` returns nil and changes nothing.  Whatever the TLS library does in
the sniffing step, nothing is written to the client, the client connection stays open, and
the captured bytes followed by the bytes still to arrive are the stream the step started
from.  Whenever `handleSession` has a backend connection, the writes it made on it are the
EHLO line, the STARTTLS line and then the whole capture buffer in a single call. -/
theorem capture_replay :
    (∀ (ns : List Nat) (cc : CaptureConn),
      (readsThrough ns cc).1 = (readsDirect ns cc.Conn).1 ∧
      (readsThrough ns cc).2.Conn = (readsDirect ns cc.Conn).2 ∧
      (readsThrough ns cc).2.teeBuffer =
        cc.teeBuffer ++ ((readsDirect ns cc.Conn).1.map Prod.fst).flatten) ∧
    (∀ (cc : CaptureConn) (p : Bytes), cc.Write p = ((p.length, .nil), cc)) ∧
    (∀ cc : CaptureConn, cc.Close = (.nil, cc)) ∧
    (∀ (p : TLSProg) (conn : Conn) (sn : Bytes),
      (runTLS p (NewCaptureConn conn) sn).2.1.Conn.calls = conn.calls ∧
      (runTLS p (NewCaptureConn conn) sn).2.1.Conn.wire = conn.wire ∧
      (runTLS p (NewCaptureConn conn) sn).2.1.Conn.closed = conn.closed ∧
      (runTLS p (NewCaptureConn conn) sn).2.1.teeBuffer ++
        (runTLS p (NewCaptureConn conn) sn).2.1.Conn.chunks.flatten = conn.chunks.flatten) ∧
    (∀ (s : Server) (env : Env) (c : SMTPConn) (b : Conn),
      (handleSession s env c).backend = some b →
      (handleSession s env c).captured =
        (runTLS env.handshake (NewCaptureConn (handleSession_frontend s c).2.Conn) []).2.1.teeBuffer ∧
      b.calls = [str "EHLO " ++ (handleSession s env c).conn.EHLODomain ++ str "\r\n",
        str "STARTTLS\r\n", (handleSession s env c).captured]) := by
  refine ⟨readsThrough_spec, fun _ _ => rfl, fun _ => rfl, ?_, ?_⟩
  · intro p conn sn
    obtain ⟨w1, w2, w3, -⟩ := runTLS_write_side p conn sn
    refine ⟨w1, w2, w3, ?_⟩
    have := (runTLS_frame p (NewCaptureConn conn) sn).2
    simpa [NewCaptureConn] using this
  · intro s env c b hb
    rcases handleSession_cases s env c with ⟨-, e⟩ | ⟨-, -, e⟩ | ⟨-, -, e⟩
    · rw [e] at hb; simp at hb
    · rw [e] at hb; simp [sniffedOutcome] at hb
    · obtain ⟨-, -, hc, -, -, hd, -⟩ := selectBackend_spec env (sniffedOutcome s env c) s.cfg.Backends
      rw [e] at hb ⊢
      have := selectBackend_backend env _ _ b hb rfl
      rw [hc, hd]
      exact ⟨rfl, this⟩

set_option maxRecDepth 8000 in
/-- Witness for C7: a session that reaches a backend; the writes on the backend connection
are the EHLO line, the STARTTLS line and the three captured bytes in one call. -/
theorem capture_replay_witness :
    (handleSession sampleServer (busyEnv (str "a.test")) sampleSession).backend =
      some { chunks := [], rerr := .eof, wscript := [],
             calls := [str "EHLO me\r\n", str "STARTTLS\r\n", [22, 3, 1]],
             wire := str "EHLO me\r\nSTARTTLS\r\n" ++ [22, 3, 1], closed := true } ∧
    ((handleSession sampleServer (busyEnv (str "a.test")) sampleSession).captured =
        (runTLS (busyEnv (str "a.test")).handshake
          (NewCaptureConn (handleSession_frontend sampleServer sampleSession).2.Conn) []).2.1.teeBuffer ∧
      (Conn.mk [] .eof [] [str "EHLO me\r\n", str "STARTTLS\r\n", [22, 3, 1]]
          (str "EHLO me\r\nSTARTTLS\r\n" ++ [22, 3, 1]) true).calls =
        [str "EHLO " ++ (handleSession sampleServer (busyEnv (str "a.test")) sampleSession).conn.EHLODomain ++
          str "\r\n",
         str "STARTTLS\r\n",
         (handleSession sampleServer (busyEnv (str "a.test")) sampleSession).captured]) :=
  ⟨by decide,
   capture_replay.2.2.2.2 sampleServer (busyEnv (str "a.test")) sampleSession
     (Conn.mk [] .eof [] [str "EHLO me\r\n", str "STARTTLS\r\n", [22, 3, 1]]
       (str "EHLO me\r\nSTARTTLS\r\n" ++ [22, 3, 1]) true) (by decide)⟩

set_option maxRecDepth 8000 in
/-- Claim C8, the code at a failing input.  The selected backend answers `421` and closes
without ever sending a line that begins with `220 2.0.0`.  The readiness wait ends with
`io.EOF`, yet the capture buffer is written to the backend, the relay starts, and the session
returns the relay result instead of the `SMTPError` 451 `Backend unavailable`; the client is
sent no status line. -/
theorem backend_not_ready :
    (handleSession sampleServer (busyEnv (str "a.test"))
      { Conn := sampleClient [str "EHLO me\r\n", str "STARTTLS\r\n", [22, 3, 1]], rd := [],
        EHLODomain := [] }).readiness = .eof ∧
    (handleSession sampleServer (busyEnv (str "a.test"))
      { Conn := sampleClient [str "EHLO me\r\n", str "STARTTLS\r\n", [22, 3, 1]], rd := [],
        EHLODomain := [] }).backend =
      some { chunks := [], rerr := .eof, wscript := [],
             calls := [str "EHLO me\r\n", str "STARTTLS\r\n", [22, 3, 1]],
             wire := str "EHLO me\r\nSTARTTLS\r\n" ++ [22, 3, 1], closed := true } ∧
    (handleSession sampleServer (busyEnv (str "a.test"))
      { Conn := sampleClient [str "EHLO me\r\n", str "STARTTLS\r\n", [22, 3, 1]], rd := [],
        EHLODomain := [] }).relayed = true ∧
    (handleSession sampleServer (busyEnv (str "a.test"))
      { Conn := sampleClient [str "EHLO me\r\n", str "STARTTLS\r\n", [22, 3, 1]], rd := [],
        EHLODomain := [] }).err = .nil ∧
    (handleConnection sampleServer (busyEnv (str "a.test"))
      (sampleClient [str "EHLO me\r\n", str "STARTTLS\r\n", [22, 3, 1]])).conn.Conn.calls =
      [str "220 mx.test ESMTP server is submissive (and breedable)\r\n",
       str "250-Hello me\r\n", str "250-PIPELINING\r\n", str "250-8BITMIME\r\n",
       str "250-ENHANCEDSTATUSCODES\r\n", str "250-CHUNKING\r\n",
       str "250-STARTTLS\r\n", str "250-SMTPUTF8\r\n",
       str "250 SIZE 33554432\r\n", str "220 2.0.0 Ready to start TLS\r\n"] := by
  decide

/-- Claim C9.  Whenever a session reached the sniffing step and the handshake attempt
recorded no server name (the recorded name is the empty string), `handleSession` returns the
`SMTPError` 501, `5.5.4`, `No server name provided` whose `Underlying` is the error of the
handshake attempt; no backend was dialed and none is connected, whatever the configured
backends are; and the one further write of `handleConnection` is
`501 5.5.4 No server name provided` with CRLF, which is transmitted if the writes to the
client succeed. -/
theorem no_server_name (s : Server) (env : Env) (conn : Conn)
    (hf : (handleSession_frontend s { Conn := conn, rd := [], EHLODomain := [] }).1 = .nil)
    (hn : (runTLS env.handshake
          (NewCaptureConn (handleSession_frontend s { Conn := conn, rd := [], EHLODomain := [] }).2.Conn)
          []).2.2 = []) :
    (handleSession s env { Conn := conn, rd := [], EHLODomain := [] }).err =
      .smtp 501 (str "5.5.4") (str "No server name provided")
        (runTLS env.handshake
          (NewCaptureConn (handleSession_frontend s { Conn := conn, rd := [], EHLODomain := [] }).2.Conn)
          []).1 ∧
    (handleSession s env { Conn := conn, rd := [], EHLODomain := [] }).dials = [] ∧
    (handleSession s env { Conn := conn, rd := [], EHLODomain := [] }).backend = none ∧
    (handleSession s env { Conn := conn, rd := [], EHLODomain := [] }).relayed = false ∧
    (handleConnection s env conn).conn.Conn.calls =
      (handleSession_frontend s { Conn := conn, rd := [], EHLODomain := [] }).2.Conn.calls ++
        [str "501 5.5.4 No server name provided\r\n"] ∧
    (conn.reliable → (handleConnection s env conn).conn.Conn.wire =
      (handleSession_frontend s { Conn := conn, rd := [], EHLODomain := [] }).2.Conn.wire ++
        str "501 5.5.4 No server name provided\r\n") := by
  have l501 : smtpLine 501 (str "5.5.4") (str "No server name provided") =
      str "501 5.5.4 No server name provided\r\n" := by decide
  obtain ⟨w1, w2, w3, w4⟩ := runTLS_write_side env.handshake
    (handleSession_frontend s { Conn := conn, rd := [], EHLODomain := [] }).2.Conn []
  rcases handleSession_cases s env { Conn := conn, rd := [], EHLODomain := [] } with
    ⟨h1, -⟩ | ⟨-, -, e⟩ | ⟨-, h2, -⟩
  · exact absurd hf h1
  · have ec : (handleSession s env { Conn := conn, rd := [], EHLODomain := [] }).conn.Conn =
        (runTLS env.handshake (NewCaptureConn
          (handleSession_frontend s { Conn := conn, rd := [], EHLODomain := [] }).2.Conn) []).2.1.Conn := by
      rw [e]; rfl
    have ee : (handleSession s env { Conn := conn, rd := [], EHLODomain := [] }).err =
      .smtp 501 (str "5.5.4") (str "No server name provided")
        (runTLS env.handshake
          (NewCaptureConn (handleSession_frontend s { Conn := conn, rd := [], EHLODomain := [] }).2.Conn)
          []).1 := by
      rw [e]; rfl
    refine ⟨ee, by rw [e]; rfl, by rw [e]; rfl, by rw [e]; rfl, ?_, ?_⟩
    · rw [handleConnection_calls, ec, ee, w1]
      simp only [reportLines, errorsAsSMTP, l501]
    · intro hr
      have hop := frontend_open s _ hf
      obtain ⟨fc, ps, -, ff⟩ := Frame_frontend s { Conn := conn, rd := [], EHLODomain := [] }
      obtain ⟨r1, -⟩ := ff hop hr
      rw [handleConnection_wire, ec, ee, w2]
      · simp only [reportLines, errorsAsSMTP, l501]
        simp
      · rw [ec, w3, fc]
        exact hop
      · rw [ec]
        unfold Conn.reliable at r1 ⊢
        rw [w4]
        exact r1
  · exact absurd hn h2

/-- Witness for C9: a ClientHello without a server name, on a server whose only backend has
the empty hostname. -/
theorem no_server_name_witness :
    ((handleSession_frontend emptyHostServer { Conn := (sampleClient [str "EHLO me\r\n", str "STARTTLS\r\n", [22, 3, 1]]), rd := [], EHLODomain := [] }).1 = .nil) ∧
    ((runTLS (sampleEnv []).handshake
          (NewCaptureConn (handleSession_frontend emptyHostServer { Conn := (sampleClient [str "EHLO me\r\n", str "STARTTLS\r\n", [22, 3, 1]]), rd := [], EHLODomain := [] }).2.Conn)
          []).2.2 = []) ∧
    ((handleSession emptyHostServer (sampleEnv []) { Conn := (sampleClient [str "EHLO me\r\n", str "STARTTLS\r\n", [22, 3, 1]]), rd := [], EHLODomain := [] }).err =
      .smtp 501 (str "5.5.4") (str "No server name provided")
        (runTLS (sampleEnv []).handshake
          (NewCaptureConn (handleSession_frontend emptyHostServer { Conn := (sampleClient [str "EHLO me\r\n", str "STARTTLS\r\n", [22, 3, 1]]), rd := [], EHLODomain := [] }).2.Conn)
          []).1 ∧
    (handleSession emptyHostServer (sampleEnv []) { Conn := (sampleClient [str "EHLO me\r\n", str "STARTTLS\r\n", [22, 3, 1]]), rd := [], EHLODomain := [] }).dials = [] ∧
    (handleSession emptyHostServer (sampleEnv []) { Conn := (sampleClient [str "EHLO me\r\n", str "STARTTLS\r\n", [22, 3, 1]]), rd := [], EHLODomain := [] }).backend = none ∧
    (handleSession emptyHostServer (sampleEnv []) { Conn := (sampleClient [str "EHLO me\r\n", str "STARTTLS\r\n", [22, 3, 1]]), rd := [], EHLODomain := [] }).relayed = false ∧
    (handleConnection emptyHostServer (sampleEnv []) (sampleClient [str "EHLO me\r\n", str "STARTTLS\r\n", [22, 3, 1]])).conn.Conn.calls =
      (handleSession_frontend emptyHostServer { Conn := (sampleClient [str "EHLO me\r\n", str "STARTTLS\r\n", [22, 3, 1]]), rd := [], EHLODomain := [] }).2.Conn.calls ++
        [str "501 5.5.4 No server name provided\r\n"] ∧
    ((sampleClient [str "EHLO me\r\n", str "STARTTLS\r\n", [22, 3, 1]]).reliable → (handleConnection emptyHostServer (sampleEnv []) (sampleClient [str "EHLO me\r\n", str "STARTTLS\r\n", [22, 3, 1]])).conn.Conn.wire =
      (handleSession_frontend emptyHostServer { Conn := (sampleClient [str "EHLO me\r\n", str "STARTTLS\r\n", [22, 3, 1]]), rd := [], EHLODomain := [] }).2.Conn.wire ++
        str "501 5.5.4 No server name provided\r\n")) :=
  ⟨by decide, by decide,
   no_server_name emptyHostServer (sampleEnv [])
     (sampleClient [str "EHLO me\r\n", str "STARTTLS\r\n", [22, 3, 1]]) (by decide) (by decide)⟩

/-- Claim C10.  The EHLO domain invariant.  Whenever `WaitEHLO` returns without error, the
domain it stored is non-empty and holds no whitespace.  When `WaitEHLO` fails (after a
greeting that was written), the first part of `handleSession` returns right there: the
session is in the state `WaitEHLO` left, so there is no STARTTLS wait, no acknowledgement and
no sniffing step.  Whenever a session reached the sniffing step, `WaitEHLO` had returned
without error and the session carries the domain it stored, non-empty and without
whitespace.  The lines `EHLO` and `EHLO ` without a domain make `WaitEHLO` fail. -/
theorem EHLO_domain_invariant :
    (∀ c : SMTPConn, c.WaitEHLO.1 = .nil →
      c.WaitEHLO.2.EHLODomain ≠ [] ∧
      ∀ r ∈ decodeRunes c.WaitEHLO.2.EHLODomain, isSpace r = false) ∧
    (∀ (s : Server) (c : SMTPConn), (c.Ready s.cfg.AdvertiseName).1 = .nil →
      (c.Ready s.cfg.AdvertiseName).2.WaitEHLO.1 ≠ .nil →
      handleSession_frontend s c = (c.Ready s.cfg.AdvertiseName).2.WaitEHLO ∧
      ∀ env, (handleSession s env c).sniffed = false ∧
        (handleSession s env c).conn = (c.Ready s.cfg.AdvertiseName).2.WaitEHLO.2) ∧
    (∀ (s : Server) (env : Env) (c : SMTPConn), (handleSession s env c).sniffed = true →
      (c.Ready s.cfg.AdvertiseName).2.WaitEHLO.1 = .nil ∧
      (handleSession s env c).conn.EHLODomain =
        (c.Ready s.cfg.AdvertiseName).2.WaitEHLO.2.EHLODomain ∧
      (handleSession s env c).conn.EHLODomain ≠ [] ∧
      ∀ r ∈ decodeRunes (handleSession s env c).conn.EHLODomain, isSpace r = false) ∧
    (∀ (c : SMTPConn) (rest : Bytes), c.Conn.closed = false →
      c.pending = str "EHLO\r\n" ++ rest ∨ c.pending = str "EHLO \r\n" ++ rest →
      c.WaitEHLO.1 ≠ .nil) := by
  refine ⟨fun c h => ?_, fun s c h1 h2 => ?_, fun s env c h => ?_, fun c rest hcl hp => ?_⟩
  · have hw := WaitEHLO_domain c h
    exact ⟨hw.ne_nil, hw.no_space⟩
  · have e := frontend_stops s c h1 h2
    refine ⟨e, fun env => ?_⟩
    have := handleSession_early s env c _ _ (by rw [e]) h2
    rw [this]
    exact ⟨rfl, rfl⟩
  · rcases handleSession_cases s env c with ⟨-, e⟩ | ⟨hf, -, e⟩ | ⟨hf, -, e⟩
    · rw [e] at h
      cases h
    · obtain ⟨d1, d2⟩ := frontend_domain s c hf
      have hw := WaitEHLO_domain _ d1
      have ed : (handleSession s env c).conn.EHLODomain =
          (c.Ready s.cfg.AdvertiseName).2.WaitEHLO.2.EHLODomain := by
        rw [e, ← d2]
        rfl
      rw [ed]
      exact ⟨d1, rfl, hw.ne_nil, hw.no_space⟩
    · obtain ⟨d1, d2⟩ := frontend_domain s c hf
      have hw := WaitEHLO_domain _ d1
      have ed : (handleSession s env c).conn.EHLODomain =
          (c.Ready s.cfg.AdvertiseName).2.WaitEHLO.2.EHLODomain := by
        rw [e, (selectBackend_spec env _ _).2.2.2.2.2.1, ← d2]
        rfl
      rw [ed]
      exact ⟨d1, rfl, hw.ne_nil, hw.no_space⟩
  · rw [WaitEHLO_no_domain c rest hcl hp]
    simp

/-- Witness for C10: the session of the client that sends `EHLO me` reaches the sniffing
step, and carries the domain `me`. -/
theorem EHLO_domain_invariant_witness :
    (handleSession sampleServer (sampleEnv (str "a.test")) sampleSession).sniffed = true ∧
    ((sampleSession.Ready sampleServer.cfg.AdvertiseName).2.WaitEHLO.1 = .nil ∧
      (handleSession sampleServer (sampleEnv (str "a.test")) sampleSession).conn.EHLODomain =
        (sampleSession.Ready sampleServer.cfg.AdvertiseName).2.WaitEHLO.2.EHLODomain ∧
      (handleSession sampleServer (sampleEnv (str "a.test")) sampleSession).conn.EHLODomain ≠ [] ∧
      ∀ r ∈ decodeRunes (handleSession sampleServer (sampleEnv (str "a.test")) sampleSession).conn.EHLODomain,
        isSpace r = false) ∧
    (handleSession sampleServer (sampleEnv (str "a.test")) sampleSession).conn.EHLODomain = str "me" :=
  ⟨by decide,
   EHLO_domain_invariant.2.2.1 sampleServer (sampleEnv (str "a.test")) sampleSession (by decide),
   by decide⟩

end Snider
